import Mathlib

/-!
# Cantera thermodynamic property evaluators: a shallow embedding

The C++ sources embedded here are

* `src/src/thermo/Mu0Poly.cpp` (piecewise-constant mu0 interpolation),
* `Cantera/src/thermo/VPSSMgr_ConstVol.cpp` (constant molar volume standard states),
* `src/src/thermo/MixedSolventElectrolyte.cpp` (Margules excess Gibbs energy model),
* `src/src/thermo/SpeciesThermoInterpType.cpp` (the delegating evaluator `STITbyPDSS`),
* `include/cantera/kinetics/ReactionData.h` (third-body efficiencies).

Conventions of the embedding.

* `doublereal` is idealised as an arbitrary linearly ordered field `K` with a floor function
  (the rationals and the reals are instances); rounding, infinities and NaN are not modelled.
  The natural logarithm is a parameter `log : K → K`; the facts about it that a proof needs are
  collected in `LogLike`, which `Real.log` satisfies (`realLog_logLike`).
* `GasConstant` (declared in a header that is not part of the sources) is a parameter, and so
  are the other constants, base-class functions and external classes that the sources use
  without defining them (`SmallNumber`, `npos`, `getStandardVolumes`, `getEnthalpy_RT`, the
  layout of `Array2D`, ...); each definition says which.
* A `std::vector<double>` is a `List K`; `v[i]` read is `rd v i`, `v[i] = x` is `List.set`,
  `v.resize(n)` is `resize v n`.  A raw `double*` is a function `Nat → K`.
* `throw CanteraError(...)` is `Except.error`; the error carries the state of the object at the
  moment of the throw, because the C++ object keeps the writes made before it.
-/

namespace Cantera

variable {K : Type}

/-! ## Vectors -/

/-- Read `v[i]` of a `std::vector<double>` (value 0 is returned outside the vector, where the
C++ behaviour is undefined). -/
def rd [Zero K] (v : List K) (i : Nat) : K := v.getD i 0

/-- The call `v.resize(n)`: keeps the first `n` entries and pads with `0.0` up to length `n`. -/
def resize [Zero K] (v : List K) (n : Nat) : List K :=
  v.take n ++ List.replicate (n - v.length) 0

/-! ## Mu0Poly -/

/-- The three `CanteraError`s thrown by `Mu0Poly::processCoeffs`. -/
inductive CanteraError
  /-- The error `CanteraError("Mu0Poly", "nPoints must be >= 2")`. -/
  | nPointsTooSmall
  /-- The error `CanteraError("Mu0Poly", "Temperatures are not monotonic increasing")`. -/
  | notMonotonic
  /-- The error `CanteraError("Mu0Poly", "One temperature has to be 298.15")`. -/
  | no298
  deriving DecidableEq

/-- Data members of `Mu0Poly`, including those inherited from `SpeciesThermoInterpType`. -/
structure Mu0Poly (K : Type) where
  m_lowT : K
  m_highT : K
  m_Pref : K
  m_index : Nat
  m_numIntervals : Nat
  m_H298 : K
  m_t0_int : List K
  m_mu0_R_int : List K
  m_h0_R_int : List K
  m_s0_R_int : List K
  m_cp0_R_int : List K

/-- Result of a member function that may throw: the object after a normal return, or the error
together with the object as the throw left it. -/
abbrev Thrown (K : Type) := Except (CanteraError × Mu0Poly K) (Mu0Poly K)

section Defs

variable [LinearOrderedField K]

/-- Loop of `processCoeffs`, lines 232-248:
`for (i = 0, iindex = 2; i < nPoints; i++) { ... iindex += 2; }`.
The first argument is the number of iterations still to run, `nPoints - i`.
Returns `(iT298, ifound, object)`. -/
def distributeLoop (GasConstant : K) (coeffs : Nat → K) (nPoints : Nat) :
    Nat → Nat → Nat → Nat → Bool → Mu0Poly K →
      Except (CanteraError × Mu0Poly K) (Nat × Bool × Mu0Poly K)
  | 0, _, _, iT298, ifound, self => .ok (iT298, ifound, self)
  | k + 1, i, iindex, iT298, ifound, self =>
    let T1 := coeffs iindex
    let self := { self with m_t0_int := self.m_t0_int.set i T1 }
    let self := { self with
      m_mu0_R_int := self.m_mu0_R_int.set i (coeffs (iindex + 1) / GasConstant) }
    let iT298 := if T1 = 298.15 then i else iT298
    let ifound := if T1 = 298.15 then true else ifound
    if i < nPoints - 1 ∧ coeffs (iindex + 2) ≤ T1 then
      .error (CanteraError.notMonotonic, self)
    else
      distributeLoop GasConstant coeffs nPoints k (i + 1) (iindex + 2) iT298 ifound self

/-- Body of the upward loop of `processCoeffs`, lines 263-277. -/
def upStep (log : K → K) (i : Nat) (self : Mu0Poly K) : Mu0Poly K :=
  let T1 := rd self.m_t0_int i
  let s1 := rd self.m_s0_R_int i
  let h1 := rd self.m_h0_R_int i
  let mu1 := rd self.m_mu0_R_int i
  let T2 := rd self.m_t0_int (i + 1)
  let mu2 := rd self.m_mu0_R_int (i + 1)
  let deltaMu := mu2 - mu1
  let deltaT := T2 - T1
  let cpi := (deltaMu - T1 * s1 + T2 * s1) / (deltaT - T2 * log (T2 / T1))
  let h2 := h1 + cpi * deltaT
  let s2 := s1 + cpi * log (T2 / T1)
  { self with
    m_cp0_R_int := (self.m_cp0_R_int.set i cpi).set (i + 1) cpi
    m_h0_R_int := self.m_h0_R_int.set (i + 1) h2
    m_s0_R_int := self.m_s0_R_int.set (i + 1) s2 }

/-- Upward loop, line 262: `for (i = iT298; i < m_numIntervals; i++)`.  The first argument
is the number of iterations still to run, `m_numIntervals - i`. -/
def upLoop (log : K → K) : Nat → Nat → Mu0Poly K → Mu0Poly K
  | 0, _, self => self
  | k + 1, i, self => upLoop log k (i + 1) (upStep log i self)

/-- Body of the downward loop of `processCoeffs`, lines 289-305. -/
def downStep (log : K → K) (i : Nat) (self : Mu0Poly K) : Mu0Poly K :=
  let T1 := rd self.m_t0_int i
  let mu1 := rd self.m_mu0_R_int i
  let T2 := rd self.m_t0_int (i + 1)
  let mu2 := rd self.m_mu0_R_int (i + 1)
  let s2 := rd self.m_s0_R_int (i + 1)
  let h2 := rd self.m_h0_R_int (i + 1)
  let deltaMu := mu2 - mu1
  let deltaT := T2 - T1
  let cpi := (deltaMu - T1 * s2 + T2 * s2) / (deltaT - T1 * log (T2 / T1))
  let h1 := h2 - cpi * deltaT
  let s1 := s2 - cpi * log (T2 / T1)
  let cp := self.m_cp0_R_int.set i cpi
  { self with
    m_cp0_R_int := if i = self.m_numIntervals - 1 then cp.set (i + 1) cpi else cp
    m_h0_R_int := self.m_h0_R_int.set i h1
    m_s0_R_int := self.m_s0_R_int.set i s1 }

/-- Downward loop, line 288: `for (i = iT298 - 1; i != npos; i--)`.  `downLoop log (i + 1)`
runs the body at `i` and goes on to `i - 1`; `downLoop log 0` is the exit, reached when the
unsigned counter wraps around to `npos`. -/
def downLoop (log : K → K) : Nat → Mu0Poly K → Mu0Poly K
  | 0, self => self
  | i + 1, self => downLoop log i (downStep log i self)

/-- The walks of `processCoeffs`, lines 257-307, started once the anchor index `iT298` is
known. -/
def walks (log : K → K) (iT298 : Nat) (self : Mu0Poly K) : Mu0Poly K :=
  let T1 := rd self.m_t0_int iT298
  let mu1 := rd self.m_mu0_R_int iT298
  let self := { self with m_h0_R_int := self.m_h0_R_int.set iT298 self.m_H298 }
  let self := { self with
    m_s0_R_int := self.m_s0_R_int.set iT298 (-(mu1 - rd self.m_h0_R_int iT298) / T1) }
  let self := upLoop log (self.m_numIntervals - iT298) iT298 self
  if iT298 ≠ 0 then
    let T2 := rd self.m_t0_int iT298
    let mu2 := rd self.m_mu0_R_int iT298
    let self := { self with m_h0_R_int := self.m_h0_R_int.set iT298 self.m_H298 }
    let self := { self with
      m_s0_R_int := self.m_s0_R_int.set iT298 (-(mu2 - rd self.m_h0_R_int iT298) / T2) }
    downLoop log iT298 self
  else
    self

/-- The function `Mu0Poly::processCoeffs(const doublereal* coeffs)`.  The cast
`(size_t) coeffs[0]` truncates toward zero, which is `⌊coeffs 0⌋₊` for every value above `-1`,
so for every point count `coeffs[0] ≥ 0`.  For `coeffs[0] ≤ -1` the truncated value is not a
`size_t` and C++ leaves the conversion undefined (compiled code usually wraps it to a huge
count, which passes the test `nPoints < 2`); `⌊coeffs 0⌋₊` is 0 there, so this definition
describes the function only for `coeffs[0] > -1`.  A call that returns normally has
`coeffs[0] ≥ 2`; what is stated about a call that fails is stated for `coeffs[0] ≥ 0`. -/
def processCoeffs [FloorRing K] (GasConstant : K) (log : K → K) (coeffs : Nat → K) (self : Mu0Poly K) :
    Thrown K :=
  let nPoints := ⌊coeffs 0⌋₊
  if nPoints < 2 then
    .error (CanteraError.nPointsTooSmall, self)
  else
    let self := { self with
      m_numIntervals := nPoints - 1
      m_H298 := coeffs 1 / GasConstant }
    let self := { self with
      m_t0_int := resize self.m_t0_int nPoints
      m_h0_R_int := resize self.m_h0_R_int nPoints
      m_s0_R_int := resize self.m_s0_R_int nPoints
      m_cp0_R_int := resize self.m_cp0_R_int nPoints
      m_mu0_R_int := resize self.m_mu0_R_int nPoints }
    match distributeLoop GasConstant coeffs nPoints nPoints 0 2 0 false self with
    | .error e => .error e
    | .ok (iT298, ifound, self) =>
      if ifound = false then
        .error (CanteraError.no298, self)
      else
        .ok (walks log iT298 self)

/-- The object built by the member initialisers of
`Mu0Poly::Mu0Poly(size_t n, doublereal tlow, doublereal thigh, doublereal pref, const doublereal*)`
before its body runs. -/
def Mu0Poly.init (n : Nat) (tlow thigh pref : K) : Mu0Poly K :=
  { m_lowT := tlow, m_highT := thigh, m_Pref := pref, m_index := n
    m_numIntervals := 0, m_H298 := 0
    m_t0_int := [], m_mu0_R_int := [], m_h0_R_int := [], m_s0_R_int := [], m_cp0_R_int := [] }

/-- The constructor `Mu0Poly::Mu0Poly(n, tlow, thigh, pref, coeffs)`. -/
def Mu0Poly.construct [FloorRing K] (GasConstant : K) (log : K → K) (n : Nat) (tlow thigh pref : K)
    (coeffs : Nat → K) : Thrown K :=
  processCoeffs GasConstant log coeffs (Mu0Poly.init n tlow thigh pref)

/-- The function `Mu0Poly::modifyParameters(doublereal* coeffs)`. -/
def modifyParameters [FloorRing K] (GasConstant : K) (log : K → K) (coeffs : Nat → K) (self : Mu0Poly K) :
    Thrown K :=
  processCoeffs GasConstant log coeffs self

/-- The three caller-owned output arrays of `updateProperties`. -/
structure ThermoOut (K : Type) where
  cp_R : Nat → K
  h_RT : Nat → K
  s_R : Nat → K

/-- Interval search of `updateProperties`, lines 69-77.  The first argument is the number of
iterations still to run, `m_numIntervals - i`; the table read `m_t0_int[i+1]` is checked, an
index outside the vector gives `none`. -/
def findInterval (self : Mu0Poly K) (T : K) : Nat → Nat → Option Nat
  | 0, _ => some self.m_numIntervals
  | k + 1, i =>
    match self.m_t0_int[i + 1]? with
    | none => none
    | some T2 => if T ≤ T2 then some i else findInterval self T k (i + 1)

/-- The function `Mu0Poly::updateProperties(tt, cp_R, h_RT, s_R)` with `T = *tt`.  Every
read of a table is checked: the result is `none` exactly when some index read is outside its
vector. -/
def updateProperties (log : K → K) (self : Mu0Poly K) (T : K) (out : ThermoOut K) :
    Option (ThermoOut K) :=
  match findInterval self T self.m_numIntervals 0 with
  | none => none
  | some j =>
    match self.m_t0_int[j]?, self.m_cp0_R_int[j]?, self.m_h0_R_int[j]?, self.m_s0_R_int[j]? with
    | some T1, some cp_Rj, some h0j, some s0j =>
      let rt := 1 / T
      some
        { cp_R := Function.update out.cp_R self.m_index cp_Rj
          h_RT := Function.update out.h_RT self.m_index (rt * (h0j + (T - T1) * cp_Rj))
          s_R := Function.update out.s_R self.m_index (s0j + cp_Rj * log (T / T1)) }
    | _, _, _, _ => none

/-- The function `Mu0Poly::updatePropertiesTemp(T, cp_R, h_RT, s_R)`. -/
def updatePropertiesTemp (log : K → K) (self : Mu0Poly K) (T : K) (out : ThermoOut K) :
    Option (ThermoOut K) :=
  updateProperties log self T out


/-- Values reported by `Mu0Poly::reportParameters` through its reference and pointer
arguments. -/
structure Report (K : Type) where
  n : Nat
  type : Int
  tlow : K
  thigh : K
  pref : K
  coeffs : Nat → K

/-- Loop of `reportParameters`, lines 108-112:
`for (size_t i = 0; i < m_numIntervals+1; i++) { ... j += 2; }`.
The first argument is the number of iterations still to run. -/
def reportLoop (GasConstant : K) (self : Mu0Poly K) : Nat → Nat → Nat → (Nat → K) → Nat → K
  | 0, _, _, coeffs => coeffs
  | k + 1, i, j, coeffs =>
    let coeffs := Function.update coeffs j (rd self.m_t0_int i)
    let coeffs := Function.update coeffs (j + 1) (rd self.m_mu0_R_int i * GasConstant)
    reportLoop GasConstant self k (i + 1) (j + 2) coeffs

/-- The function `Mu0Poly::reportParameters(n, type, tlow, thigh, pref, coeffs)`.  The
constant `MU0_INTERP` is declared in a header that is not part of the sources and is a
parameter; `coeffs` is the caller's buffer before the call. -/
def reportParameters (GasConstant : K) (MU0_INTERP : Int) (self : Mu0Poly K)
    (coeffs : Nat → K) : Report K :=
  let coeffs := Function.update coeffs 0 ((((self.m_numIntervals : Int) + 1 : Int)) : K)
  let coeffs := Function.update coeffs 1 (self.m_H298 * GasConstant)
  { n := self.m_index
    type := MU0_INTERP
    tlow := self.m_lowT
    thigh := self.m_highT
    pref := self.m_Pref
    coeffs := reportLoop GasConstant self (self.m_numIntervals + 1) 0 2 coeffs }

/-! ### Vocabulary of the statements -/

/-- Temperature of breakpoint `i` in a coefficient vector
`[n, H298, T_0, mu_0, ..., T_{n-1}, mu_{n-1}]`. -/
def tempAt (coeffs : Nat → K) (i : Nat) : K := coeffs (2 + 2 * i)

/-- Chemical potential of breakpoint `i` in a coefficient vector. -/
def mu0At (coeffs : Nat → K) (i : Nat) : K := coeffs (2 + 2 * i + 1)

/-- Validity of a coefficient vector `[n, H298, T_0, mu_0, ..., T_{n-1}, mu_{n-1}]`: at least
two points, strictly increasing temperatures, and some temperature equal to 298.15. -/
def ValidCoeffs [FloorRing K] (coeffs : Nat → K) : Prop :=
  2 ≤ ⌊coeffs 0⌋₊ ∧
  (∀ i, i < ⌊coeffs 0⌋₊ - 1 → tempAt coeffs i < tempAt coeffs (i + 1)) ∧
  ∃ i, i < ⌊coeffs 0⌋₊ ∧ tempAt coeffs i = 298.15

/-- Enthalpy (over `R`) given at temperature `T` by the formula of interval `j`. -/
def hInterval (self : Mu0Poly K) (j : Nat) (T : K) : K :=
  rd self.m_h0_R_int j + rd self.m_cp0_R_int j * (T - rd self.m_t0_int j)

/-- Entropy (over `R`) given at temperature `T` by the formula of interval `j`. -/
def sInterval (log : K → K) (self : Mu0Poly K) (j : Nat) (T : K) : K :=
  rd self.m_s0_R_int j + rd self.m_cp0_R_int j * log (T / rd self.m_t0_int j)

/-- Facts about the natural logarithm that the proofs use; `Real.log` satisfies them. -/
structure LogLike (log : K → K) : Prop where
  log_one : log 1 = 0
  log_lt_sub_one : ∀ x, 0 < x → x ≠ 1 → log x < x - 1
  one_sub_inv_lt_log : ∀ x, 0 < x → x ≠ 1 → 1 - x⁻¹ < log x

/-- A sample coefficient vector: three points, `H298 = 10`, anchor in the middle. -/
def sampleCoeffs : Nat → K := fun i => rd [3, 10, 200, 4, 298.15, 6, 400, 9] i

/-- A sample coefficient array whose second temperature is below the first:
`nPoints = 3`, `H298 = 10`, points `(200, 4)`, `(100, 6)`, `(400, 9)`. -/
def sampleBadCoeffs : Nat → K := fun i => rd [3, 10, 200, 4, 100, 6, 400, 9] i

/-- A sample evaluator holding tables of four points, unrelated to `sampleCoeffs`. -/
def sampleStale : Mu0Poly K :=
  { m_lowT := 100, m_highT := 500, m_Pref := 101325, m_index := 1
    m_numIntervals := 3, m_H298 := 7
    m_t0_int := [7, 7, 7, 7], m_mu0_R_int := [7, 7, 7, 7], m_h0_R_int := [7, 7, 7, 7]
    m_s0_R_int := [7, 7, 7, 7], m_cp0_R_int := [7, 7, 7, 7] }

/-- Relation that the upward walk establishes on interval `i`: the heat capacity solved from
the lower end point, and the propagated enthalpy and entropy at the upper end point. -/
def UpRel (log : K → K) (t mu h s cp : List K) (i : Nat) : Prop :=
  rd cp i = (rd mu (i + 1) - rd mu i - rd t i * rd s i + rd t (i + 1) * rd s i) /
      (rd t (i + 1) - rd t i - rd t (i + 1) * log (rd t (i + 1) / rd t i)) ∧
  rd h (i + 1) = rd h i + rd cp i * (rd t (i + 1) - rd t i) ∧
  rd s (i + 1) = rd s i + rd cp i * log (rd t (i + 1) / rd t i)

/-- Relation that the downward walk establishes on interval `i`: the heat capacity solved from
the upper end point, and the propagated enthalpy and entropy at the lower end point. -/
def DownRel (log : K → K) (t mu h s cp : List K) (i : Nat) : Prop :=
  rd cp i = (rd mu (i + 1) - rd mu i - rd t i * rd s (i + 1) + rd t (i + 1) * rd s (i + 1)) /
      (rd t (i + 1) - rd t i - rd t i * log (rd t (i + 1) / rd t i)) ∧
  rd h i = rd h (i + 1) - rd cp i * (rd t (i + 1) - rd t i) ∧
  rd s i = rd s (i + 1) - rd cp i * log (rd t (i + 1) / rd t i)

/-- The tables of `st` are the ones derived from `coeffs` with anchor index `a`. -/
structure Constructed [FloorRing K] (R : K) (log : K → K) (coeffs : Nat → K) (st : Mu0Poly K) (a : Nat) :
    Prop where
  numIntervals : st.m_numIntervals + 1 = ⌊coeffs 0⌋₊
  pos : 0 < st.m_numIntervals
  H298 : st.m_H298 = coeffs 1 / R
  len_t : st.m_t0_int.length = st.m_numIntervals + 1
  len_mu : st.m_mu0_R_int.length = st.m_numIntervals + 1
  len_h : st.m_h0_R_int.length = st.m_numIntervals + 1
  len_s : st.m_s0_R_int.length = st.m_numIntervals + 1
  len_cp : st.m_cp0_R_int.length = st.m_numIntervals + 1
  t0 : ∀ i, i ≤ st.m_numIntervals → rd st.m_t0_int i = tempAt coeffs i
  mu0 : ∀ i, i ≤ st.m_numIntervals → rd st.m_mu0_R_int i = mu0At coeffs i / R
  anchor_le : a ≤ st.m_numIntervals
  anchor : tempAt coeffs a = 298.15
  h_anchor : rd st.m_h0_R_int a = st.m_H298
  s_anchor : rd st.m_s0_R_int a = -(rd st.m_mu0_R_int a - st.m_H298) / rd st.m_t0_int a
  up : ∀ j, a ≤ j → j < st.m_numIntervals →
    UpRel log st.m_t0_int st.m_mu0_R_int st.m_h0_R_int st.m_s0_R_int st.m_cp0_R_int j
  down : ∀ j, j < a →
    DownRel log st.m_t0_int st.m_mu0_R_int st.m_h0_R_int st.m_s0_R_int st.m_cp0_R_int j
  cp_last : rd st.m_cp0_R_int st.m_numIntervals = rd st.m_cp0_R_int (st.m_numIntervals - 1)

/-! ## VPSSMgr_ConstVol -/

/-- Data members that `VPSSMgr_ConstVol` inherits from `VPSSMgr` and uses in this file.  The
class declaration is in a header that is not part of the sources; the members are the ones the
member functions name. -/
structure VPSSMgr_ConstVol (K : Type) where
  m_kk : Int
  m_tlast : K
  m_plast : K
  m_p0 : K
  m_useTmpRefStateStorage : Bool
  m_useTmpStandardStateStorage : Bool
  m_h0_RT : List K
  m_cp0_R : List K
  m_g0_RT : List K
  m_s0_R : List K
  m_hss_RT : List K
  m_cpss_R : List K
  m_gss_RT : List K
  m_sss_R : List K
  m_Vss : List K

/-- Loop of `_updateStandardStateThermo`, lines 81-87: `for (int k = 0; k < m_kk; k++)`.
The first argument is the number of iterations still to run, `m_kk - k`. -/
def updateStandardStateLoop (del_pRT : K) :
    Nat → Nat → VPSSMgr_ConstVol K → VPSSMgr_ConstVol K
  | 0, _, self => self
  | n + 1, k, self =>
    let self := { self with
      m_hss_RT := self.m_hss_RT.set k (rd self.m_h0_RT k + del_pRT * rd self.m_Vss k) }
    let self := { self with m_cpss_R := self.m_cpss_R.set k (rd self.m_cp0_R k) }
    let self := { self with m_sss_R := self.m_sss_R.set k (rd self.m_s0_R k) }
    let self := { self with
      m_gss_RT := self.m_gss_RT.set k (rd self.m_hss_RT k - rd self.m_sss_R k) }
    updateStandardStateLoop del_pRT n (k + 1) self

/-- The function `VPSSMgr_ConstVol::_updateStandardStateThermo()`. -/
def VPSSMgr_ConstVol._updateStandardStateThermo (GasConstant : K)
    (self : VPSSMgr_ConstVol K) : VPSSMgr_ConstVol K :=
  let del_pRT := (self.m_plast - self.m_p0) / (GasConstant * self.m_tlast)
  updateStandardStateLoop del_pRT self.m_kk.toNat 0 self

/-- The four standard-state arrays written by the update hold at least `m_kk` entries. -/
def VPSSMgr_ConstVol.Sized (self : VPSSMgr_ConstVol K) : Prop :=
  self.m_kk.toNat ≤ self.m_hss_RT.length ∧ self.m_kk.toNat ≤ self.m_cpss_R.length ∧
  self.m_kk.toNat ≤ self.m_sss_R.length ∧ self.m_kk.toNat ≤ self.m_gss_RT.length

/-- A sample manager of two species; the second species has molar volume zero. -/
def sampleMgr : VPSSMgr_ConstVol K :=
  { m_kk := 2, m_tlast := 300, m_plast := 200000, m_p0 := 100000
    m_useTmpRefStateStorage := true, m_useTmpStandardStateStorage := true
    m_h0_RT := [1, 2], m_cp0_R := [3, 4], m_g0_RT := [-4, -4], m_s0_R := [5, 6]
    m_hss_RT := [0, 0], m_cpss_R := [0, 0], m_gss_RT := [0, 0], m_sss_R := [0, 0]
    m_Vss := [3, 0] }

/-- The `CanteraError`s thrown by the member functions of `VPSSMgr_ConstVol`. -/
inductive VPSSMgrError
  /-- Thrown by `getGibbs_RT_ref`: "unimplemented without m_useTmpRefStateStorage". -/
  | getGibbs_RT_ref_unimplemented
  /-- Thrown by `getStandardVolumes_ref`: "unimplemented without m_useTmpRefStateStorage"
  (the text names the other flag than the one tested). -/
  | getStandardVolumes_ref_unimplemented
  /-- Thrown by `initThermoXML`: "no species Node for species ...". -/
  | noSpeciesNode
  /-- Thrown by `initThermoXML` and `createInstallPDSS`: "no standardState Node for
  species ...". -/
  | noStandardStateNode
  /-- Thrown by `initThermoXML` and `createInstallPDSS`: "standardState model for species
  isn't constant_incompressible: ...". -/
  | modelNotConstantIncompressible
  deriving DecidableEq

/-- The call `std::copy(v.begin(), v.end(), out)`: the entries of `v` are written to the
first `v.size()` places of the buffer `out`. -/
def stdCopy [Zero K] (v : List K) (out : Nat → K) : Nat → K :=
  fun i => if i < v.length then rd v i else out i

/-- The function `VPSSMgr_ConstVol::getGibbs_RT_ref(doublereal* grt)`.  The template `scale`
is declared in a header that is not part of the sources and is a parameter:
`scale buf n factor` is the buffer left by the call `scale(buf, buf + n, buf, factor)`.
An error carries the caller's buffer as the throw left it. -/
def VPSSMgr_ConstVol.getGibbs_RT_ref (scale : (Nat → K) → Nat → K → Nat → K)
    (GasConstant : K) (self : VPSSMgr_ConstVol K) (grt : Nat → K) :
    Except (VPSSMgrError × (Nat → K)) (Nat → K) :=
  if self.m_useTmpRefStateStorage = true then
    let grt := stdCopy self.m_g0_RT grt
    let _rt := GasConstant * self.m_tlast
    .ok (scale grt self.m_kk.toNat _rt)
  else
    .error (VPSSMgrError.getGibbs_RT_ref_unimplemented, grt)

/-- What the template `scale` of Cantera does: it multiplies each of the first `n` entries
of the buffer by the factor. -/
def scaleTimes (buf : Nat → K) (n : Nat) (factor : K) : Nat → K :=
  fun i => if i < n then buf i * factor else buf i

/-- The function `VPSSMgr_ConstVol::getStandardVolumes_ref(doublereal* vol)`.  An error
carries the caller's buffer as the throw left it. -/
def VPSSMgr_ConstVol.getStandardVolumes_ref (self : VPSSMgr_ConstVol K) (vol : Nat → K) :
    Except (VPSSMgrError × (Nat → K)) (Nat → K) :=
  if self.m_useTmpStandardStateStorage = true then
    .ok (stdCopy self.m_Vss vol)
  else
    .error (VPSSMgrError.getStandardVolumes_ref_unimplemented, vol)

/-- What the loader reads from a `standardState` XML node: the attribute `model`, and the
value `ctml::getFloat(*ss, "molarVolume", "toSI")`. -/
structure StandardStateNode (K : Type) where
  model : String
  molarVolume : K

/-- What the loader reads from a species XML node: the result of
`findByName("standardState")`, absent when the pointer is null. -/
structure SpeciesNode (K : Type) where
  standardState : Option (StandardStateNode K)

/-- The test `model != "constant_incompressible" && model != "constantVolume"` of
`initThermoXML` (line 153) and `createInstallPDSS` (line 176). -/
def modelRejected (model : String) : Bool :=
  model != "constant_incompressible" && model != "constantVolume"

/-- Loop of `VPSSMgr_ConstVol::initThermoXML`, lines 141-158:
`for (int k = 0; k < m_kk; k++)`.  `nodes k` is the result of
`speciesDB->findByAttr("name", sss[k])`, absent when the pointer is null.  The first argument
is the number of iterations still to run. -/
def initThermoXMLLoop (nodes : Nat → Option (SpeciesNode K)) :
    Nat → Nat → VPSSMgr_ConstVol K →
      Except (VPSSMgrError × VPSSMgr_ConstVol K) (VPSSMgr_ConstVol K)
  | 0, _, self => .ok self
  | n + 1, k, self =>
    match nodes k with
    | none => .error (VPSSMgrError.noSpeciesNode, self)
    | some s =>
      match s.standardState with
      | none => .error (VPSSMgrError.noStandardStateNode, self)
      | some ss =>
        if modelRejected ss.model = true then
          .error (VPSSMgrError.modelNotConstantIncompressible, self)
        else
          initThermoXMLLoop nodes n (k + 1)
            { self with m_Vss := self.m_Vss.set k ss.molarVolume }

/-- The function `VPSSMgr_ConstVol::initThermoXML(phaseNode, id)`, after the call of the base
class `VPSSMgr::initThermoXML`, which is not part of the sources. -/
def VPSSMgr_ConstVol.initThermoXML (nodes : Nat → Option (SpeciesNode K))
    (self : VPSSMgr_ConstVol K) :
    Except (VPSSMgrError × VPSSMgr_ConstVol K) (VPSSMgr_ConstVol K) :=
  initThermoXMLLoop nodes self.m_kk.toNat 0 self

/-- The function `VPSSMgr_ConstVol::createInstallPDSS(k, speciesNode, phaseNode_ptr)` up to
the write of `m_Vss[k]`.  The calls `installSTSpecies` and `new PDSS_ConstVol` that follow are
code that is not part of the sources. -/
def VPSSMgr_ConstVol.createInstallPDSS (k : Nat) (speciesNode : SpeciesNode K)
    (self : VPSSMgr_ConstVol K) :
    Except (VPSSMgrError × VPSSMgr_ConstVol K) (VPSSMgr_ConstVol K) :=
  match speciesNode.standardState with
  | none => .error (VPSSMgrError.noStandardStateNode, self)
  | some ss =>
    if modelRejected ss.model = true then
      .error (VPSSMgrError.modelNotConstantIncompressible, self)
    else
      let self :=
        if self.m_Vss.length < k + 1 then { self with m_Vss := resize self.m_Vss (k + 1) }
        else self
      .ok { self with m_Vss := self.m_Vss.set k ss.molarVolume }

/-! ## MixedSolventElectrolyte -/

/-- The loop `for (size_t i = i0; i < i0 + n; i++) body(i)` acting on the variables `σ` that
the body writes.  The first argument is the number of iterations still to run. -/
def forLoop {σ : Type} (body : Nat → σ → σ) : Nat → Nat → σ → σ
  | 0, _, s => s
  | n + 1, i, s => forLoop body n (i + 1) (body i s)

/-- Data members of `MixedSolventElectrolyte` and of its base classes that the functions of
`MixedSolventElectrolyte.cpp` embedded here read or write.  `temperature` is the value
returned by `temperature()`; `dlnActCoeffdlnN_` is the data vector of the `Array2D`. -/
structure MixedSolventElectrolyte (K : Type) where
  m_kk : Nat
  temperature : K
  moleFractions_ : List K
  numBinaryInteractions_ : Nat
  m_HE_b_ij : List K
  m_HE_c_ij : List K
  m_HE_d_ij : List K
  m_SE_b_ij : List K
  m_SE_c_ij : List K
  m_SE_d_ij : List K
  m_VHE_b_ij : List K
  m_VHE_c_ij : List K
  m_VHE_d_ij : List K
  m_VSE_b_ij : List K
  m_VSE_c_ij : List K
  m_VSE_d_ij : List K
  m_pSpecies_A_ij : List Nat
  m_pSpecies_B_ij : List Nat
  formMargules_ : Int
  formTempModel_ : Int
  lnActCoeff_Scaled_ : List K
  dlnActCoeffdT_Scaled_ : List K
  d2lnActCoeffdT2_Scaled_ : List K
  dlnActCoeffdlnN_diag_ : List K
  dlnActCoeffdlnX_diag_ : List K
  dlnActCoeffdlnN_ : List K

/-- The two `CanteraError`s thrown by the constructor
`MixedSolventElectrolyte::MixedSolventElectrolyte(int testProb)`. -/
inductive TestProbError
  /-- The error "Unable to find LiCl(L)". -/
  | unableToFindLiCl
  /-- The error "Unable to find KCl(L)". -/
  | unableToFindKCl
  deriving DecidableEq

/-- The constructor `MixedSolventElectrolyte::MixedSolventElectrolyte(int testProb)`, lines
93-148.  `phase` is the object left by `initThermoFile("LiKCl_liquid.xml", "")`, which is not
part of the sources; `iLiCl` and `iKCl` are the results of `speciesIndex("LiCl(L)")` and
`speciesIndex("KCl(L)")`, `none` standing for `npos`. -/
def MixedSolventElectrolyte.testProb (phase : MixedSolventElectrolyte K)
    (iLiCl iKCl : Option Nat) : Except TestProbError (MixedSolventElectrolyte K) :=
  let self := { phase with numBinaryInteractions_ := 1 }
  let self := { self with
    m_HE_b_ij := resize self.m_HE_b_ij 1
    m_HE_c_ij := resize self.m_HE_c_ij 1
    m_HE_d_ij := resize self.m_HE_d_ij 1
    m_SE_b_ij := resize self.m_SE_b_ij 1
    m_SE_c_ij := resize self.m_SE_c_ij 1
    m_SE_d_ij := resize self.m_SE_d_ij 1
    m_VHE_b_ij := resize self.m_VHE_b_ij 1
    m_VHE_c_ij := resize self.m_VHE_c_ij 1
    m_VHE_d_ij := resize self.m_VHE_d_ij 1
    m_VSE_b_ij := resize self.m_VSE_b_ij 1
    m_VSE_c_ij := resize self.m_VSE_c_ij 1
    m_VSE_d_ij := resize self.m_VSE_d_ij 1
    m_pSpecies_A_ij := resize self.m_pSpecies_A_ij 1
    m_pSpecies_B_ij := resize self.m_pSpecies_B_ij 1 }
  let self := { self with
    m_HE_b_ij := self.m_HE_b_ij.set 0 (-17570e3)
    m_HE_c_ij := self.m_HE_c_ij.set 0 (-377.0e3)
    m_HE_d_ij := self.m_HE_d_ij.set 0 0.0
    m_SE_b_ij := self.m_SE_b_ij.set 0 (-7.627e3)
    m_SE_c_ij := self.m_SE_c_ij.set 0 4.958e3
    m_SE_d_ij := self.m_SE_d_ij.set 0 0.0 }
  match iLiCl with
  | none => .error TestProbError.unableToFindLiCl
  | some iLiCl =>
    let self := { self with m_pSpecies_B_ij := self.m_pSpecies_B_ij.set 0 iLiCl }
    match iKCl with
    | none => .error TestProbError.unableToFindKCl
    | some iKCl => .ok { self with m_pSpecies_A_ij := self.m_pSpecies_A_ij.set 0 iKCl }

/-- The value added to `lnActCoeff_Scaled_[iK]` for record `i` by the body of the loops of
`s_update_lnActCoeff`, lines 446-459. -/
def lnActCoeffTerm (self : MixedSolventElectrolyte K) (T RT : K) (iK i : Nat) : K :=
  let iA := rd self.m_pSpecies_A_ij i
  let iB := rd self.m_pSpecies_B_ij i
  let delAK : Int := if iA = iK then 1 else 0
  let delBK : Int := if iA = iK then 0 else if iB = iK then 1 else 0
  let XA := rd self.moleFractions_ iA
  let XB := rd self.moleFractions_ iB
  let g0 := (rd self.m_HE_b_ij i - T * rd self.m_SE_b_ij i) / RT
  let g1 := (rd self.m_HE_c_ij i - T * rd self.m_SE_c_ij i) / RT
  ((delAK : K) * XB + XA * (delBK : K) - XA * XB) * (g0 + g1 * XB)
    + XA * XB * ((delBK : K) - XB) * g1

/-- The function `MixedSolventElectrolyte::s_update_lnActCoeff()`.  The loops write only the
vector `lnActCoeff_Scaled_`, which is the state they thread. -/
def MixedSolventElectrolyte.s_update_lnActCoeff (GasConstant : K)
    (self : MixedSolventElectrolyte K) : MixedSolventElectrolyte K :=
  let T := self.temperature
  let RT := GasConstant * T
  let lnActCoeff := List.replicate self.m_kk (0 : K)
  { self with
    lnActCoeff_Scaled_ :=
      forLoop
        (fun iK lnActCoeff =>
          forLoop
            (fun i lnActCoeff =>
              lnActCoeff.set iK (rd lnActCoeff iK + lnActCoeffTerm self T RT iK i))
            self.numBinaryInteractions_ 0 lnActCoeff)
        self.m_kk 0 lnActCoeff }

/-- The value `temp` computed for record `i` by the body of the loops of
`s_update_dlnActCoeff_dT`, lines 472-485. -/
def dlnActCoeffdTTerm (self : MixedSolventElectrolyte K) (RTT : K) (iK i : Nat) : K :=
  let iA := rd self.m_pSpecies_A_ij i
  let iB := rd self.m_pSpecies_B_ij i
  let delAK : Int := if iA = iK then 1 else 0
  let delBK : Int := if iA = iK then 0 else if iB = iK then 1 else 0
  let XA := rd self.moleFractions_ iA
  let XB := rd self.moleFractions_ iB
  let g0 := -rd self.m_HE_b_ij i / RTT
  let g1 := -rd self.m_HE_c_ij i / RTT
  ((delAK : K) * XB + XA * (delBK : K) - XA * XB) * (g0 + g1 * XB)
    + XA * XB * ((delBK : K) - XB) * g1

/-- The function `MixedSolventElectrolyte::s_update_dlnActCoeff_dT()`.  The loops write the
vectors `dlnActCoeffdT_Scaled_` and `d2lnActCoeffdT2_Scaled_`, the pair they thread. -/
def MixedSolventElectrolyte.s_update_dlnActCoeff_dT (GasConstant : K)
    (self : MixedSolventElectrolyte K) : MixedSolventElectrolyte K :=
  let T := self.temperature
  let RTT := GasConstant * T * T
  let d1 := List.replicate self.m_kk (0 : K)
  let d2 := List.replicate self.m_kk (0 : K)
  let r :=
    forLoop
      (fun iK (d : List K × List K) =>
        forLoop
          (fun i (d : List K × List K) =>
            let temp := dlnActCoeffdTTerm self RTT iK i
            (d.1.set iK (rd d.1 iK + temp), d.2.set iK (rd d.2 iK - 2.0 * temp / T)))
          self.numBinaryInteractions_ 0 d)
      self.m_kk 0 (d1, d2)
  { self with dlnActCoeffdT_Scaled_ := r.1, d2lnActCoeffdT2_Scaled_ := r.2 }

/-- The function `MixedSolventElectrolyte::getdlnActCoeffdT(doublereal* dlnActCoeffdT)`:
returns the object and the caller's buffer after the call. -/
def MixedSolventElectrolyte.getdlnActCoeffdT (GasConstant : K)
    (self : MixedSolventElectrolyte K) (dlnActCoeffdT : Nat → K) :
    MixedSolventElectrolyte K × (Nat → K) :=
  let self := self.s_update_dlnActCoeff_dT GasConstant
  (self, forLoop (fun k out => Function.update out k (rd self.dlnActCoeffdT_Scaled_ k))
    self.m_kk 0 dlnActCoeffdT)

/-- The indicator written `dA`, `dB` in the formulas: 1 if the two indices are equal,
else 0. -/
def kron (k j : Nat) : K := if k = j then 1 else 0

/-- The summand `(dA*X_B + X_A*dB - X_A*X_B)*(g0 + g1*X_B) + X_A*X_B*(dB - X_B)*g1` of the
activity-coefficient sum. -/
def margulesTerm (dA dB XA XB g0 g1 : K) : K :=
  (dA * XB + XA * dB - XA * XB) * (g0 + g1 * XB) + XA * XB * (dB - XB) * g1

/-- The parameter `g0 = (Hb_i - T*Sb_i)/(R*T)` of record `i`. -/
def g0At (R : K) (self : MixedSolventElectrolyte K) (i : Nat) : K :=
  (rd self.m_HE_b_ij i - self.temperature * rd self.m_SE_b_ij i) / (R * self.temperature)

/-- The parameter `g1 = (Hc_i - T*Sc_i)/(R*T)` of record `i`. -/
def g1At (R : K) (self : MixedSolventElectrolyte K) (i : Nat) : K :=
  (rd self.m_HE_c_ij i - self.temperature * rd self.m_SE_c_ij i) / (R * self.temperature)

/-- Mole fraction of species `A_i` of record `i`. -/
def XAAt (self : MixedSolventElectrolyte K) (i : Nat) : K :=
  rd self.moleFractions_ (rd self.m_pSpecies_A_ij i)

/-- Mole fraction of species `B_i` of record `i`. -/
def XBAt (self : MixedSolventElectrolyte K) (i : Nat) : K :=
  rd self.moleFractions_ (rd self.m_pSpecies_B_ij i)

/-- A phase of `kk` species without interaction records and with empty work vectors. -/
def MixedSolventElectrolyte.blank (kk : Nat) (T : K) (X : List K) :
    MixedSolventElectrolyte K :=
  { m_kk := kk, temperature := T, moleFractions_ := X, numBinaryInteractions_ := 0
    m_HE_b_ij := [], m_HE_c_ij := [], m_HE_d_ij := []
    m_SE_b_ij := [], m_SE_c_ij := [], m_SE_d_ij := []
    m_VHE_b_ij := [], m_VHE_c_ij := [], m_VHE_d_ij := []
    m_VSE_b_ij := [], m_VSE_c_ij := [], m_VSE_d_ij := []
    m_pSpecies_A_ij := [], m_pSpecies_B_ij := []
    formMargules_ := 0, formTempModel_ := 0
    lnActCoeff_Scaled_ := [], dlnActCoeffdT_Scaled_ := [], d2lnActCoeffdT2_Scaled_ := []
    dlnActCoeffdlnN_diag_ := [], dlnActCoeffdlnX_diag_ := [], dlnActCoeffdlnN_ := [] }

/-- A sample phase of three species at 900 K with the single record `(A, B) = (1, 0)` of
the test constructor; species 2 is absent from the record. -/
def samplePhase : MixedSolventElectrolyte K :=
  { MixedSolventElectrolyte.blank 3 900 [0.6, 0.4, 0] with
    numBinaryInteractions_ := 1
    m_HE_b_ij := [-17570e3], m_HE_c_ij := [-377.0e3], m_HE_d_ij := [0]
    m_SE_b_ij := [-7.627e3], m_SE_c_ij := [4.958e3], m_SE_d_ij := [0]
    m_pSpecies_A_ij := [1], m_pSpecies_B_ij := [0] }

/-- The value of the first two summands added to `dlnActCoeffds[iK]` for record `i` by the
body of the loops of `getdlnActCoeffds`, lines 523-544 (the third summand is
`dlnActCoeffdT_Scaled_[iK]*dTds`). -/
def dlnActCoeffdsTerm (self : MixedSolventElectrolyte K) (T RT : K) (dXds : Nat → K)
    (iK i : Nat) : K :=
  let iA := rd self.m_pSpecies_A_ij i
  let iB := rd self.m_pSpecies_B_ij i
  let delAK : Int := if iA = iK then 1 else 0
  let delBK : Int := if iA = iK then 0 else if iB = iK then 1 else 0
  let XA := rd self.moleFractions_ iA
  let XB := rd self.moleFractions_ iB
  let dXA := dXds iA
  let dXB := dXds iB
  let g0 := (rd self.m_HE_b_ij i - T * rd self.m_SE_b_ij i) / RT
  let g1 := (rd self.m_HE_c_ij i - T * rd self.m_SE_c_ij i) / RT
  (((delBK : K) - XB) * dXA + ((delAK : K) - XA) * dXB) * (g0 + 2 * g1 * XB)
    + ((delBK : K) - XB) * 2 * g1 * XA * dXB

/-- The function `MixedSolventElectrolyte::getdlnActCoeffds(dTds, dXds, dlnActCoeffds)`:
returns the object and the caller's output buffer after the call. -/
def MixedSolventElectrolyte.getdlnActCoeffds (GasConstant : K)
    (self : MixedSolventElectrolyte K) (dTds : K) (dXds : Nat → K)
    (dlnActCoeffds : Nat → K) : MixedSolventElectrolyte K × (Nat → K) :=
  let T := self.temperature
  let RT := GasConstant * T
  let self := self.s_update_dlnActCoeff_dT GasConstant
  (self,
    forLoop
      (fun iK dlnActCoeffds =>
        let dlnActCoeffds := Function.update dlnActCoeffds iK 0.0
        forLoop
          (fun i dlnActCoeffds =>
            Function.update dlnActCoeffds iK
              (dlnActCoeffds iK
                + (dlnActCoeffdsTerm self T RT dXds iK i
                  + rd self.dlnActCoeffdT_Scaled_ iK * dTds)))
          self.numBinaryInteractions_ 0 dlnActCoeffds)
      self.m_kk 0 dlnActCoeffds)

/-- Body of the record loop of `getPartialMolarVolumes`, lines 341-355.  The state is
`(delAK, delBK, vbar)`: the two indicators are locals of the function that this body sets to
1 and never sets back to 0. -/
def partialMolarVolumesBody (self : MixedSolventElectrolyte K) (T : K) (iK i : Nat)
    (st : Int × Int × (Nat → K)) : Int × Int × (Nat → K) :=
  let iA := rd self.m_pSpecies_A_ij i
  let iB := rd self.m_pSpecies_B_ij i
  let delAK : Int := if iA = iK then 1 else st.1
  let delBK : Int := if iA = iK then st.2.1 else if iB = iK then 1 else st.2.1
  let XA := rd self.moleFractions_ iA
  let XB := rd self.moleFractions_ iB
  let g0 := rd self.m_VHE_b_ij i - T * rd self.m_VSE_b_ij i
  let g1 := rd self.m_VHE_c_ij i - T * rd self.m_VSE_c_ij i
  (delAK, delBK,
    Function.update st.2.2 iK
      (st.2.2 iK
        + (XA * XB * (g0 + g1 * XB)
          + (((delAK : K) - XA) * XB + XA * ((delBK : K) - XB)) * (g0 + g1 * XB)
          + XA * XB * ((delBK : K) - XB) * g1)))

/-- The function `MixedSolventElectrolyte::getPartialMolarVolumes(doublereal* vbar)`.  The
base-class function `getStandardVolumes` is not part of the sources and is a parameter:
`getStandardVolumes vbar` is the buffer left by the call `getStandardVolumes(vbar)`. -/
def MixedSolventElectrolyte.getPartialMolarVolumes
    (getStandardVolumes : (Nat → K) → Nat → K)
    (self : MixedSolventElectrolyte K) (vbar : Nat → K) : Nat → K :=
  let T := self.temperature
  let vbar := getStandardVolumes vbar
  forLoop
    (fun iK vbar =>
      let delAK : Int := 0
      let delBK : Int := 0
      (forLoop (partialMolarVolumesBody self T iK) self.numBinaryInteractions_ 0
        (delAK, delBK, vbar)).2.2)
    self.m_kk 0 vbar

/-- The value added to `dlnActCoeffdlnN_diag_[iK]` for record `i` by the body of the loops
of `s_update_dlnActCoeff_dlnN_diag`, lines 563-581. -/
def dlnNDiagTerm (self : MixedSolventElectrolyte K) (T RT : K) (iK i : Nat) : K :=
  let iA := rd self.m_pSpecies_A_ij i
  let iB := rd self.m_pSpecies_B_ij i
  let delAK : Int := if iA = iK then 1 else 0
  let delBK : Int := if iA = iK then 0 else if iB = iK then 1 else 0
  let XA := rd self.moleFractions_ iA
  let XB := rd self.moleFractions_ iB
  let g0 := (rd self.m_HE_b_ij i - T * rd self.m_SE_b_ij i) / RT
  let g1 := (rd self.m_HE_c_ij i - T * rd self.m_SE_c_ij i) / RT
  2 * ((delBK : K) - XB)
    * (g0 * ((delAK : K) - XA) + g1 * (2 * ((delAK : K) - XA) * XB + XA * ((delBK : K) - XB)))

/-- The function `MixedSolventElectrolyte::s_update_dlnActCoeff_dlnN_diag()`. -/
def MixedSolventElectrolyte.s_update_dlnActCoeff_dlnN_diag (GasConstant : K)
    (self : MixedSolventElectrolyte K) : MixedSolventElectrolyte K :=
  let T := self.temperature
  let RT := GasConstant * T
  let diag := List.replicate self.m_kk (0 : K)
  { self with
    dlnActCoeffdlnN_diag_ :=
      forLoop
        (fun iK diag =>
          let XK := rd self.moleFractions_ iK
          let diag :=
            forLoop (fun i diag => diag.set iK (rd diag iK + dlnNDiagTerm self T RT iK i))
              self.numBinaryInteractions_ 0 diag
          diag.set iK (XK * rd diag iK))
        self.m_kk 0 diag }

/-- The value of the first addition to `dlnActCoeffdlnN_(iK,iM)` for record `i` in
`s_update_dlnActCoeff_dlnN`, line 630.  The indicators are `doublereal` here. -/
def dlnNTerm1 (self : MixedSolventElectrolyte K) (T RT : K) (iK iM i : Nat) : K :=
  let iA := rd self.m_pSpecies_A_ij i
  let iB := rd self.m_pSpecies_B_ij i
  let delAK : K := if iA = iK then 1.0 else 0.0
  let delBK : K := if iA = iK then 0.0 else if iB = iK then 1.0 else 0.0
  let delAM : K := if iA = iM then 1.0 else 0.0
  let delBM : K := if iA = iM then 0.0 else if iB = iM then 1.0 else 0.0
  let XA := rd self.moleFractions_ iA
  let XB := rd self.moleFractions_ iB
  let g0 := (rd self.m_HE_b_ij i - T * rd self.m_SE_b_ij i) / RT
  g0 * ((delAM - XA) * (delBK - XB) + (delAK - XA) * (delBM - XB))

/-- The value of the second addition to `dlnActCoeffdlnN_(iK,iM)` for record `i` in
`s_update_dlnActCoeff_dlnN`, line 631. -/
def dlnNTerm2 (self : MixedSolventElectrolyte K) (T RT : K) (iK iM i : Nat) : K :=
  let iA := rd self.m_pSpecies_A_ij i
  let iB := rd self.m_pSpecies_B_ij i
  let delAK : K := if iA = iK then 1.0 else 0.0
  let delBK : K := if iA = iK then 0.0 else if iB = iK then 1.0 else 0.0
  let delAM : K := if iA = iM then 1.0 else 0.0
  let delBM : K := if iA = iM then 0.0 else if iB = iM then 1.0 else 0.0
  let XA := rd self.moleFractions_ iA
  let XB := rd self.moleFractions_ iB
  let g1 := (rd self.m_HE_c_ij i - T * rd self.m_SE_c_ij i) / RT
  2 * g1 * ((delAM - XA) * (delBK - XB) * XB + (delAK - XA) * (delBM - XB) * XB
    + (delBM - XB) * (delBK - XB) * XA)

/-- The function `MixedSolventElectrolyte::s_update_dlnActCoeff_dlnN()`.  The class `Array2D`
is not part of the sources: `index2D i j` is the place of the element `(i, j)` in its data
vector, a parameter, and `zero()` sets every entry of the data vector to 0. -/
def MixedSolventElectrolyte.s_update_dlnActCoeff_dlnN (index2D : Nat → Nat → Nat)
    (GasConstant : K) (self : MixedSolventElectrolyte K) : MixedSolventElectrolyte K :=
  let T := self.temperature
  let RT := GasConstant * T
  let data := List.replicate self.dlnActCoeffdlnN_.length (0 : K)
  { self with
    dlnActCoeffdlnN_ :=
      forLoop
        (fun iK data =>
          forLoop
            (fun iM data =>
              let XM := rd self.moleFractions_ iM
              let data :=
                forLoop
                  (fun i data =>
                    let data := data.set (index2D iK iM)
                      (rd data (index2D iK iM) + dlnNTerm1 self T RT iK iM i)
                    data.set (index2D iK iM)
                      (rd data (index2D iK iM) + dlnNTerm2 self T RT iK iM i))
                  self.numBinaryInteractions_ 0 data
              data.set (index2D iK iM) (XM * rd data (index2D iK iM)))
            self.m_kk 0 data)
        self.m_kk 0 data }

/-- The function `MixedSolventElectrolyte::getChemPotentials(doublereal* mu)`: returns the
object and the caller's buffer after the call.  The base-class function
`getStandardChemPotentials` and the constant `SmallNumber` are not part of the sources and are
parameters: `getStandardChemPotentials mu` is the buffer left by the call
`getStandardChemPotentials(mu)`. -/
def MixedSolventElectrolyte.getChemPotentials
    (getStandardChemPotentials : (Nat → K) → Nat → K) (log : K → K) (SmallNumber : K)
    (GasConstant : K) (self : MixedSolventElectrolyte K) (mu : Nat → K) :
    MixedSolventElectrolyte K × (Nat → K) :=
  let mu := getStandardChemPotentials mu
  let self := self.s_update_lnActCoeff GasConstant
  let RT := GasConstant * self.temperature
  (self,
    forLoop
      (fun k mu =>
        let xx := max (rd self.moleFractions_ k) SmallNumber
        Function.update mu k (mu k + RT * (log xx + rd self.lnActCoeff_Scaled_ k)))
      self.m_kk 0 mu)

/-- The place `index2D i j` of the element `(i, j)` of an `n` by `n` `Array2D` lies inside a
data vector of length `len`, and different elements have different places. -/
def Array2DLayout (index2D : Nat → Nat → Nat) (n len : Nat) : Prop :=
  (∀ i j, i < n → j < n → index2D i j < len) ∧
  ∀ i j i' j', i < n → j < n → i' < n → j' < n →
    index2D i j = index2D i' j' → i = i' ∧ j = j'

/-- A column-major layout, element `(i, j)` at place `nrows*j + i`; it is used as a sample
of an `Array2DLayout`. -/
def columnMajor (nrows : Nat) (i j : Nat) : Nat := nrows * j + i

/-- The sum that the claim on `getdlnActCoeffds` gives for `dlnActCoeffds[k]`: the sum over
the records of `((dB - X_B)*dX_A + (dA - X_A)*dX_B)*(g0 + 2*g1*X_B) + 2*(dB - X_B)*g1*X_A*dX_B`
plus, once, `dlnActCoeffdT[k]*dTds`. -/
def dlnActCoeffdsClaimed (R : K) (self : MixedSolventElectrolyte K) (dTds : K)
    (dXds : Nat → K) (dlnActCoeffdT_k : K) (k : Nat) : K :=
  Finset.sum (Finset.range self.numBinaryInteractions_) (fun i =>
      ((kron k (rd self.m_pSpecies_B_ij i) - XBAt self i) * dXds (rd self.m_pSpecies_A_ij i)
          + (kron k (rd self.m_pSpecies_A_ij i) - XAAt self i)
            * dXds (rd self.m_pSpecies_B_ij i))
        * (g0At R self i + 2 * g1At R self i * XBAt self i)
      + 2 * (kron k (rd self.m_pSpecies_B_ij i) - XBAt self i) * g1At R self i * XAAt self i
        * dXds (rd self.m_pSpecies_B_ij i))
    + dlnActCoeffdT_k * dTds

/-- The value that the claim on `getPartialMolarVolumes` gives for `vbar[k]`: `V_ss[k]` plus
the sum over the records of the Margules summand with indicators evaluated per record,
`g0 = VHb_i - T*VSb_i` and `g1 = VHc_i - T*VSc_i`. -/
def partialMolarVolumeClaimed (self : MixedSolventElectrolyte K) (Vss_k : K) (k : Nat) : K :=
  Vss_k + Finset.sum (Finset.range self.numBinaryInteractions_) (fun i =>
    margulesTerm (kron k (rd self.m_pSpecies_A_ij i)) (kron k (rd self.m_pSpecies_B_ij i))
      (XAAt self i) (XBAt self i)
      (rd self.m_VHE_b_ij i - self.temperature * rd self.m_VSE_b_ij i)
      (rd self.m_VHE_c_ij i - self.temperature * rd self.m_VSE_c_ij i))

/-- The sum over the records that an entry `(k, m)` of the full Jacobian holds before it is
multiplied by `X_m`. -/
def dlnNSum (R : K) (self : MixedSolventElectrolyte K) (k m : Nat) : K :=
  Finset.sum (Finset.range self.numBinaryInteractions_) (fun i =>
    dlnNTerm1 self self.temperature (R * self.temperature) k m i
      + dlnNTerm2 self self.temperature (R * self.temperature) k m i)

/-- Mole fractions `x_j = n_j / sum n` of the mole numbers `n_0, ..., n_(kk-1)`. -/
def moleFractionsOf (kk : Nat) (n : Nat → K) : List K :=
  (List.range kk).map (fun j => n j / Finset.sum (Finset.range kk) (fun i => n i))

/-- Partial derivative of `margulesTerm` with respect to `XA`. -/
def margulesTermDA (dB XB g0 g1 : K) : K :=
  (dB - XB) * (g0 + 2 * g1 * XB)

/-- Partial derivative of `margulesTerm` with respect to `XB`. -/
def margulesTermDB (dA dB XA XB g0 g1 : K) : K :=
  (dA - XA) * (g0 + 2 * g1 * XB) + 2 * g1 * XA * (dB - XB)

/-- Sample mole numbers 2, 3, 5, whose mole fractions are those of `samplePhase2`. -/
def sampleMoles : Nat → K := fun j => rd [2, 3, 5] j

/-- A sample phase of three species at 300 K with the two records `(0, 1)` and `(1, 2)`,
energy and volumetric parameters, and a 3 by 3 Jacobian store. -/
def samplePhase2 : MixedSolventElectrolyte K :=
  { MixedSolventElectrolyte.blank 3 300 [0.2, 0.3, 0.5] with
    numBinaryInteractions_ := 2
    m_HE_b_ij := [3000, 6000], m_HE_c_ij := [600, 900], m_HE_d_ij := [0, 0]
    m_SE_b_ij := [2, 4], m_SE_c_ij := [1, 3], m_SE_d_ij := [0, 0]
    m_VHE_b_ij := [7, 11], m_VHE_c_ij := [13, 17], m_VHE_d_ij := [0, 0]
    m_VSE_b_ij := [0, 0], m_VSE_c_ij := [0, 0], m_VSE_d_ij := [0, 0]
    m_pSpecies_A_ij := [0, 1], m_pSpecies_B_ij := [1, 2]
    dlnActCoeffdlnN_ := [0, 0, 0, 0, 0, 0, 0, 0, 0] }

/-! ## STITbyPDSS -/

/-- The member functions of the external class `PDSS` that `STITbyPDSS` calls through
`m_PDSS_ptr`; the class is not part of the sources, `P` is the state of the external
object. -/
structure PDSSOps (P K : Type) where
  setTemperature : K → P → P
  enthalpy_RT_ref : P → K
  cp_R_ref : P → K
  entropy_R_ref : P → K

/-- Data members of `STITbyPDSS` inherited from `SpeciesThermoInterpType`; the two pointers
`m_vpssmgr_ptr` and `m_PDSS_ptr` refer to external objects. -/
structure STITbyPDSS (K : Type) where
  m_lowT : K
  m_highT : K
  m_Pref : K
  m_index : Nat

/-- The error thrown by the macro `AssertThrowMsg` in `STITbyPDSS::updatePropertiesTemp`:
"object was probably not installed correctly". -/
inductive STITError
  | notInstalled
  deriving DecidableEq

/-- The constructor `STITbyPDSS::STITbyPDSS(size_t k, VPSSMgr*, PDSS*)`, lines 71-77: the
base class is default-constructed and `m_index` is set to `k`. -/
def STITbyPDSS.construct (k : Nat) : STITbyPDSS K :=
  { m_lowT := 0.0, m_highT := 0.0, m_Pref := 0.0, m_index := k }

/-- The function `STITbyPDSS::updatePropertiesTemp(temp, cp_R, h_RT, s_R)`.  `npos` is a
constant of a header that is not part of the sources, and `AssertThrowMsg(expr, ...)` throws
when `expr` is false.  The result holds the external object and the three output arrays, as
the return or the throw left them. -/
def STITbyPDSS.updatePropertiesTemp {P : Type} (ops : PDSSOps P K) (npos : Nat)
    (self : STITbyPDSS K) (pdss : P) (temp : K) (out : ThermoOut K) :
    Except (STITError × P × ThermoOut K) (P × ThermoOut K) :=
  let pdss := ops.setTemperature temp pdss
  if self.m_index ≠ npos then
    let out := { out with h_RT := Function.update out.h_RT self.m_index (ops.enthalpy_RT_ref pdss) }
    let out := { out with cp_R := Function.update out.cp_R self.m_index (ops.cp_R_ref pdss) }
    let out := { out with s_R := Function.update out.s_R self.m_index (ops.entropy_R_ref pdss) }
    .ok (pdss, out)
  else
    .error (STITError.notInstalled, pdss, out)

/-- The function `STITbyPDSS::updateProperties(tempPoly, cp_R, h_RT, s_R)`. -/
def STITbyPDSS.updateProperties {P : Type} (ops : PDSSOps P K) (npos : Nat)
    (self : STITbyPDSS K) (pdss : P) (tempPoly : Nat → K) (out : ThermoOut K) :
    Except (STITError × P × ThermoOut K) (P × ThermoOut K) :=
  let T := tempPoly 0
  self.updatePropertiesTemp ops npos pdss T out

/-- A sample external state: it stores the temperature and reports `2*T`, `3*T` and `5*T` as
reference enthalpy, heat capacity and entropy. -/
def samplePDSSOps : PDSSOps K K :=
  { setTemperature := fun T _ => T
    enthalpy_RT_ref := fun T => 2 * T
    cp_R_ref := fun T => 3 * T
    entropy_R_ref := fun T => 5 * T }

/-! ## ReactionData -/

/-- Data members of `ReactionData` with the values the constructor gives them.  The members
`rgroups`, `pgroups`, `net_stoich` and `plogParameters`, of types declared outside the
sources or not used here, are left out; a `std::map<size_t, doublereal>` is the list of its
key-value pairs. -/
structure ReactionData (K : Type) where
  reactionType : Int
  validate : Bool
  number : Int
  rxn_number : Int
  reactants : List Nat
  products : List Nat
  rorder : List K
  porder : List K
  forwardFullOrder_ : List K
  rstoich : List K
  pstoich : List K
  thirdBodyEfficiencies : List (Nat × K)
  filmResistivity : K
  equilibriumConstantPower : K
  affinityPower : K
  reversible : Bool
  duplicate : Bool
  rateCoeffType : Int
  rateCoeffParameters : List K
  auxRateCoeffParameters : List K
  falloffType : Int
  falloffParameters : List K
  error : Int
  equation : String
  reactantString : String
  productString : String
  default_3b_eff : K
  cov : List K
  global : Bool
  isReversibleWithFrac : Bool
  beta : K
  chebTmin : K
  chebTmax : K
  chebPmin : K
  chebPmax : K
  chebDegreeT : Nat
  chebDegreeP : Nat
  chebCoeffs : List K

/-- The constructor `ReactionData::ReactionData()`, lines 23-47.  The constants
`ELEMENTARY_RXN`, `ARRHENIUS_REACTION_RATECOEFF_TYPE` and `NONE` are declared in a header that
is not part of the sources and are parameters. -/
def ReactionData.construct (ELEMENTARY_RXN ARRHENIUS_REACTION_RATECOEFF_TYPE NONE : Int) :
    ReactionData K :=
  { reactionType := ELEMENTARY_RXN
    validate := false
    number := 0
    rxn_number := 0
    reactants := [], products := [], rorder := [], porder := [], forwardFullOrder_ := []
    rstoich := [], pstoich := []
    thirdBodyEfficiencies := []
    filmResistivity := 0.0
    equilibriumConstantPower := 1.0
    affinityPower := 1.0
    reversible := true
    duplicate := false
    rateCoeffType := ARRHENIUS_REACTION_RATECOEFF_TYPE
    rateCoeffParameters := [], auxRateCoeffParameters := []
    falloffType := NONE
    falloffParameters := []
    error := 0
    equation := ""
    reactantString := "", productString := ""
    default_3b_eff := 1.0
    cov := []
    global := false
    isReversibleWithFrac := false
    beta := 0.0
    chebTmin := -1.0, chebTmax := -1.0, chebPmin := -1.0, chebPmax := -1.0
    chebDegreeT := 0, chebDegreeP := 0
    chebCoeffs := [] }

/-- Modelled from the spec: the template `getValue(map, key, default_val)` of
`cantera/base/utilities.h`, which is not part of the sources.  As the comment on
`default_3b_eff` says for species not listed in the map, it returns the value stored for
`key` when the map has the key, and `default_val` otherwise. -/
def getValue (m : List (Nat × K)) (key : Nat) (default_val : K) : K :=
  match m.lookup key with
  | some v => v
  | none => default_val

/-- The function `ReactionData::efficiency(size_t k)`, lines 215-217. -/
def ReactionData.efficiency (self : ReactionData K) (k : Nat) : K :=
  getValue self.thirdBodyEfficiencies k self.default_3b_eff

/-! ## MixedSolventElectrolyte: partial molar properties and the mole-fraction diagonal -/

/-- The function `MixedSolventElectrolyte::getPartialMolarEnthalpies(doublereal* hbar)`,
lines 247-271: returns the object and the caller's buffer after the call.  The base-class
function `getEnthalpy_RT` is not part of the sources and is a parameter: `getEnthalpy_RT hbar`
is the buffer left by the call `getEnthalpy_RT(hbar)`. -/
def MixedSolventElectrolyte.getPartialMolarEnthalpies
    (getEnthalpy_RT : (Nat → K) → Nat → K) (GasConstant : K)
    (self : MixedSolventElectrolyte K) (hbar : Nat → K) :
    MixedSolventElectrolyte K × (Nat → K) :=
  let hbar := getEnthalpy_RT hbar
  let T := self.temperature
  let RT := GasConstant * T
  let hbar := forLoop (fun k hbar => Function.update hbar k (hbar k * RT)) self.m_kk 0 hbar
  let self := self.s_update_lnActCoeff GasConstant
  let self := self.s_update_dlnActCoeff_dT GasConstant
  let RTT := RT * T
  (self,
    forLoop
      (fun k hbar => Function.update hbar k (hbar k - RTT * rd self.dlnActCoeffdT_Scaled_ k))
      self.m_kk 0 hbar)

/-- The function `MixedSolventElectrolyte::getPartialMolarCp(doublereal* cpbar)`, lines
273-296.  The base-class function `getCp_R` is not part of the sources and is a parameter. -/
def MixedSolventElectrolyte.getPartialMolarCp
    (getCp_R : (Nat → K) → Nat → K) (GasConstant : K)
    (self : MixedSolventElectrolyte K) (cpbar : Nat → K) :
    MixedSolventElectrolyte K × (Nat → K) :=
  let cpbar := getCp_R cpbar
  let T := self.temperature
  let self := self.s_update_lnActCoeff GasConstant
  let self := self.s_update_dlnActCoeff_dT GasConstant
  let cpbar :=
    forLoop
      (fun k cpbar => Function.update cpbar k
        (cpbar k - (2 * T * rd self.dlnActCoeffdT_Scaled_ k
          + T * T * rd self.d2lnActCoeffdT2_Scaled_ k)))
      self.m_kk 0 cpbar
  (self, forLoop (fun k cpbar => Function.update cpbar k (cpbar k * GasConstant))
    self.m_kk 0 cpbar)

/-- The function `MixedSolventElectrolyte::getPartialMolarEntropies(doublereal* sbar)`, lines
298-323.  The base-class function `getEntropy_R` and the constant `SmallNumber` are not part
of the sources and are parameters. -/
def MixedSolventElectrolyte.getPartialMolarEntropies
    (getEntropy_R : (Nat → K) → Nat → K) (log : K → K) (SmallNumber : K) (GasConstant : K)
    (self : MixedSolventElectrolyte K) (sbar : Nat → K) :
    MixedSolventElectrolyte K × (Nat → K) :=
  let sbar := getEntropy_R sbar
  let T := self.temperature
  let self := self.s_update_lnActCoeff GasConstant
  let self := self.s_update_dlnActCoeff_dT GasConstant
  let sbar :=
    forLoop
      (fun k sbar =>
        let xx := max (rd self.moleFractions_ k) SmallNumber
        Function.update sbar k
          (sbar k + (-rd self.lnActCoeff_Scaled_ k - log xx
            - T * rd self.dlnActCoeffdT_Scaled_ k)))
      self.m_kk 0 sbar
  (self, forLoop (fun k sbar => Function.update sbar k (sbar k * GasConstant))
    self.m_kk 0 sbar)

/-- The value added to `dlnActCoeffdlnX_diag_[iA]` and to `dlnActCoeffdlnX_diag_[iB]` for
record `i` by `s_update_dlnActCoeff_dlnX_diag`, lines 657-658:
`XA*XB*(2*g1*-2*g0-6*g1*XB)`.  In C++ the unary minus binds tighter than `*`, so
`2*g1*-2*g0` is the product `((2*g1)*(-2))*g0`. -/
def dlnXDiagTerm (self : MixedSolventElectrolyte K) (T RT : K) (i : Nat) : K :=
  let iA := rd self.m_pSpecies_A_ij i
  let iB := rd self.m_pSpecies_B_ij i
  let XA := rd self.moleFractions_ iA
  let XB := rd self.moleFractions_ iB
  let g0 := (rd self.m_HE_b_ij i - T * rd self.m_SE_b_ij i) / RT
  let g1 := (rd self.m_HE_c_ij i - T * rd self.m_SE_c_ij i) / RT
  XA * XB * (2 * g1 * (-2) * g0 - 6 * g1 * XB)

/-- The function `MixedSolventElectrolyte::s_update_dlnActCoeff_dlnX_diag()`, lines
639-661. -/
def MixedSolventElectrolyte.s_update_dlnActCoeff_dlnX_diag (GasConstant : K)
    (self : MixedSolventElectrolyte K) : MixedSolventElectrolyte K :=
  let T := self.temperature
  let diag := List.replicate self.m_kk (0 : K)
  let RT := GasConstant * T
  { self with
    dlnActCoeffdlnX_diag_ :=
      forLoop
        (fun i diag =>
          let iA := rd self.m_pSpecies_A_ij i
          let iB := rd self.m_pSpecies_B_ij i
          let diag := diag.set iA (rd diag iA + dlnXDiagTerm self T RT i)
          diag.set iB (rd diag iB + dlnXDiagTerm self T RT i))
        self.numBinaryInteractions_ 0 diag }

/-- The function
`MixedSolventElectrolyte::getdlnActCoeffdlnX_diag(doublereal* dlnActCoeffdlnX_diag)`:
returns the object and the caller's buffer after the call. -/
def MixedSolventElectrolyte.getdlnActCoeffdlnX_diag (GasConstant : K)
    (self : MixedSolventElectrolyte K) (dlnActCoeffdlnX_diag : Nat → K) :
    MixedSolventElectrolyte K × (Nat → K) :=
  let self := self.s_update_dlnActCoeff_dlnX_diag GasConstant
  (self, forLoop (fun k out => Function.update out k (rd self.dlnActCoeffdlnX_diag_ k))
    self.m_kk 0 dlnActCoeffdlnX_diag)

/-- The value `X_A*X_B*(2*g1 - 2*g0 - 6*g1*X_B)` that the claim on
`getdlnActCoeffdlnX_diag` gives for both species of a binary system. -/
def dlnXDiagClaimed (XA XB g0 g1 : K) : K :=
  XA * XB * (2 * g1 - 2 * g0 - 6 * g1 * XB)

/-- The composition `X + s * dXds` of the first `kk` species. -/
def displaced (kk : Nat) (X : List K) (dXds : Nat → K) (s : K) : List K :=
  (List.range kk).map (fun j => rd X j + s * dXds j)

/-- A sample binary phase at 300 K with `X = [0.25, 0.75]` and the single record
`(A, B) = (0, 1)`, `Hb = 600`, `Hc = 300`, no entropy parameters: with `R = 1`, `g0 = 2` and
`g1 = 1`. -/
def sampleBinary : MixedSolventElectrolyte K :=
  { MixedSolventElectrolyte.blank 2 300 [0.25, 0.75] with
    numBinaryInteractions_ := 1
    m_HE_b_ij := [600], m_HE_c_ij := [300], m_HE_d_ij := [0]
    m_SE_b_ij := [0], m_SE_c_ij := [0], m_SE_d_ij := [0]
    m_VHE_b_ij := [0], m_VHE_c_ij := [0], m_VHE_d_ij := [0]
    m_VSE_b_ij := [0], m_VSE_c_ij := [0], m_VSE_d_ij := [0]
    m_pSpecies_A_ij := [0], m_pSpecies_B_ij := [1] }

/-- The phase `sampleBinary` with its single record naming species 0 on both sides,
`(A, B) = (0, 0)`. -/
def sampleSelfPhase : MixedSolventElectrolyte K :=
  { (sampleBinary : MixedSolventElectrolyte K) with m_pSpecies_B_ij := [0] }

/-- The two objects agree on the data that the activity-coefficient routines read: the
number of species, the temperature, the composition and the interaction records.  They may
differ in the work vectors. -/
structure SameInputs (s s' : MixedSolventElectrolyte K) : Prop where
  m_kk : s'.m_kk = s.m_kk
  temperature : s'.temperature = s.temperature
  moleFractions_ : s'.moleFractions_ = s.moleFractions_
  numBinaryInteractions_ : s'.numBinaryInteractions_ = s.numBinaryInteractions_
  m_HE_b_ij : s'.m_HE_b_ij = s.m_HE_b_ij
  m_HE_c_ij : s'.m_HE_c_ij = s.m_HE_c_ij
  m_SE_b_ij : s'.m_SE_b_ij = s.m_SE_b_ij
  m_SE_c_ij : s'.m_SE_c_ij = s.m_SE_c_ij
  m_pSpecies_A_ij : s'.m_pSpecies_A_ij = s.m_pSpecies_A_ij
  m_pSpecies_B_ij : s'.m_pSpecies_B_ij = s.m_pSpecies_B_ij

end Defs

/-! ## Lemmas -/


section VectorLemmas
variable [Zero K]

theorem length_resize (v : List K) (n : Nat) : (resize v n).length = n := by
  simp only [resize, List.length_append, List.length_take, List.length_replicate]
  omega

theorem rd_set_eq (v : List K) (i : Nat) (x : K) (h : i < v.length) :
    rd (v.set i x) i = x := by
  simp [rd, List.getD, h]

theorem rd_set_ne (v : List K) (i j : Nat) (x : K) (h : i ≠ j) :
    rd (v.set i x) j = rd v j := by
  simp [rd, List.getD, List.getElem?_set_ne h]

theorem getElem?_eq_rd (v : List K) (i : Nat) (h : i < v.length) :
    v[i]? = some (rd v i) := by
  simp [rd, List.getD, h]

theorem ext_rd (v w : List K) (hl : v.length = w.length)
    (h : ∀ i, i < v.length → rd v i = rd w i) : v = w := by
  apply List.ext_getElem hl
  intro i h1 h2
  have := h i h1
  simpa [rd, List.getD, h1, h2] using this

end VectorLemmas

section DistLemmas
variable [LinearOrderedField K]

theorem distributeLoop_error (R : K) (coeffs : Nat → K) (nPoints : Nat) :
    ∀ (k i a : Nat) (f : Bool) (self : Mu0Poly K), i + k = nPoints →
      (∃ j, i ≤ j ∧ j < nPoints - 1 ∧ tempAt coeffs (j + 1) ≤ tempAt coeffs j) →
      ∃ s, distributeLoop R coeffs nPoints k i (2 + 2 * i) a f self
        = .error (CanteraError.notMonotonic, s) := by
  intro k
  induction k with
  | zero =>
    intro i a f self hik ⟨j, h1, h2, _⟩
    omega
  | succ k ih =>
    intro i a f self hik ⟨j, h1, h2, h3⟩
    unfold distributeLoop
    by_cases hc : i < nPoints - 1 ∧ coeffs (2 + 2 * i + 2) ≤ coeffs (2 + 2 * i)
    · simp only [hc, and_self, if_true]
      exact ⟨_, rfl⟩
    · simp only [hc, if_false]
      have hji : j ≠ i := by
        rintro rfl
        apply hc
        refine ⟨h2, ?_⟩
        have : 2 + 2 * (j + 1) = 2 + 2 * j + 2 := by ring
        simpa [tempAt, this] using h3
      have e : 2 + 2 * i + 2 = 2 + 2 * (i + 1) := by ring
      rw [e]
      exact ih (i + 1) _ _ _ (by omega) ⟨j, by omega, h2, h3⟩

theorem distributeLoop_ok (R : K) (coeffs : Nat → K) (nPoints : Nat) :
    ∀ (k i a : Nat) (f : Bool) (self : Mu0Poly K), i + k = nPoints →
      self.m_t0_int.length = nPoints → self.m_mu0_R_int.length = nPoints →
      (∀ j, i ≤ j → j < nPoints - 1 → tempAt coeffs j < tempAt coeffs (j + 1)) →
      ∃ (a' : Nat) (f' : Bool) (t' mu' : List K),
        distributeLoop R coeffs nPoints k i (2 + 2 * i) a f self
          = .ok (a', f', { self with m_t0_int := t', m_mu0_R_int := mu' }) ∧
        t'.length = nPoints ∧ mu'.length = nPoints ∧
        (∀ j, j < i → rd t' j = rd self.m_t0_int j) ∧
        (∀ j, i ≤ j → j < nPoints → rd t' j = tempAt coeffs j) ∧
        (∀ j, j < i → rd mu' j = rd self.m_mu0_R_int j) ∧
        (∀ j, i ≤ j → j < nPoints → rd mu' j = mu0At coeffs j / R) ∧
        (f' = true ↔ f = true ∨ ∃ j, i ≤ j ∧ j < nPoints ∧ tempAt coeffs j = 298.15) ∧
        ((i ≤ a' ∧ a' < nPoints ∧ tempAt coeffs a' = 298.15) ∨ (a' = a ∧ f' = f)) := by
  intro k
  induction k with
  | zero =>
    intro i a f self hik ht hmu hmono
    refine ⟨a, f, self.m_t0_int, self.m_mu0_R_int, rfl, ht, hmu, fun _ _ => rfl, ?_,
      fun _ _ => rfl, ?_, ?_, Or.inr ⟨rfl, rfl⟩⟩
    · intro j h1 h2; omega
    · intro j h1 h2; omega
    · constructor
      · intro h; exact Or.inl h
      · rintro (h | ⟨j, h1, h2, _⟩)
        · exact h
        · omega
  | succ k ih =>
    intro i a f self hik ht hmu hmono
    unfold distributeLoop
    have hi : i < nPoints := by omega
    have hc : ¬ (i < nPoints - 1 ∧ coeffs (2 + 2 * i + 2) ≤ coeffs (2 + 2 * i)) := by
      rintro ⟨h1, h2⟩
      have := hmono i le_rfl h1
      have e : 2 + 2 * (i + 1) = 2 + 2 * i + 2 := by ring
      simp only [tempAt, e] at this
      exact absurd this (not_lt.mpr h2)
    simp only [hc, if_false]
    have e : 2 + 2 * i + 2 = 2 + 2 * (i + 1) := by ring
    rw [e]
    obtain ⟨a', f', t', mu', heq, hlt, hlmu, ht1, ht2, hm1, hm2, hf, ha⟩ :=
      ih (i + 1) (if coeffs (2 + 2 * i) = 298.15 then i else a)
        (if coeffs (2 + 2 * i) = 298.15 then true else f)
        { self with
          m_t0_int := self.m_t0_int.set i (coeffs (2 + 2 * i))
          m_mu0_R_int := self.m_mu0_R_int.set i (coeffs (2 + 2 * i + 1) / R) }
        (by omega) (by simp [ht]) (by simp [hmu])
        (fun j h1 h2 => hmono j (by omega) h2)
    refine ⟨a', f', t', mu', heq, hlt, hlmu, ?_, ?_, ?_, ?_, ?_, ?_⟩
    · intro j hj
      rw [ht1 j (by omega)]
      exact rd_set_ne _ _ _ _ (by omega)
    · intro j h1 h2
      rcases Nat.eq_or_lt_of_le h1 with rfl | h
      · rw [ht1 i (by omega)]
        exact rd_set_eq _ _ _ (by omega)
      · exact ht2 j h h2
    · intro j hj
      rw [hm1 j (by omega)]
      exact rd_set_ne _ _ _ _ (by omega)
    · intro j h1 h2
      rcases Nat.eq_or_lt_of_le h1 with rfl | h
      · rw [hm1 i (by omega)]
        exact rd_set_eq _ _ _ (by omega)
      · exact hm2 j h h2
    · rw [hf]
      by_cases h298 : coeffs (2 + 2 * i) = 298.15
      · simp only [h298, if_true, true_or, true_iff]
        exact Or.inr ⟨i, le_rfl, hi, h298⟩
      · simp only [h298, if_false]
        constructor
        · rintro (h | ⟨j, h1, h2, h3⟩)
          · exact Or.inl h
          · exact Or.inr ⟨j, by omega, h2, h3⟩
        · rintro (h | ⟨j, h1, h2, h3⟩)
          · exact Or.inl h
          · rcases Nat.eq_or_lt_of_le h1 with rfl | h
            · exact absurd h3 h298
            · exact Or.inr ⟨j, h, h2, h3⟩
    · rcases ha with ⟨h1, h2, h3⟩ | ⟨h1, h2⟩
      · exact Or.inl ⟨by omega, h2, h3⟩
      · by_cases h298 : coeffs (2 + 2 * i) = 298.15
        · simp only [h298, if_true] at h1
          exact Or.inl ⟨by omega, by omega, by rw [h1]; exact h298⟩
        · simp only [h298, if_false] at h1 h2
          exact Or.inr ⟨h1, h2⟩

end DistLemmas

section WalkLemmas
variable [LinearOrderedField K]

theorem upLoop_spec (log : K → K) :
    ∀ (k i : Nat) (self : Mu0Poly K),
      self.m_h0_R_int.length = self.m_numIntervals + 1 →
      self.m_s0_R_int.length = self.m_numIntervals + 1 →
      self.m_cp0_R_int.length = self.m_numIntervals + 1 →
      i + k ≤ self.m_numIntervals →
      ∃ h' s' cp' : List K,
        upLoop log k i self
          = { self with m_h0_R_int := h', m_s0_R_int := s', m_cp0_R_int := cp' } ∧
        h'.length = self.m_numIntervals + 1 ∧ s'.length = self.m_numIntervals + 1 ∧
        cp'.length = self.m_numIntervals + 1 ∧
        (∀ j, j ≤ i → rd h' j = rd self.m_h0_R_int j) ∧
        (∀ j, j ≤ i → rd s' j = rd self.m_s0_R_int j) ∧
        (∀ j, j < i → rd cp' j = rd self.m_cp0_R_int j) ∧
        (∀ j, i ≤ j → j < i + k →
          UpRel log self.m_t0_int self.m_mu0_R_int h' s' cp' j) ∧
        (0 < k → rd cp' (i + k) = rd cp' (i + k - 1)) := by
  intro k
  induction k with
  | zero =>
    intro i self hh hs hcp hik
    exact ⟨_, _, _, rfl, hh, hs, hcp, fun _ _ => rfl, fun _ _ => rfl, fun _ _ => rfl,
      fun j h1 h2 => by omega, fun h => by omega⟩
  | succ k ih =>
    intro i self hh hs hcp hik
    obtain ⟨h', s', cp', heq, hlh, hls, hlcp, hh1, hs1, hcp1, hrel, hlast⟩ :=
      ih (i + 1) (upStep log i self) (by simp [upStep, hh]) (by simp [upStep, hs])
        (by simp [upStep, hcp]) (by simp only [upStep]; omega)
    refine ⟨h', s', cp', ?_, ?_, ?_, ?_, ?_, ?_, ?_, ?_, ?_⟩
    · rw [upLoop, heq]; rfl
    · simpa [upStep] using hlh
    · simpa [upStep] using hls
    · simpa [upStep] using hlcp
    · intro j hj
      rw [hh1 j (by omega)]
      simp only [upStep]
      exact rd_set_ne _ _ _ _ (by omega)
    · intro j hj
      rw [hs1 j (by omega)]
      simp only [upStep]
      exact rd_set_ne _ _ _ _ (by omega)
    · intro j hj
      rw [hcp1 j (by omega)]
      simp only [upStep]
      rw [rd_set_ne _ _ _ _ (by omega), rd_set_ne _ _ _ _ (by omega)]
    · intro j h1 h2
      rcases Nat.eq_or_lt_of_le h1 with rfl | h
      · have e1 : rd cp' i = _ := hcp1 i (by omega)
        have e2 : rd h' (i + 1) = _ := hh1 (i + 1) le_rfl
        have e3 : rd h' i = _ := hh1 i (by omega)
        have e4 : rd s' (i + 1) = _ := hs1 (i + 1) le_rfl
        have e5 : rd s' i = _ := hs1 i (by omega)
        simp only [upStep] at e1 e2 e3 e4 e5
        rw [rd_set_ne _ _ _ _ (by omega), rd_set_eq _ _ _ (by omega)] at e1
        rw [rd_set_eq _ _ _ (by omega)] at e2 e4
        rw [rd_set_ne _ _ _ _ (by omega)] at e3 e5
        refine ⟨?_, ?_, ?_⟩
        · rw [e1, e5]
        · rw [e2, e3, e1]
        · rw [e4, e5, e1]
      · have := hrel j h (by omega)
        simpa [upStep] using this
    · intro _
      rcases Nat.eq_zero_or_pos k with rfl | hk
      · have e := congrArg Mu0Poly.m_cp0_R_int heq
        simp only [upLoop, upStep] at e
        rw [← e]
        simp only [Nat.add_zero, Nat.add_sub_cancel]
        rw [rd_set_eq _ _ _ (by simp; omega), rd_set_ne _ _ _ _ (by omega),
          rd_set_eq _ _ _ (by omega)]
      · have := hlast hk
        have e : i + 1 + k = i + (k + 1) := by omega
        rw [e] at this
        exact this

end WalkLemmas

section WalkLemmas2
variable [LinearOrderedField K]

theorem downLoop_spec (log : K → K) :
    ∀ (i : Nat) (self : Mu0Poly K),
      self.m_h0_R_int.length = self.m_numIntervals + 1 →
      self.m_s0_R_int.length = self.m_numIntervals + 1 →
      self.m_cp0_R_int.length = self.m_numIntervals + 1 →
      i ≤ self.m_numIntervals →
      ∃ h' s' cp' : List K,
        downLoop log i self
          = { self with m_h0_R_int := h', m_s0_R_int := s', m_cp0_R_int := cp' } ∧
        h'.length = self.m_numIntervals + 1 ∧ s'.length = self.m_numIntervals + 1 ∧
        cp'.length = self.m_numIntervals + 1 ∧
        (∀ j, i ≤ j → rd h' j = rd self.m_h0_R_int j) ∧
        (∀ j, i ≤ j → rd s' j = rd self.m_s0_R_int j) ∧
        (∀ j, i ≤ j → i < self.m_numIntervals → rd cp' j = rd self.m_cp0_R_int j) ∧
        (∀ j, j < i → DownRel log self.m_t0_int self.m_mu0_R_int h' s' cp' j) ∧
        (0 < i → i = self.m_numIntervals →
          rd cp' self.m_numIntervals = rd cp' (self.m_numIntervals - 1)) := by
  intro i
  induction i with
  | zero =>
    intro self hh hs hcp hi
    exact ⟨_, _, _, rfl, hh, hs, hcp, fun _ _ => rfl, fun _ _ => rfl, fun _ _ _ => rfl,
      fun j h1 => by omega, fun h => by omega⟩
  | succ i ih =>
    intro self hh hs hcp hi
    have hlen1 : (downStep log i self).m_cp0_R_int.length = self.m_numIntervals + 1 := by
      simp only [downStep]
      split <;> simp [hcp]
    obtain ⟨h', s', cp', heq, hlh, hls, hlcp, hh1, hs1, hcp1, hrel, -⟩ :=
      ih (downStep log i self) (by simp [downStep, hh]) (by simp [downStep, hs])
        hlen1 (by simp only [downStep]; omega)
    have hin : i < (downStep log i self).m_numIntervals := by simp only [downStep]; omega
    have hcpi : rd (downStep log i self).m_cp0_R_int i =
        (rd self.m_mu0_R_int (i + 1) - rd self.m_mu0_R_int i
            - rd self.m_t0_int i * rd self.m_s0_R_int (i + 1)
            + rd self.m_t0_int (i + 1) * rd self.m_s0_R_int (i + 1)) /
          (rd self.m_t0_int (i + 1) - rd self.m_t0_int i
            - rd self.m_t0_int i * log (rd self.m_t0_int (i + 1) / rd self.m_t0_int i)) := by
      simp only [downStep]
      split
      · rw [rd_set_ne _ _ _ _ (by omega), rd_set_eq _ _ _ (by omega)]
      · rw [rd_set_eq _ _ _ (by omega)]
    refine ⟨h', s', cp', ?_, ?_, ?_, ?_, ?_, ?_, ?_, ?_, ?_⟩
    · rw [downLoop, heq]; rfl
    · simpa [downStep] using hlh
    · simpa [downStep] using hls
    · simpa [downStep] using hlcp
    · intro j hj
      rw [hh1 j (by omega)]
      simp only [downStep]
      exact rd_set_ne _ _ _ _ (by omega)
    · intro j hj
      rw [hs1 j (by omega)]
      simp only [downStep]
      exact rd_set_ne _ _ _ _ (by omega)
    · intro j hj hn
      rw [hcp1 j (by omega) hin]
      simp only [downStep]
      rw [if_neg (by omega)]
      exact rd_set_ne _ _ _ _ (by omega)
    · intro j hj
      rcases Nat.eq_or_lt_of_le (Nat.le_of_lt_succ hj) with rfl | h
      · have e1 : rd cp' j = _ := hcp1 j le_rfl hin
        have e2 : rd h' (j + 1) = _ := hh1 (j + 1) (by omega)
        have e3 : rd h' j = _ := hh1 j le_rfl
        have e4 : rd s' (j + 1) = _ := hs1 (j + 1) (by omega)
        have e5 : rd s' j = _ := hs1 j le_rfl
        rw [hcpi] at e1
        simp only [downStep] at e2 e3 e4 e5
        rw [rd_set_eq _ _ _ (by omega)] at e3 e5
        rw [rd_set_ne _ _ _ _ (by omega)] at e2 e4
        refine ⟨?_, ?_, ?_⟩
        · rw [e1, e4]
        · rw [e2, e3, e1]
        · rw [e4, e5, e1]
      · have := hrel j h
        simpa [downStep] using this
    · intro _ hn
      have e1 : rd cp' i = _ := hcp1 i le_rfl hin
      have e2 : rd cp' (i + 1) = _ := hcp1 (i + 1) (by omega) hin
      rw [hcpi] at e1
      simp only [downStep] at e2
      rw [if_pos (by omega), rd_set_eq _ _ _ (by simp; omega)] at e2
      rw [← hn]
      simp only [Nat.add_sub_cancel]
      rw [e1, e2]

end WalkLemmas2

section WalkLemmas3
variable [LinearOrderedField K]

theorem rd_set_same (v : List K) (i j : Nat) (x : K) (h : rd v i = x) :
    rd (v.set i x) j = rd v j := by
  by_cases hij : i = j
  · subst hij
    by_cases hl : i < v.length
    · rw [rd_set_eq _ _ _ hl, h]
    · rw [List.set_eq_of_length_le (by omega)]
  · exact rd_set_ne _ _ _ _ hij

theorem walks_spec (log : K → K) (a : Nat) (self : Mu0Poly K)
    (hh : self.m_h0_R_int.length = self.m_numIntervals + 1)
    (hs : self.m_s0_R_int.length = self.m_numIntervals + 1)
    (hcp : self.m_cp0_R_int.length = self.m_numIntervals + 1)
    (ha : a ≤ self.m_numIntervals) (hn : 0 < self.m_numIntervals) :
    ∃ h' s' cp' : List K,
      walks log a self
        = { self with m_h0_R_int := h', m_s0_R_int := s', m_cp0_R_int := cp' } ∧
      h'.length = self.m_numIntervals + 1 ∧ s'.length = self.m_numIntervals + 1 ∧
      cp'.length = self.m_numIntervals + 1 ∧
      rd h' a = self.m_H298 ∧
      rd s' a = -(rd self.m_mu0_R_int a - self.m_H298) / rd self.m_t0_int a ∧
      (∀ j, a ≤ j → j < self.m_numIntervals →
        UpRel log self.m_t0_int self.m_mu0_R_int h' s' cp' j) ∧
      (∀ j, j < a → DownRel log self.m_t0_int self.m_mu0_R_int h' s' cp' j) ∧
      rd cp' self.m_numIntervals = rd cp' (self.m_numIntervals - 1) := by
  obtain ⟨h1, s1, cp1, heq1, hlh1, hls1, hlcp1, hh1, hs1, hcp1, hrel1, hlast1⟩ :=
    upLoop_spec log (self.m_numIntervals - a) a
      { self with
        m_h0_R_int := self.m_h0_R_int.set a self.m_H298
        m_s0_R_int := self.m_s0_R_int.set a
          (-(rd self.m_mu0_R_int a - rd (self.m_h0_R_int.set a self.m_H298) a)
            / rd self.m_t0_int a) }
      (by simp [hh]) (by simp [hs]) (by simp [hcp]) (by simp only; omega)
  simp only at hlh1 hls1 hlcp1 hh1 hs1 hcp1 hrel1 hlast1
  have hha : rd h1 a = self.m_H298 := by
    rw [hh1 a le_rfl, rd_set_eq _ _ _ (by omega)]
  have hsa : rd s1 a = -(rd self.m_mu0_R_int a - self.m_H298) / rd self.m_t0_int a := by
    rw [hs1 a le_rfl, rd_set_eq _ _ _ (by omega), rd_set_eq _ _ _ (by omega)]
  unfold walks
  simp only
  rw [heq1]
  simp only
  by_cases ha0 : a = 0
  · subst ha0
    simp only [ne_eq, not_true_eq_false, if_false]
    refine ⟨h1, s1, cp1, rfl, hlh1, hls1, hlcp1, hha, hsa, ?_, ?_, ?_⟩
    · intro j h1 h2
      exact hrel1 j h1 (by omega)
    · intro j hj; omega
    · have := hlast1 (by omega)
      have e : 0 + (self.m_numIntervals - 0) = self.m_numIntervals := by omega
      rw [e] at this
      exact this
  · simp only [ne_eq, ha0, not_false_eq_true, if_true]
    obtain ⟨h2, s2, cp2, heq2, hlh2, hls2, hlcp2, hh2, hs2, hcp2, hrel2, hlast2⟩ :=
      downLoop_spec log a
        { self with
          m_h0_R_int := h1.set a self.m_H298
          m_s0_R_int := s1.set a
            (-(rd self.m_mu0_R_int a - rd (h1.set a self.m_H298) a) / rd self.m_t0_int a)
          m_cp0_R_int := cp1 }
        (by simp [hlh1]) (by simp [hls1]) hlcp1 ha
    simp only at hlh2 hls2 hlcp2 hh2 hs2 hcp2 hrel2 hlast2
    have hh2' : ∀ j, a ≤ j → rd h2 j = rd h1 j := by
      intro j hj
      rw [hh2 j hj]
      exact rd_set_same _ _ _ _ hha
    have hs2' : ∀ j, a ≤ j → rd s2 j = rd s1 j := by
      intro j hj
      rw [hs2 j hj]
      apply rd_set_same
      rw [rd_set_eq _ _ _ (by omega)]
      exact hsa
    refine ⟨h2, s2, cp2, ?_, hlh2, hls2, hlcp2, ?_, ?_, ?_, hrel2, ?_⟩
    · rw [heq2]
    · rw [hh2' a le_rfl, hha]
    · rw [hs2' a le_rfl, hsa]
    · intro j hj1 hj2
      have := hrel1 j hj1 (by omega)
      unfold UpRel at this ⊢
      rw [hcp2 j hj1 (by omega), hh2' j hj1, hh2' (j + 1) (by omega), hs2' j hj1,
        hs2' (j + 1) (by omega)]
      exact this
    · rcases Nat.eq_or_lt_of_le ha with rfl | hlt
      · exact hlast2 (by omega) rfl
      · rw [hcp2 _ (by omega) hlt, hcp2 _ (by omega) hlt]
        have := hlast1 (by omega)
        have e : a + (self.m_numIntervals - a) = self.m_numIntervals := by omega
        rw [e] at this
        exact this

end WalkLemmas3

section PC
variable [LinearOrderedField K] [FloorRing K]

theorem processCoeffs_tooFew (R : K) (log : K → K) (coeffs : Nat → K) (self : Mu0Poly K)
    (h : ⌊coeffs 0⌋₊ < 2) :
    processCoeffs R log coeffs self = .error (CanteraError.nPointsTooSmall, self) := by
  simp [processCoeffs, h]

theorem processCoeffs_notMonotonic (R : K) (log : K → K) (coeffs : Nat → K)
    (self : Mu0Poly K) (h : 2 ≤ ⌊coeffs 0⌋₊)
    (hm : ∃ j, j < ⌊coeffs 0⌋₊ - 1 ∧ tempAt coeffs (j + 1) ≤ tempAt coeffs j) :
    ∃ s, processCoeffs R log coeffs self = .error (CanteraError.notMonotonic, s) := by
  obtain ⟨j, hj1, hj2⟩ := hm
  obtain ⟨s, hs⟩ := distributeLoop_error R coeffs ⌊coeffs 0⌋₊ ⌊coeffs 0⌋₊ 0 0 false
    { self with
      m_numIntervals := ⌊coeffs 0⌋₊ - 1
      m_H298 := coeffs 1 / R
      m_t0_int := resize self.m_t0_int ⌊coeffs 0⌋₊
      m_h0_R_int := resize self.m_h0_R_int ⌊coeffs 0⌋₊
      m_s0_R_int := resize self.m_s0_R_int ⌊coeffs 0⌋₊
      m_cp0_R_int := resize self.m_cp0_R_int ⌊coeffs 0⌋₊
      m_mu0_R_int := resize self.m_mu0_R_int ⌊coeffs 0⌋₊ }
    (by omega) ⟨j, by omega, hj1, hj2⟩
  refine ⟨s, ?_⟩
  unfold processCoeffs
  simp only [not_lt.mpr h, if_false]
  simp only [Nat.mul_zero, Nat.add_zero] at hs
  rw [hs]

theorem processCoeffs_mono (R : K) (log : K → K) (coeffs : Nat → K)
    (self : Mu0Poly K) (h : 2 ≤ ⌊coeffs 0⌋₊)
    (hm : ∀ i, i < ⌊coeffs 0⌋₊ - 1 → tempAt coeffs i < tempAt coeffs (i + 1)) :
    (¬ (∃ i, i < ⌊coeffs 0⌋₊ ∧ tempAt coeffs i = 298.15) →
      ∃ s, processCoeffs R log coeffs self = .error (CanteraError.no298, s)) ∧
    ((∃ i, i < ⌊coeffs 0⌋₊ ∧ tempAt coeffs i = 298.15) →
      ∃ st a, processCoeffs R log coeffs self = .ok st ∧ Constructed R log coeffs st a ∧
        st.m_lowT = self.m_lowT ∧ st.m_highT = self.m_highT ∧ st.m_Pref = self.m_Pref ∧
        st.m_index = self.m_index) := by
  obtain ⟨a', f', t', mu', heq, hlt, hlmu, -, ht2, -, hm2, hf, ha⟩ :=
    distributeLoop_ok R coeffs ⌊coeffs 0⌋₊ ⌊coeffs 0⌋₊ 0 0 false
    { self with
      m_numIntervals := ⌊coeffs 0⌋₊ - 1
      m_H298 := coeffs 1 / R
      m_t0_int := resize self.m_t0_int ⌊coeffs 0⌋₊
      m_h0_R_int := resize self.m_h0_R_int ⌊coeffs 0⌋₊
      m_s0_R_int := resize self.m_s0_R_int ⌊coeffs 0⌋₊
      m_cp0_R_int := resize self.m_cp0_R_int ⌊coeffs 0⌋₊
      m_mu0_R_int := resize self.m_mu0_R_int ⌊coeffs 0⌋₊ }
    (by omega) (length_resize _ _) (length_resize _ _) (fun j _ hj => hm j hj)
  simp only [Nat.mul_zero, Nat.add_zero] at heq
  have hpc : processCoeffs R log coeffs self =
      if f' = false then
        .error (CanteraError.no298,
          { self with
            m_numIntervals := ⌊coeffs 0⌋₊ - 1
            m_H298 := coeffs 1 / R
            m_t0_int := t'
            m_h0_R_int := resize self.m_h0_R_int ⌊coeffs 0⌋₊
            m_s0_R_int := resize self.m_s0_R_int ⌊coeffs 0⌋₊
            m_cp0_R_int := resize self.m_cp0_R_int ⌊coeffs 0⌋₊
            m_mu0_R_int := mu' })
      else
        .ok (walks log a'
          { self with
            m_numIntervals := ⌊coeffs 0⌋₊ - 1
            m_H298 := coeffs 1 / R
            m_t0_int := t'
            m_h0_R_int := resize self.m_h0_R_int ⌊coeffs 0⌋₊
            m_s0_R_int := resize self.m_s0_R_int ⌊coeffs 0⌋₊
            m_cp0_R_int := resize self.m_cp0_R_int ⌊coeffs 0⌋₊
            m_mu0_R_int := mu' }) := by
    unfold processCoeffs
    simp only [not_lt.mpr h, if_false]
    rw [heq]
  have hf' : f' = true ↔ ∃ i, i < ⌊coeffs 0⌋₊ ∧ tempAt coeffs i = 298.15 := by
    rw [hf]
    constructor
    · rintro (h | ⟨j, _, h2, h3⟩)
      · exact absurd h (by simp)
      · exact ⟨j, h2, h3⟩
    · rintro ⟨j, h2, h3⟩
      exact Or.inr ⟨j, Nat.zero_le _, h2, h3⟩
  constructor
  · intro hno
    have : f' = false := by
      cases f'
      · rfl
      · exact absurd (hf'.mp rfl) hno
    rw [hpc, if_pos this]
    exact ⟨_, rfl⟩
  · intro hyes
    have hft : f' = true := hf'.mpr hyes
    have ha' : a' < ⌊coeffs 0⌋₊ ∧ tempAt coeffs a' = 298.15 := by
      rcases ha with ⟨_, h2, h3⟩ | ⟨_, h2⟩
      · exact ⟨h2, h3⟩
      · rw [hft] at h2
        exact absurd h2 (by simp)
    obtain ⟨h', s', cp', hw, hlh, hls, hlcp, hha, hsa, hup, hdown, hlast⟩ :=
      walks_spec log a'
        { self with
          m_numIntervals := ⌊coeffs 0⌋₊ - 1
          m_H298 := coeffs 1 / R
          m_t0_int := t'
          m_h0_R_int := resize self.m_h0_R_int ⌊coeffs 0⌋₊
          m_s0_R_int := resize self.m_s0_R_int ⌊coeffs 0⌋₊
          m_cp0_R_int := resize self.m_cp0_R_int ⌊coeffs 0⌋₊
          m_mu0_R_int := mu' }
        (by simp only [length_resize]; omega) (by simp only [length_resize]; omega)
        (by simp only [length_resize]; omega) (by simp only; omega) (by simp only; omega)
    simp only at hlh hls hlcp hha hsa hup hdown hlast
    rw [hpc, if_neg (by simp [hft]), hw]
    refine ⟨_, a', rfl, ?_, rfl, rfl, rfl, rfl⟩
    exact
      { numIntervals := by simp only; omega
        pos := by simp only; omega
        H298 := rfl
        len_t := by simp only; omega
        len_mu := by simp only; omega
        len_h := hlh
        len_s := hls
        len_cp := hlcp
        t0 := fun i hi => ht2 i (Nat.zero_le _) (by simp only at hi; omega)
        mu0 := fun i hi => hm2 i (Nat.zero_le _) (by simp only at hi; omega)
        anchor_le := by simp only; omega
        anchor := ha'.2
        h_anchor := hha
        s_anchor := hsa
        up := hup
        down := hdown
        cp_last := hlast }

end PC

section Eval
variable [LinearOrderedField K]

theorem findInterval_spec (self : Mu0Poly K) (T : K)
    (hlen : self.m_t0_int.length = self.m_numIntervals + 1) :
    ∀ (k i : Nat), i + k = self.m_numIntervals →
      ∃ j, findInterval self T k i = some j ∧ i ≤ j ∧ j ≤ self.m_numIntervals ∧
        (j < self.m_numIntervals → T ≤ rd self.m_t0_int (j + 1)) ∧
        (∀ l, i ≤ l → l < j → rd self.m_t0_int (l + 1) < T) := by
  intro k
  induction k with
  | zero =>
    intro i hik
    refine ⟨self.m_numIntervals, rfl, by omega, le_rfl, fun h => by omega, fun l h1 h2 => by omega⟩
  | succ k ih =>
    intro i hik
    unfold findInterval
    rw [getElem?_eq_rd _ _ (by omega)]
    simp only
    by_cases hT : T ≤ rd self.m_t0_int (i + 1)
    · rw [if_pos hT]
      exact ⟨i, rfl, le_rfl, by omega, fun _ => hT, fun l h1 h2 => by omega⟩
    · rw [if_neg hT]
      obtain ⟨j, hj, h1, h2, h3, h4⟩ := ih (i + 1) (by omega)
      refine ⟨j, hj, by omega, h2, h3, ?_⟩
      intro l hl1 hl2
      rcases Nat.eq_or_lt_of_le hl1 with rfl | h
      · exact not_le.mp hT
      · exact h4 l h hl2

theorem updateProperties_spec (log : K → K) (self : Mu0Poly K) (T : K) (out : ThermoOut K)
    (hlt : self.m_t0_int.length = self.m_numIntervals + 1)
    (hlh : self.m_h0_R_int.length = self.m_numIntervals + 1)
    (hls : self.m_s0_R_int.length = self.m_numIntervals + 1)
    (hlcp : self.m_cp0_R_int.length = self.m_numIntervals + 1) :
    ∃ j, j ≤ self.m_numIntervals ∧
      (j < self.m_numIntervals → T ≤ rd self.m_t0_int (j + 1)) ∧
      (∀ l, l < j → rd self.m_t0_int (l + 1) < T) ∧
      updateProperties log self T out = some
        { cp_R := Function.update out.cp_R self.m_index (rd self.m_cp0_R_int j)
          h_RT := Function.update out.h_RT self.m_index
            (1 / T * (rd self.m_h0_R_int j + (T - rd self.m_t0_int j) * rd self.m_cp0_R_int j))
          s_R := Function.update out.s_R self.m_index
            (rd self.m_s0_R_int j + rd self.m_cp0_R_int j * log (T / rd self.m_t0_int j)) } := by
  obtain ⟨j, hj, -, h2, h3, h4⟩ := findInterval_spec self T hlt self.m_numIntervals 0 (by omega)
  refine ⟨j, h2, h3, fun l hl => h4 l (Nat.zero_le _) hl, ?_⟩
  unfold updateProperties
  rw [hj]
  simp only
  rw [getElem?_eq_rd _ _ (by omega), getElem?_eq_rd _ _ (by omega),
    getElem?_eq_rd _ _ (by omega), getElem?_eq_rd _ _ (by omega)]

end Eval

section Derived
variable [LinearOrderedField K]

theorem realLog_logLike : LogLike Real.log where
  log_one := Real.log_one
  log_lt_sub_one := fun _ h1 h2 => Real.log_lt_sub_one_of_pos h1 h2
  one_sub_inv_lt_log := by
    intro x h1 h2
    have h3 : x⁻¹ ≠ 1 := fun h => h2 (inv_eq_one.mp h)
    have := Real.log_lt_sub_one_of_pos (inv_pos.mpr h1) h3
    rw [Real.log_inv] at this
    linarith

theorem temps_lt_of_lt (coeffs : Nat → K) (n : Nat)
    (hm : ∀ i, i < n - 1 → tempAt coeffs i < tempAt coeffs (i + 1)) :
    ∀ i j, i < j → j < n → tempAt coeffs i < tempAt coeffs j := by
  intro i j hij
  induction j with
  | zero => omega
  | succ j ih =>
    intro hj
    rcases Nat.eq_or_lt_of_le (Nat.le_of_lt_succ hij) with rfl | h
    · exact hm i (by omega)
    · exact lt_trans (ih h (by omega)) (hm j (by omega))

theorem temps_inj (coeffs : Nat → K) (n : Nat)
    (hm : ∀ i, i < n - 1 → tempAt coeffs i < tempAt coeffs (i + 1))
    (i j : Nat) (hi : i < n) (hj : j < n) (h : tempAt coeffs i = tempAt coeffs j) : i = j := by
  rcases Nat.lt_trichotomy i j with hlt | heq | hgt
  · exact absurd h (ne_of_lt (temps_lt_of_lt coeffs n hm i j hlt hj))
  · exact heq
  · exact absurd h.symm (ne_of_lt (temps_lt_of_lt coeffs n hm j i hgt hi))

/-- Divisor of the upward heat-capacity formula is negative. -/
theorem up_divisor_neg (log : K → K) (hlog : LogLike log) (T1 T2 : K) (h1 : 0 < T1)
    (h12 : T1 < T2) : T2 - T1 - T2 * log (T2 / T1) < 0 := by
  have h2 : 0 < T2 := lt_trans h1 h12
  have hx : 0 < T2 / T1 := div_pos h2 h1
  have hx1 : T2 / T1 ≠ 1 := by
    intro h
    rw [div_eq_one_iff_eq (ne_of_gt h1)] at h
    exact absurd h (ne_of_gt h12)
  have := hlog.one_sub_inv_lt_log _ hx hx1
  rw [inv_div] at this
  have h3 : T2 * (1 - T1 / T2) < T2 * log (T2 / T1) := mul_lt_mul_of_pos_left this h2
  have h4 : T2 * (1 - T1 / T2) = T2 - T1 := by
    field_simp
  rw [h4] at h3
  linarith

/-- Divisor of the downward heat-capacity formula is positive. -/
theorem down_divisor_pos (log : K → K) (hlog : LogLike log) (T1 T2 : K) (h1 : 0 < T1)
    (h12 : T1 < T2) : 0 < T2 - T1 - T1 * log (T2 / T1) := by
  have h2 : 0 < T2 := lt_trans h1 h12
  have hx : 0 < T2 / T1 := div_pos h2 h1
  have hx1 : T2 / T1 ≠ 1 := by
    intro h
    rw [div_eq_one_iff_eq (ne_of_gt h1)] at h
    exact absurd h (ne_of_gt h12)
  have := hlog.log_lt_sub_one _ hx hx1
  have h3 : T1 * log (T2 / T1) < T1 * (T2 / T1 - 1) := mul_lt_mul_of_pos_left this h1
  have h4 : T1 * (T2 / T1 - 1) = T2 - T1 := by
    field_simp
  rw [h4] at h3
  linarith

variable [FloorRing K]

theorem Constructed.continuity {R : K} {log : K → K} {coeffs : Nat → K} {st : Mu0Poly K}
    {a : Nat} (hc : Constructed R log coeffs st a) (i : Nat) (hi : i < st.m_numIntervals) :
    rd st.m_h0_R_int (i + 1) =
      rd st.m_h0_R_int i + rd st.m_cp0_R_int i * (rd st.m_t0_int (i + 1) - rd st.m_t0_int i) ∧
    rd st.m_s0_R_int (i + 1) =
      rd st.m_s0_R_int i
        + rd st.m_cp0_R_int i * log (rd st.m_t0_int (i + 1) / rd st.m_t0_int i) := by
  by_cases h : a ≤ i
  · exact (hc.up i h hi).2
  · obtain ⟨-, h2, h3⟩ := hc.down i (by omega)
    constructor
    · rw [h2]; ring
    · rw [h3]; ring

theorem Constructed.temps_lt {R : K} {log : K → K} {coeffs : Nat → K} {st : Mu0Poly K}
    {a : Nat} (hc : Constructed R log coeffs st a) (hv : ValidCoeffs coeffs)
    (i j : Nat) (hij : i < j) (hj : j ≤ st.m_numIntervals) :
    rd st.m_t0_int i < rd st.m_t0_int j := by
  rw [hc.t0 i (by omega), hc.t0 j hj]
  exact temps_lt_of_lt coeffs _ hv.2.1 i j hij (by have := hc.numIntervals; omega)

theorem Constructed.gibbs {R : K} {log : K → K} {coeffs : Nat → K} {st : Mu0Poly K}
    {a : Nat} (hc : Constructed R log coeffs st a) (hv : ValidCoeffs coeffs)
    (hlog : LogLike log) (hpos : ∀ i, i < ⌊coeffs 0⌋₊ → 0 < tempAt coeffs i) :
    ∀ i, i ≤ st.m_numIntervals →
      rd st.m_h0_R_int i - rd st.m_t0_int i * rd st.m_s0_R_int i = rd st.m_mu0_R_int i := by
  have hn := hc.numIntervals
  have hp : ∀ i, i ≤ st.m_numIntervals → 0 < rd st.m_t0_int i := by
    intro i hi
    rw [hc.t0 i hi]
    exact hpos i (by omega)
  have hanchor : rd st.m_h0_R_int a - rd st.m_t0_int a * rd st.m_s0_R_int a
      = rd st.m_mu0_R_int a := by
    rw [hc.h_anchor, hc.s_anchor]
    have := ne_of_gt (hp a hc.anchor_le)
    field_simp
  have hupw : ∀ i, a ≤ i → i ≤ st.m_numIntervals →
      rd st.m_h0_R_int i - rd st.m_t0_int i * rd st.m_s0_R_int i = rd st.m_mu0_R_int i := by
    intro i hai
    induction i, hai using Nat.le_induction with
    | base => intro _; exact hanchor
    | succ j haj ih =>
      intro hj
      have ihj := ih (by omega)
      obtain ⟨e1, e2, e3⟩ := hc.up j haj (by omega)
      have hd := ne_of_lt (up_divisor_neg log hlog _ _ (hp j (by omega))
        (hc.temps_lt hv j (j + 1) (by omega) hj))
      rw [e2, e3]
      rw [eq_div_iff hd] at e1
      linear_combination ihj + e1
  have hdown : ∀ d i, i + d = a →
      rd st.m_h0_R_int i - rd st.m_t0_int i * rd st.m_s0_R_int i = rd st.m_mu0_R_int i := by
    intro d
    induction d with
    | zero => intro i hi; simp only [Nat.add_zero] at hi; rw [hi]; exact hanchor
    | succ d ih =>
      intro i hi
      have ihj := ih (i + 1) (by omega)
      have hale := hc.anchor_le
      obtain ⟨e1, e2, e3⟩ := hc.down i (by omega)
      have hd := ne_of_gt (down_divisor_pos log hlog _ _ (hp i (by omega))
        (hc.temps_lt hv i (i + 1) (by omega) (by omega)))
      rw [e2, e3]
      rw [eq_div_iff hd] at e1
      linear_combination ihj - e1
  intro i hi
  by_cases h : a ≤ i
  · exact hupw i h hi
  · exact hdown (a - i) i (by omega)

end Derived

section Derived2
variable [LinearOrderedField K] [FloorRing K]

theorem Constructed.unique {R : K} {log : K → K} {coeffs : Nat → K} {st st' : Mu0Poly K}
    {a : Nat} (hc : Constructed R log coeffs st a) (hc' : Constructed R log coeffs st' a) :
    st.m_numIntervals = st'.m_numIntervals ∧ st.m_H298 = st'.m_H298 ∧
    st.m_t0_int = st'.m_t0_int ∧ st.m_mu0_R_int = st'.m_mu0_R_int ∧
    st.m_h0_R_int = st'.m_h0_R_int ∧ st.m_s0_R_int = st'.m_s0_R_int ∧
    st.m_cp0_R_int = st'.m_cp0_R_int := by
  have hn : st'.m_numIntervals = st.m_numIntervals := by
    have h1 := hc.numIntervals
    have h2 := hc'.numIntervals
    omega
  have hH : st'.m_H298 = st.m_H298 := by rw [hc.H298, hc'.H298]
  have ht : ∀ j, j ≤ st.m_numIntervals → rd st'.m_t0_int j = rd st.m_t0_int j := by
    intro j hj
    rw [hc.t0 j hj, hc'.t0 j (by omega)]
  have hmu : ∀ j, j ≤ st.m_numIntervals → rd st'.m_mu0_R_int j = rd st.m_mu0_R_int j := by
    intro j hj
    rw [hc.mu0 j hj, hc'.mu0 j (by omega)]
  have hale := hc.anchor_le
  have hanchor : rd st'.m_h0_R_int a = rd st.m_h0_R_int a ∧
      rd st'.m_s0_R_int a = rd st.m_s0_R_int a := by
    rw [hc.h_anchor, hc'.h_anchor, hc.s_anchor, hc'.s_anchor, hH, ht a hale, hmu a hale]
    exact ⟨rfl, rfl⟩
  have hupw : ∀ i, a ≤ i → i ≤ st.m_numIntervals →
      rd st'.m_h0_R_int i = rd st.m_h0_R_int i ∧ rd st'.m_s0_R_int i = rd st.m_s0_R_int i := by
    intro i hai
    induction i, hai using Nat.le_induction with
    | base => intro _; exact hanchor
    | succ j haj ih =>
      intro hj
      obtain ⟨ihh, ihs⟩ := ih (by omega)
      obtain ⟨e1, e2, e3⟩ := hc.up j haj (by omega)
      obtain ⟨e1', e2', e3'⟩ := hc'.up j haj (by omega)
      rw [ht j (by omega), ht (j + 1) hj, hmu j (by omega), hmu (j + 1) hj, ihs, ← e1] at e1'
      rw [e1', ihh, ht j (by omega), ht (j + 1) hj, ← e2] at e2'
      rw [e1', ihs, ht j (by omega), ht (j + 1) hj, ← e3] at e3'
      exact ⟨e2', e3'⟩
  have hdown : ∀ d i, i + d = a →
      rd st'.m_h0_R_int i = rd st.m_h0_R_int i ∧ rd st'.m_s0_R_int i = rd st.m_s0_R_int i := by
    intro d
    induction d with
    | zero => intro i hi; simp only [Nat.add_zero] at hi; rw [hi]; exact hanchor
    | succ d ih =>
      intro i hi
      obtain ⟨ihh, ihs⟩ := ih (i + 1) (by omega)
      obtain ⟨e1, e2, e3⟩ := hc.down i (by omega)
      obtain ⟨e1', e2', e3'⟩ := hc'.down i (by omega)
      rw [ht i (by omega), ht (i + 1) (by omega), hmu i (by omega), hmu (i + 1) (by omega),
        ihs, ← e1] at e1'
      rw [e1', ihh, ht i (by omega), ht (i + 1) (by omega), ← e2] at e2'
      rw [e1', ihs, ht i (by omega), ht (i + 1) (by omega), ← e3] at e3'
      exact ⟨e2', e3'⟩
  have hhs : ∀ i, i ≤ st.m_numIntervals →
      rd st'.m_h0_R_int i = rd st.m_h0_R_int i ∧ rd st'.m_s0_R_int i = rd st.m_s0_R_int i := by
    intro i hi
    by_cases h : a ≤ i
    · exact hupw i h hi
    · exact hdown (a - i) i (by omega)
  have hcp : ∀ i, i < st.m_numIntervals → rd st'.m_cp0_R_int i = rd st.m_cp0_R_int i := by
    intro i hi
    by_cases h : a ≤ i
    · have e1 := (hc.up i h hi).1
      have e1' := (hc'.up i h (by omega)).1
      rw [ht i (by omega), ht (i + 1) (by omega), hmu i (by omega), hmu (i + 1) (by omega),
        (hhs i (by omega)).2, ← e1] at e1'
      exact e1'
    · have e1 := (hc.down i (by omega)).1
      have e1' := (hc'.down i (by omega)).1
      rw [ht i (by omega), ht (i + 1) (by omega), hmu i (by omega), hmu (i + 1) (by omega),
        (hhs (i + 1) (by omega)).2, ← e1] at e1'
      exact e1'
  have hnpos := hc.pos
  refine ⟨hn.symm, hH.symm, ?_, ?_, ?_, ?_, ?_⟩
  · exact ext_rd _ _ (by rw [hc.len_t, hc'.len_t, hn])
      (fun i hi => (ht i (by rw [hc.len_t] at hi; omega)).symm)
  · exact ext_rd _ _ (by rw [hc.len_mu, hc'.len_mu, hn])
      (fun i hi => (hmu i (by rw [hc.len_mu] at hi; omega)).symm)
  · exact ext_rd _ _ (by rw [hc.len_h, hc'.len_h, hn])
      (fun i hi => (hhs i (by rw [hc.len_h] at hi; omega)).1.symm)
  · exact ext_rd _ _ (by rw [hc.len_s, hc'.len_s, hn])
      (fun i hi => (hhs i (by rw [hc.len_s] at hi; omega)).2.symm)
  · apply ext_rd _ _ (by rw [hc.len_cp, hc'.len_cp, hn])
    intro i hi
    rw [hc.len_cp] at hi
    rcases Nat.eq_or_lt_of_le (Nat.le_of_lt_succ hi) with rfl | h
    · rw [hc.cp_last, ← hn, hc'.cp_last, hn]
      exact (hcp _ (by omega)).symm
    · exact (hcp i h).symm

theorem Constructed.eval_index {R : K} {log : K → K} {coeffs : Nat → K} {st : Mu0Poly K}
    {a : Nat} (hc : Constructed R log coeffs st a) (hv : ValidCoeffs coeffs)
    (i : Nat) (hi : i ≤ st.m_numIntervals) (out : ThermoOut K) :
    updateProperties log st (rd st.m_t0_int i) out = some
      { cp_R := Function.update out.cp_R st.m_index (rd st.m_cp0_R_int (i - 1))
        h_RT := Function.update out.h_RT st.m_index
          (1 / rd st.m_t0_int i * (rd st.m_h0_R_int (i - 1)
            + (rd st.m_t0_int i - rd st.m_t0_int (i - 1)) * rd st.m_cp0_R_int (i - 1)))
        s_R := Function.update out.s_R st.m_index
          (rd st.m_s0_R_int (i - 1)
            + rd st.m_cp0_R_int (i - 1) * log (rd st.m_t0_int i / rd st.m_t0_int (i - 1))) } := by
  obtain ⟨j, h1, h2, h3, h4⟩ := updateProperties_spec log st (rd st.m_t0_int i) out
    hc.len_t hc.len_h hc.len_s hc.len_cp
  have hpos := hc.pos
  have hj : j = i - 1 := by
    rcases Nat.lt_trichotomy j (i - 1) with hlt | heq | hgt
    · have := h2 (by omega)
      have := hc.temps_lt hv (j + 1) i (by omega) hi
      exact absurd ‹rd st.m_t0_int i ≤ _› (not_le.mpr this)
    · exact heq
    · have := h3 (i - 1) hgt
      rcases Nat.eq_zero_or_pos i with rfl | hip
      · have := hc.temps_lt hv 0 1 (by omega) (by omega)
        exact absurd ‹rd st.m_t0_int (0 - 1 + 1) < _› (not_lt.mpr (le_of_lt this))
      · have e : i - 1 + 1 = i := by omega
        rw [e] at this
        exact absurd this (lt_irrefl _)
  rw [h4, hj]

theorem Constructed.eval_breakpoint {R : K} {log : K → K} {coeffs : Nat → K}
    {st : Mu0Poly K} {a : Nat} (hc : Constructed R log coeffs st a) (hv : ValidCoeffs coeffs)
    (hlog1 : log 1 = 0) (i : Nat) (hi : i ≤ st.m_numIntervals)
    (hT : i = 0 → rd st.m_t0_int 0 ≠ 0) (out : ThermoOut K) :
    updateProperties log st (rd st.m_t0_int i) out = some
      { cp_R := Function.update out.cp_R st.m_index (rd st.m_cp0_R_int (i - 1))
        h_RT := Function.update out.h_RT st.m_index (rd st.m_h0_R_int i / rd st.m_t0_int i)
        s_R := Function.update out.s_R st.m_index (rd st.m_s0_R_int i) } := by
  rw [hc.eval_index hv i hi out]
  rcases Nat.eq_zero_or_pos i with rfl | hip
  · simp only [Nat.zero_sub, sub_self, zero_mul, add_zero, div_self (hT rfl), hlog1, mul_zero]
    rw [one_div, inv_mul_eq_div]
  · obtain ⟨e1, e2⟩ := hc.continuity (i - 1) (by omega)
    have e : i - 1 + 1 = i := by omega
    rw [e] at e1 e2
    rw [← e2, e1, one_div, inv_mul_eq_div,
      mul_comm (rd st.m_t0_int i - rd st.m_t0_int (i - 1)) (rd st.m_cp0_R_int (i - 1))]

end Derived2

section ReportLemmas
variable [LinearOrderedField K]

theorem reportLoop_spec (R : K) (self : Mu0Poly K) :
    ∀ (k i : Nat) (buf : Nat → K),
      (∀ l, i ≤ l → l < i + k →
        reportLoop R self k i (2 + 2 * i) buf (2 + 2 * l) = rd self.m_t0_int l ∧
        reportLoop R self k i (2 + 2 * i) buf (2 + 2 * l + 1) = rd self.m_mu0_R_int l * R) ∧
      (∀ x, x < 2 + 2 * i ∨ 2 + 2 * (i + k) ≤ x →
        reportLoop R self k i (2 + 2 * i) buf x = buf x) := by
  intro k
  induction k with
  | zero =>
    intro i buf
    exact ⟨fun l h1 h2 => by omega, fun x _ => rfl⟩
  | succ k ih =>
    intro i buf
    have e : 2 + 2 * i + 2 = 2 + 2 * (i + 1) := by ring
    obtain ⟨ih1, ih2⟩ := ih (i + 1)
      (Function.update (Function.update buf (2 + 2 * i) (rd self.m_t0_int i))
        (2 + 2 * i + 1) (rd self.m_mu0_R_int i * R))
    constructor
    · intro l h1 h2
      unfold reportLoop
      simp only
      rw [e]
      rcases Nat.eq_or_lt_of_le h1 with rfl | h
      · rw [ih2 _ (Or.inl (by omega)), ih2 _ (Or.inl (by omega))]
        constructor
        · rw [Function.update_noteq (by omega), Function.update_same]
        · rw [Function.update_same]
      · exact ih1 l (by omega) (by omega)
    · intro x hx
      unfold reportLoop
      simp only
      rw [e, ih2 x (by omega), Function.update_noteq (by omega),
        Function.update_noteq (by omega)]

theorem distributeLoop_congr (R : K) (c c' : Nat → K) (nPoints : Nat)
    (hcc : ∀ x, x < 2 + 2 * nPoints → c x = c' x) :
    ∀ (k i a : Nat) (f : Bool) (self : Mu0Poly K), i + k = nPoints →
      distributeLoop R c nPoints k i (2 + 2 * i) a f self
        = distributeLoop R c' nPoints k i (2 + 2 * i) a f self := by
  intro k
  induction k with
  | zero => intro i a f self _; rfl
  | succ k ih =>
    intro i a f self hik
    unfold distributeLoop
    have e : 2 + 2 * i + 2 = 2 + 2 * (i + 1) := by ring
    rw [hcc (2 + 2 * i) (by omega), hcc (2 + 2 * i + 1) (by omega)]
    by_cases hi : i < nPoints - 1
    · rw [hcc (2 + 2 * i + 2) (by omega)]
      simp only [e]
      rw [ih (i + 1) _ _ _ (by omega)]
    · simp only [hi, false_and, if_false, e]
      rw [ih (i + 1) _ _ _ (by omega)]

theorem processCoeffs_congr [FloorRing K] (R : K) (log : K → K) (c c' : Nat → K)
    (self : Mu0Poly K) (hcc : ∀ x, x < 2 + 2 * ⌊c 0⌋₊ → c x = c' x) :
    processCoeffs R log c' self = processCoeffs R log c self := by
  have h0 : c' 0 = c 0 := (hcc 0 (by omega)).symm
  have h1 : c' 1 = c 1 := (hcc 1 (by omega)).symm
  unfold processCoeffs
  simp only [h0, h1]
  have := distributeLoop_congr R c c' ⌊c 0⌋₊ hcc ⌊c 0⌋₊ 0 0 false
  simp only [Nat.mul_zero, Nat.add_zero] at this
  rw [this _ (by omega)]

end ReportLemmas

/-! ## Mu0Poly: the claims -/

section Mu0PolyClaims
variable [LinearOrderedField K] [FloorRing K]

theorem sampleCoeffs_valid : ValidCoeffs (sampleCoeffs : Nat → K) := by
  have h0 : ⌊(sampleCoeffs : Nat → K) 0⌋₊ = 3 := by
    simp [sampleCoeffs, rd]
  refine ⟨by rw [h0]; omega, ?_, ⟨1, by rw [h0]; omega, ?_⟩⟩
  · intro i hi
    rw [h0] at hi
    interval_cases i <;> norm_num [tempAt, sampleCoeffs, rd]
  · norm_num [tempAt, sampleCoeffs, rd]

theorem processCoeffs_ok_iff (R : K) (log : K → K) (coeffs : Nat → K) (self : Mu0Poly K) :
    (∃ st, processCoeffs R log coeffs self = .ok st) ↔ ValidCoeffs coeffs := by
  constructor
  · rintro ⟨st, hst⟩
    by_contra hv
    by_cases h2 : 2 ≤ ⌊coeffs 0⌋₊
    · by_cases hm : ∀ i, i < ⌊coeffs 0⌋₊ - 1 → tempAt coeffs i < tempAt coeffs (i + 1)
      · have hno : ¬ ∃ i, i < ⌊coeffs 0⌋₊ ∧ tempAt coeffs i = 298.15 :=
          fun h => hv ⟨h2, hm, h⟩
        obtain ⟨s, hs⟩ := (processCoeffs_mono R log coeffs self h2 hm).1 hno
        rw [hs] at hst
        exact absurd hst (by simp)
      · push_neg at hm
        obtain ⟨s, hs⟩ := processCoeffs_notMonotonic R log coeffs self h2 hm
        rw [hs] at hst
        exact absurd hst (by simp)
    · rw [processCoeffs_tooFew R log coeffs self (by omega)] at hst
      exact absurd hst (by simp)
  · rintro ⟨h2, hm, ha⟩
    obtain ⟨st, a, hst, -⟩ := (processCoeffs_mono R log coeffs self h2 hm).2 ha
    exact ⟨st, hst⟩

theorem processCoeffs_valid (R : K) (log : K → K) (coeffs : Nat → K) (self : Mu0Poly K)
    (hv : ValidCoeffs coeffs) :
    ∃ st a, processCoeffs R log coeffs self = .ok st ∧ Constructed R log coeffs st a ∧
      st.m_lowT = self.m_lowT ∧ st.m_highT = self.m_highT ∧ st.m_Pref = self.m_Pref ∧
      st.m_index = self.m_index :=
  (processCoeffs_mono R log coeffs self hv.1 hv.2.1).2 hv.2.2

/-- C1. `Mu0Poly::processCoeffs`, run by the constructor and by `modifyParameters` on an
object in any state, returns normally if and only if the coefficient vector has at least two
points, strictly increasing temperatures and some temperature equal to 298.15; in every other
case it throws a `CanteraError`. -/
theorem C1_processCoeffs_succeeds_iff_valid (R : K) (log : K → K) (coeffs : Nat → K)
    (self : Mu0Poly K) :
    ((∃ st, processCoeffs R log coeffs self = .ok st) ↔
      (2 ≤ ⌊coeffs 0⌋₊ ∧
        (∀ i, i < ⌊coeffs 0⌋₊ - 1 → tempAt coeffs i < tempAt coeffs (i + 1)) ∧
        ∃ i, i < ⌊coeffs 0⌋₊ ∧ tempAt coeffs i = 298.15)) ∧
    (¬ (2 ≤ ⌊coeffs 0⌋₊ ∧
        (∀ i, i < ⌊coeffs 0⌋₊ - 1 → tempAt coeffs i < tempAt coeffs (i + 1)) ∧
        ∃ i, i < ⌊coeffs 0⌋₊ ∧ tempAt coeffs i = 298.15) →
      ∃ e s, processCoeffs R log coeffs self = .error (e, s)) := by
  refine ⟨processCoeffs_ok_iff R log coeffs self, ?_⟩
  intro hv
  cases h : processCoeffs R log coeffs self with
  | error es => exact ⟨es.1, es.2, rfl⟩
  | ok st => exact absurd ((processCoeffs_ok_iff R log coeffs self).mp ⟨st, h⟩) hv

/-- C2. For every valid coefficient vector, wherever its 298.15 K breakpoint `a` sits, the
evaluator built by `processCoeffs` answers `updateProperties` at `T = 298.15` with
`h_RT = (H298/R)/298.15` and `s_R = (H298/R - mu0_a/R)/298.15` at the species slot.  The only
fact about the logarithm used is `log 1 = 0`. -/
theorem C2_anchor_round_trip (R : K) (log : K → K) (coeffs : Nat → K) (self : Mu0Poly K)
    (hv : ValidCoeffs coeffs) (hlog1 : log 1 = 0) (a : Nat) (ha : a < ⌊coeffs 0⌋₊)
    (h298 : tempAt coeffs a = 298.15) :
    ∃ st, processCoeffs R log coeffs self = .ok st ∧
      ∀ out : ThermoOut K, ∃ out', updateProperties log st 298.15 out = some out' ∧
        out'.h_RT st.m_index = (coeffs 1 / R) / 298.15 ∧
        out'.s_R st.m_index = (coeffs 1 / R - mu0At coeffs a / R) / 298.15 := by
  obtain ⟨st, a', hst, hc, -⟩ := processCoeffs_valid R log coeffs self hv
  have hn := hc.numIntervals
  have hale := hc.anchor_le
  have haa : a' = a :=
    temps_inj coeffs _ hv.2.1 a' a (by omega) ha (by rw [hc.anchor, h298])
  subst haa
  have hta : rd st.m_t0_int a' = 298.15 := by rw [hc.t0 a' hale, h298]
  refine ⟨st, hst, fun out => ?_⟩
  have hev := hc.eval_breakpoint hv hlog1 a' hale
    (fun h0 => by rw [← h0, hta]; norm_num) out
  rw [hta] at hev
  refine ⟨_, hev, ?_, ?_⟩
  · simp only [Function.update_same]
    rw [hc.h_anchor, hc.H298]
  · simp only [Function.update_same]
    rw [hc.s_anchor, hc.mu0 a' hale, hc.H298, hta, neg_sub]

/-- C2, instance: the sample table over the reals with the real logarithm. -/
theorem C2_anchor_round_trip_witness :
    ∃ st, processCoeffs (8314 : ℝ) Real.log sampleCoeffs (Mu0Poly.init 0 100 500 101325)
        = .ok st ∧
      ∀ out : ThermoOut ℝ, ∃ out', updateProperties Real.log st 298.15 out = some out' ∧
        out'.h_RT st.m_index = (sampleCoeffs 1 / 8314) / 298.15 ∧
        out'.s_R st.m_index = (sampleCoeffs 1 / 8314 - mu0At sampleCoeffs 1 / 8314) / 298.15 :=
  C2_anchor_round_trip 8314 Real.log sampleCoeffs _ sampleCoeffs_valid Real.log_one 1
    (by simp [sampleCoeffs, rd]) (by norm_num [tempAt, sampleCoeffs, rd])

/-- C3. For every valid coefficient vector with positive temperatures, `processCoeffs`
returns the table of that vector: `nPoints - 1` intervals, the breakpoint temperatures and
potentials of the vector, and at the anchor (the breakpoint at 298.15) the enthalpy `H298` and
the entropy solved from the anchor potential.  On every interval `i` of it the formulas of
interval `i` evaluated at the upper bound `T_{i+1}` give the stored `h_{i+1}` and `s_{i+1}`,
and these are the values of the formulas of interval `i+1` at its lower bound.  This holds for
the intervals from the anchor upward, whose heat capacity and upper end point are written by
the upward walk (`UpRel`), and for the intervals below the anchor, whose heat capacity and
lower end point are written by the downward walk (`DownRel`). -/
theorem C3_continuity (R : K) (log : K → K) (coeffs : Nat → K) (self : Mu0Poly K)
    (hv : ValidCoeffs coeffs) (hlog1 : log 1 = 0)
    (hpos : ∀ i, i < ⌊coeffs 0⌋₊ → 0 < tempAt coeffs i) :
    ∃ st a, processCoeffs R log coeffs self = .ok st ∧
      st.m_numIntervals + 1 = ⌊coeffs 0⌋₊ ∧
      (∀ i, i ≤ st.m_numIntervals →
        rd st.m_t0_int i = tempAt coeffs i ∧ rd st.m_mu0_R_int i = mu0At coeffs i / R) ∧
      a ≤ st.m_numIntervals ∧ tempAt coeffs a = 298.15 ∧
      rd st.m_h0_R_int a = coeffs 1 / R ∧
      rd st.m_s0_R_int a = -(mu0At coeffs a / R - coeffs 1 / R) / tempAt coeffs a ∧
      ∀ i, i < st.m_numIntervals →
        hInterval st i (rd st.m_t0_int (i + 1)) = rd st.m_h0_R_int (i + 1) ∧
        sInterval log st i (rd st.m_t0_int (i + 1)) = rd st.m_s0_R_int (i + 1) ∧
        hInterval st (i + 1) (rd st.m_t0_int (i + 1)) = rd st.m_h0_R_int (i + 1) ∧
        sInterval log st (i + 1) (rd st.m_t0_int (i + 1)) = rd st.m_s0_R_int (i + 1) ∧
        (a ≤ i →
          UpRel log st.m_t0_int st.m_mu0_R_int st.m_h0_R_int st.m_s0_R_int st.m_cp0_R_int i) ∧
        (i < a →
          DownRel log st.m_t0_int st.m_mu0_R_int st.m_h0_R_int st.m_s0_R_int
            st.m_cp0_R_int i) := by
  obtain ⟨st, a, hst, hc, -⟩ := processCoeffs_valid R log coeffs self hv
  have hn := hc.numIntervals
  refine ⟨st, a, hst, hn, fun i hi => ⟨hc.t0 i hi, hc.mu0 i hi⟩, hc.anchor_le, hc.anchor,
    ?_, ?_, fun i hi => ?_⟩
  · rw [hc.h_anchor, hc.H298]
  · rw [hc.s_anchor, hc.mu0 a hc.anchor_le, hc.H298, hc.t0 a hc.anchor_le]
  · obtain ⟨e1, e2⟩ := hc.continuity i hi
    have hT : rd st.m_t0_int (i + 1) ≠ 0 := by
      rw [hc.t0 (i + 1) (by omega)]
      exact ne_of_gt (hpos (i + 1) (by omega))
    refine ⟨e1.symm, e2.symm, ?_, ?_, fun hai => hc.up i hai hi, fun hia => hc.down i hia⟩
    · simp only [hInterval, sub_self, mul_zero, add_zero]
    · simp only [sInterval, div_self hT, hlog1, mul_zero, add_zero]

/-- C3, instance: the sample table over the reals with the real logarithm. -/
theorem C3_continuity_witness :
    ∃ st a, processCoeffs (8314 : ℝ) Real.log sampleCoeffs (Mu0Poly.init 0 100 500 101325)
        = .ok st ∧
      st.m_numIntervals + 1 = ⌊(sampleCoeffs : Nat → ℝ) 0⌋₊ ∧
      (∀ i, i ≤ st.m_numIntervals →
        rd st.m_t0_int i = tempAt sampleCoeffs i ∧
        rd st.m_mu0_R_int i = mu0At sampleCoeffs i / 8314) ∧
      a ≤ st.m_numIntervals ∧ tempAt (sampleCoeffs : Nat → ℝ) a = 298.15 ∧
      rd st.m_h0_R_int a = sampleCoeffs 1 / 8314 ∧
      rd st.m_s0_R_int a
        = -(mu0At sampleCoeffs a / 8314 - sampleCoeffs 1 / 8314) / tempAt sampleCoeffs a ∧
      ∀ i, i < st.m_numIntervals →
        hInterval st i (rd st.m_t0_int (i + 1)) = rd st.m_h0_R_int (i + 1) ∧
        sInterval Real.log st i (rd st.m_t0_int (i + 1)) = rd st.m_s0_R_int (i + 1) ∧
        hInterval st (i + 1) (rd st.m_t0_int (i + 1)) = rd st.m_h0_R_int (i + 1) ∧
        sInterval Real.log st (i + 1) (rd st.m_t0_int (i + 1)) = rd st.m_s0_R_int (i + 1) ∧
        (a ≤ i →
          UpRel Real.log st.m_t0_int st.m_mu0_R_int st.m_h0_R_int st.m_s0_R_int
            st.m_cp0_R_int i) ∧
        (i < a →
          DownRel Real.log st.m_t0_int st.m_mu0_R_int st.m_h0_R_int st.m_s0_R_int
            st.m_cp0_R_int i) :=
  C3_continuity 8314 Real.log sampleCoeffs _ sampleCoeffs_valid Real.log_one
    (by
      intro i hi
      have h0 : ⌊(sampleCoeffs : Nat → ℝ) 0⌋₊ = 3 := by simp [sampleCoeffs, rd]
      rw [h0] at hi
      interval_cases i <;> norm_num [tempAt, sampleCoeffs, rd])

/-- C4. For every valid coefficient vector with positive temperatures and every breakpoint
`i` (above, at, or below the anchor) the derived arrays satisfy `h_i - T_i*s_i = mu0_i/R`,
and `updateProperties` at `T = T_i` yields `T_i*(h_RT - s_R) = mu0_i/R`. -/
theorem C4_gibbs_consistency (R : K) (log : K → K) (coeffs : Nat → K) (self : Mu0Poly K)
    (hv : ValidCoeffs coeffs) (hlog : LogLike log)
    (hpos : ∀ i, i < ⌊coeffs 0⌋₊ → 0 < tempAt coeffs i) :
    ∃ st, processCoeffs R log coeffs self = .ok st ∧
      ∀ i, i < ⌊coeffs 0⌋₊ →
        rd st.m_t0_int i = tempAt coeffs i ∧
        rd st.m_h0_R_int i - rd st.m_t0_int i * rd st.m_s0_R_int i = mu0At coeffs i / R ∧
        ∀ out : ThermoOut K, ∃ out',
          updateProperties log st (tempAt coeffs i) out = some out' ∧
          tempAt coeffs i * (out'.h_RT st.m_index - out'.s_R st.m_index)
            = mu0At coeffs i / R := by
  obtain ⟨st, a, hst, hc, -⟩ := processCoeffs_valid R log coeffs self hv
  refine ⟨st, hst, fun i hi => ?_⟩
  have hn := hc.numIntervals
  have hi' : i ≤ st.m_numIntervals := by omega
  have hg := hc.gibbs hv hlog hpos i hi'
  rw [hc.mu0 i hi'] at hg
  have hT : rd st.m_t0_int i ≠ 0 := by
    rw [hc.t0 i hi']
    exact ne_of_gt (hpos i hi)
  refine ⟨hc.t0 i hi', hg, fun out => ?_⟩
  have hev := hc.eval_breakpoint hv hlog.log_one i hi' (fun h0 => by rw [← h0]; exact hT) out
  rw [hc.t0 i hi'] at hev
  refine ⟨_, hev, ?_⟩
  simp only [Function.update_same]
  rw [← hg, hc.t0 i hi']
  rw [hc.t0 i hi'] at hT
  field_simp

/-- C4, instance: the sample table over the reals with the real logarithm. -/
theorem C4_gibbs_consistency_witness :
    ∃ st, processCoeffs (8314 : ℝ) Real.log sampleCoeffs (Mu0Poly.init 0 100 500 101325)
        = .ok st ∧
      ∀ i, i < ⌊(sampleCoeffs : Nat → ℝ) 0⌋₊ →
        rd st.m_t0_int i = tempAt sampleCoeffs i ∧
        rd st.m_h0_R_int i - rd st.m_t0_int i * rd st.m_s0_R_int i
          = mu0At sampleCoeffs i / 8314 ∧
        ∀ out : ThermoOut ℝ, ∃ out',
          updateProperties Real.log st (tempAt sampleCoeffs i) out = some out' ∧
          tempAt sampleCoeffs i * (out'.h_RT st.m_index - out'.s_R st.m_index)
            = mu0At sampleCoeffs i / 8314 :=
  C4_gibbs_consistency 8314 Real.log sampleCoeffs _ sampleCoeffs_valid realLog_logLike
    (by
      intro i hi
      have h0 : ⌊(sampleCoeffs : Nat → ℝ) 0⌋₊ = 3 := by simp [sampleCoeffs, rd]
      rw [h0] at hi
      interval_cases i <;> norm_num [tempAt, sampleCoeffs, rd])

/-- C5. For every valid coefficient vector the constructed evaluator has breakpoints
`T_0..T_n` (`n = m_numIntervals`), and for every `T` (positive or not) `updateProperties`
selects the least `j` in `0..n-1` with `T <= T_{j+1}`, or `j = n` when there is none, and
writes `cp_R = cp_j`, `h_RT = (h_j + cp_j*(T - T_j))/T`, `s_R = s_j + cp_j*log(T/T_j)` at slot
`m_index`, leaving every other slot of the three arrays unchanged. -/
theorem C5_updateProperties_interval (R : K) (log : K → K) (coeffs : Nat → K)
    (self : Mu0Poly K) (hv : ValidCoeffs coeffs) :
    ∃ st, processCoeffs R log coeffs self = .ok st ∧
      st.m_numIntervals + 1 = ⌊coeffs 0⌋₊ ∧
      (∀ i, i ≤ st.m_numIntervals → rd st.m_t0_int i = tempAt coeffs i) ∧
      ∀ (T : K) (out : ThermoOut K), ∃ j out',
        updateProperties log st T out = some out' ∧
        j ≤ st.m_numIntervals ∧
        (j < st.m_numIntervals → T ≤ rd st.m_t0_int (j + 1)) ∧
        (∀ l, l < j → rd st.m_t0_int (l + 1) < T) ∧
        out'.cp_R st.m_index = rd st.m_cp0_R_int j ∧
        out'.h_RT st.m_index
          = (rd st.m_h0_R_int j + rd st.m_cp0_R_int j * (T - rd st.m_t0_int j)) / T ∧
        out'.s_R st.m_index
          = rd st.m_s0_R_int j + rd st.m_cp0_R_int j * log (T / rd st.m_t0_int j) ∧
        ∀ k, k ≠ st.m_index →
          out'.cp_R k = out.cp_R k ∧ out'.h_RT k = out.h_RT k ∧ out'.s_R k = out.s_R k := by
  obtain ⟨st, a, hst, hc, -⟩ := processCoeffs_valid R log coeffs self hv
  refine ⟨st, hst, hc.numIntervals, hc.t0, fun T out => ?_⟩
  obtain ⟨j, h1, h2, h3, h4⟩ :=
    updateProperties_spec log st T out hc.len_t hc.len_h hc.len_s hc.len_cp
  refine ⟨j, _, h4, h1, h2, h3, ?_, ?_, ?_, ?_⟩
  · simp only [Function.update_same]
  · simp only [Function.update_same]
    rw [one_div, inv_mul_eq_div, mul_comm (T - rd st.m_t0_int j)]
  · simp only [Function.update_same]
  · intro k hk
    simp only [Function.update_noteq hk, and_self]

/-- C5, instance: the sample table over the reals with the real logarithm. -/
theorem C5_updateProperties_interval_witness :
    ∃ st, processCoeffs (8314 : ℝ) Real.log sampleCoeffs (Mu0Poly.init 0 100 500 101325)
        = .ok st ∧
      st.m_numIntervals + 1 = ⌊(sampleCoeffs : Nat → ℝ) 0⌋₊ ∧
      (∀ i, i ≤ st.m_numIntervals → rd st.m_t0_int i = tempAt sampleCoeffs i) ∧
      ∀ (T : ℝ) (out : ThermoOut ℝ), ∃ j out',
        updateProperties Real.log st T out = some out' ∧
        j ≤ st.m_numIntervals ∧
        (j < st.m_numIntervals → T ≤ rd st.m_t0_int (j + 1)) ∧
        (∀ l, l < j → rd st.m_t0_int (l + 1) < T) ∧
        out'.cp_R st.m_index = rd st.m_cp0_R_int j ∧
        out'.h_RT st.m_index
          = (rd st.m_h0_R_int j + rd st.m_cp0_R_int j * (T - rd st.m_t0_int j)) / T ∧
        out'.s_R st.m_index
          = rd st.m_s0_R_int j + rd st.m_cp0_R_int j * Real.log (T / rd st.m_t0_int j) ∧
        ∀ k, k ≠ st.m_index →
          out'.cp_R k = out.cp_R k ∧ out'.h_RT k = out.h_RT k ∧ out'.s_R k = out.s_R k :=
  C5_updateProperties_interval 8314 Real.log sampleCoeffs _ sampleCoeffs_valid

/-- C7. Round trip.  For every valid coefficient vector `c` whose first entry is its point
count `n`, with `R ≠ 0`: `reportParameters` on the evaluator constructed from `c` returns the
species index, `MU0_INTERP`, and the `tlow`, `thigh`, `pref` of the construction; the reported
`coeffs` equal `c` on the `2 + 2n` entries of the vector and leave the rest of the buffer
untouched; and constructing again from the reported values gives the same evaluator, hence
the same outputs at every temperature. -/
theorem C7_reportParameters_round_trip (R : K) (log : K → K) (MU0_INTERP : Int)
    (idx : Nat) (tlow thigh pref : K) (c buf : Nat → K)
    (hv : ValidCoeffs c) (hn : c 0 = ((⌊c 0⌋₊ : Nat) : K)) (hR : R ≠ 0) :
    ∃ st, Mu0Poly.construct R log idx tlow thigh pref c = .ok st ∧
      (reportParameters R MU0_INTERP st buf).n = idx ∧
      (reportParameters R MU0_INTERP st buf).type = MU0_INTERP ∧
      (reportParameters R MU0_INTERP st buf).tlow = tlow ∧
      (reportParameters R MU0_INTERP st buf).thigh = thigh ∧
      (reportParameters R MU0_INTERP st buf).pref = pref ∧
      (∀ x, x < 2 + 2 * ⌊c 0⌋₊ → (reportParameters R MU0_INTERP st buf).coeffs x = c x) ∧
      (∀ x, 2 + 2 * ⌊c 0⌋₊ ≤ x → (reportParameters R MU0_INTERP st buf).coeffs x = buf x) ∧
      Mu0Poly.construct R log (reportParameters R MU0_INTERP st buf).n
          (reportParameters R MU0_INTERP st buf).tlow
          (reportParameters R MU0_INTERP st buf).thigh
          (reportParameters R MU0_INTERP st buf).pref
          (reportParameters R MU0_INTERP st buf).coeffs = .ok st ∧
      ∀ st2, Mu0Poly.construct R log (reportParameters R MU0_INTERP st buf).n
          (reportParameters R MU0_INTERP st buf).tlow
          (reportParameters R MU0_INTERP st buf).thigh
          (reportParameters R MU0_INTERP st buf).pref
          (reportParameters R MU0_INTERP st buf).coeffs = .ok st2 →
        ∀ (T : K) (out : ThermoOut K),
          updateProperties log st2 T out = updateProperties log st T out := by
  obtain ⟨st, a, hst, hc, h1, h2, h3, h4⟩ :=
    processCoeffs_valid R log c (Mu0Poly.init idx tlow thigh pref) hv
  have hnum := hc.numIntervals
  obtain ⟨hl1, hl2⟩ := reportLoop_spec R st (st.m_numIntervals + 1) 0
    (Function.update (Function.update buf 0 ((((st.m_numIntervals : Int) + 1 : Int)) : K)) 1
      (st.m_H298 * R))
  simp only [Nat.mul_zero, Nat.add_zero, Nat.zero_add] at hl1 hl2
  have hco : ∀ x, x < 2 + 2 * ⌊c 0⌋₊ →
      (reportParameters R MU0_INTERP st buf).coeffs x = c x := by
    intro x hx
    simp only [reportParameters]
    by_cases hx2 : x < 2
    · rw [hl2 x (Or.inl hx2)]
      rcases Nat.eq_zero_or_pos x with rfl | hxp
      · rw [Function.update_noteq (by omega), Function.update_same, hn, ← hnum]
        push_cast
        ring
      · have hx1 : x = 1 := by omega
        subst hx1
        rw [Function.update_same, hc.H298, div_mul_cancel₀ _ hR]
    · obtain ⟨l, hl | hl⟩ : ∃ l, x = 2 + 2 * l ∨ x = 2 + 2 * l + 1 :=
        ⟨(x - 2) / 2, by omega⟩
      · subst hl
        rw [(hl1 l (Nat.zero_le _) (by omega)).1, hc.t0 l (by omega)]
        rfl
      · subst hl
        rw [(hl1 l (Nat.zero_le _) (by omega)).2, hc.mu0 l (by omega), div_mul_cancel₀ _ hR]
        rfl
  have hre : Mu0Poly.construct R log (reportParameters R MU0_INTERP st buf).n
      (reportParameters R MU0_INTERP st buf).tlow
      (reportParameters R MU0_INTERP st buf).thigh
      (reportParameters R MU0_INTERP st buf).pref
      (reportParameters R MU0_INTERP st buf).coeffs = .ok st := by
    unfold Mu0Poly.construct
    rw [processCoeffs_congr R log c _ _ (fun x hx => (hco x hx).symm)]
    simp only [reportParameters, h1, h2, h3, h4, Mu0Poly.init]
    exact hst
  refine ⟨st, hst, h4, rfl, h1, h2, h3, hco, ?_, hre, ?_⟩
  · intro x hx
    simp only [reportParameters]
    rw [hl2 x (Or.inr (by omega)), Function.update_noteq (by omega),
      Function.update_noteq (by omega)]
  · intro st2 hst2 T out
    rw [hre] at hst2
    cases hst2
    rfl

/-- C7, instance: the sample table over the reals with the real logarithm. -/
theorem C7_reportParameters_round_trip_witness :
    ∃ st, Mu0Poly.construct (8314 : ℝ) Real.log 5 100 500 101325 sampleCoeffs = .ok st ∧
      (reportParameters 8314 64 st (fun _ => 0)).n = 5 ∧
      (reportParameters 8314 64 st (fun _ => 0)).type = 64 ∧
      (reportParameters 8314 64 st (fun _ => 0)).tlow = 100 ∧
      (reportParameters 8314 64 st (fun _ => 0)).thigh = 500 ∧
      (reportParameters 8314 64 st (fun _ => 0)).pref = 101325 ∧
      (∀ x, x < 2 + 2 * ⌊(sampleCoeffs : Nat → ℝ) 0⌋₊ →
        (reportParameters 8314 64 st (fun _ => 0)).coeffs x = sampleCoeffs x) ∧
      (∀ x, 2 + 2 * ⌊(sampleCoeffs : Nat → ℝ) 0⌋₊ ≤ x →
        (reportParameters 8314 64 st (fun _ => 0)).coeffs x = (fun _ => 0) x) ∧
      Mu0Poly.construct 8314 Real.log (reportParameters 8314 64 st (fun _ => 0)).n
          (reportParameters 8314 64 st (fun _ => 0)).tlow
          (reportParameters 8314 64 st (fun _ => 0)).thigh
          (reportParameters 8314 64 st (fun _ => 0)).pref
          (reportParameters 8314 64 st (fun _ => 0)).coeffs = .ok st ∧
      ∀ st2, Mu0Poly.construct 8314 Real.log (reportParameters 8314 64 st (fun _ => 0)).n
          (reportParameters 8314 64 st (fun _ => 0)).tlow
          (reportParameters 8314 64 st (fun _ => 0)).thigh
          (reportParameters 8314 64 st (fun _ => 0)).pref
          (reportParameters 8314 64 st (fun _ => 0)).coeffs = .ok st2 →
        ∀ (T : ℝ) (out : ThermoOut ℝ),
          updateProperties Real.log st2 T out = updateProperties Real.log st T out :=
  C7_reportParameters_round_trip 8314 Real.log 64 5 100 500 101325 sampleCoeffs (fun _ => 0)
    sampleCoeffs_valid (by simp [sampleCoeffs, rd]) (by norm_num)

/-- C8. Whatever tables an evaluator held before (of any length), a `modifyParameters(c)`
that returns normally leaves `m_numIntervals`, `m_H298` and the five table vectors equal,
entry by entry and in length, to those of a fresh construction from `c`. -/
theorem C8_modifyParameters_as_fresh (R : K) (log : K → K) (c : Nat → K) (old : Mu0Poly K)
    (idx : Nat) (tlow thigh pref : K) (st' : Mu0Poly K)
    (h : modifyParameters R log c old = .ok st') :
    ∃ fresh, Mu0Poly.construct R log idx tlow thigh pref c = .ok fresh ∧
      st'.m_numIntervals = fresh.m_numIntervals ∧ st'.m_H298 = fresh.m_H298 ∧
      st'.m_t0_int = fresh.m_t0_int ∧ st'.m_mu0_R_int = fresh.m_mu0_R_int ∧
      st'.m_h0_R_int = fresh.m_h0_R_int ∧ st'.m_s0_R_int = fresh.m_s0_R_int ∧
      st'.m_cp0_R_int = fresh.m_cp0_R_int := by
  have hv : ValidCoeffs c := (processCoeffs_ok_iff R log c old).mp ⟨st', h⟩
  obtain ⟨st1, a1, hst1, hc1, -⟩ := processCoeffs_valid R log c old hv
  obtain ⟨fresh, a2, hfresh, hc2, -⟩ :=
    processCoeffs_valid R log c (Mu0Poly.init idx tlow thigh pref) hv
  have hst : st' = st1 := by
    unfold modifyParameters at h
    rw [hst1] at h
    cases h
    rfl
  subst hst
  have ha : a1 = a2 := by
    have h1 := hc1.numIntervals
    have h2 := hc2.numIntervals
    have h3 := hc1.anchor_le
    have h4 := hc2.anchor_le
    exact temps_inj c _ hv.2.1 a1 a2 (by omega) (by omega) (by rw [hc1.anchor, hc2.anchor])
  subst ha
  exact ⟨fresh, hfresh, hc1.unique hc2⟩

/-- C8, instance: an evaluator holding four-point tables is given the three-point sample. -/
theorem C8_modifyParameters_as_fresh_witness :
    ∃ st' fresh, modifyParameters (8314 : ℝ) Real.log sampleCoeffs sampleStale = .ok st' ∧
      Mu0Poly.construct (8314 : ℝ) Real.log 1 100 500 101325 sampleCoeffs = .ok fresh ∧
      st'.m_numIntervals = fresh.m_numIntervals ∧ st'.m_H298 = fresh.m_H298 ∧
      st'.m_t0_int = fresh.m_t0_int ∧ st'.m_mu0_R_int = fresh.m_mu0_R_int ∧
      st'.m_h0_R_int = fresh.m_h0_R_int ∧ st'.m_s0_R_int = fresh.m_s0_R_int ∧
      st'.m_cp0_R_int = fresh.m_cp0_R_int := by
  obtain ⟨st', hst'⟩ :=
    (processCoeffs_ok_iff (8314 : ℝ) Real.log sampleCoeffs sampleStale).mpr sampleCoeffs_valid
  obtain ⟨fresh, hfresh, hrest⟩ :=
    C8_modifyParameters_as_fresh 8314 Real.log sampleCoeffs sampleStale 1 100 500 101325 st' hst'
  exact ⟨st', fresh, hst', hfresh, hrest⟩

end Mu0PolyClaims

/-! ## VPSSMgr_ConstVol: lemmas and claims -/

section ConstVol
variable [LinearOrderedField K]

theorem updateStandardStateLoop_spec (d : K) :
    ∀ (n k0 : Nat) (self : VPSSMgr_ConstVol K),
      k0 + n ≤ self.m_hss_RT.length → k0 + n ≤ self.m_cpss_R.length →
      k0 + n ≤ self.m_sss_R.length → k0 + n ≤ self.m_gss_RT.length →
      ∃ h' cp' s' g' : List K,
        updateStandardStateLoop d n k0 self
          = { self with m_hss_RT := h', m_cpss_R := cp', m_sss_R := s', m_gss_RT := g' } ∧
        h'.length = self.m_hss_RT.length ∧ cp'.length = self.m_cpss_R.length ∧
        s'.length = self.m_sss_R.length ∧ g'.length = self.m_gss_RT.length ∧
        (∀ k, k0 ≤ k → k < k0 + n →
          rd h' k = rd self.m_h0_RT k + d * rd self.m_Vss k ∧
          rd cp' k = rd self.m_cp0_R k ∧ rd s' k = rd self.m_s0_R k ∧
          rd g' k = rd h' k - rd s' k) ∧
        (∀ k, k < k0 ∨ k0 + n ≤ k →
          rd h' k = rd self.m_hss_RT k ∧ rd cp' k = rd self.m_cpss_R k ∧
          rd s' k = rd self.m_sss_R k ∧ rd g' k = rd self.m_gss_RT k) := by
  intro n
  induction n with
  | zero =>
    intro k0 self _ _ _ _
    exact ⟨_, _, _, _, rfl, rfl, rfl, rfl, rfl, fun k h1 h2 => by omega,
      fun k _ => ⟨rfl, rfl, rfl, rfl⟩⟩
  | succ n ih =>
    intro k0 self hh hcp hs hg
    obtain ⟨h', cp', s', g', heq, hlh, hlcp, hls, hlg, hin, hout⟩ := ih (k0 + 1)
      { self with
        m_hss_RT := self.m_hss_RT.set k0 (rd self.m_h0_RT k0 + d * rd self.m_Vss k0)
        m_cpss_R := self.m_cpss_R.set k0 (rd self.m_cp0_R k0)
        m_sss_R := self.m_sss_R.set k0 (rd self.m_s0_R k0)
        m_gss_RT := self.m_gss_RT.set k0
          (rd (self.m_hss_RT.set k0 (rd self.m_h0_RT k0 + d * rd self.m_Vss k0)) k0
            - rd (self.m_sss_R.set k0 (rd self.m_s0_R k0)) k0) }
      (by simp only [List.length_set]; omega) (by simp only [List.length_set]; omega)
      (by simp only [List.length_set]; omega) (by simp only [List.length_set]; omega)
    simp only [List.length_set] at hlh hlcp hls hlg
    simp only at hin hout
    refine ⟨h', cp', s', g', ?_, hlh, hlcp, hls, hlg, ?_, ?_⟩
    · rw [updateStandardStateLoop]
      exact heq
    · intro k h1 h2
      rcases Nat.eq_or_lt_of_le h1 with rfl | h
      · obtain ⟨e1, e2, e3, e4⟩ := hout k0 (Or.inl (by omega))
        rw [rd_set_eq _ _ _ (by omega)] at e1 e2 e3 e4
        rw [rd_set_eq _ _ _ (by omega), rd_set_eq _ _ _ (by omega)] at e4
        refine ⟨e1, e2, e3, ?_⟩
        rw [e4, e1, e3]
      · exact hin k (by omega) (by omega)
    · intro k hk
      obtain ⟨e1, e2, e3, e4⟩ := hout k (by omega)
      rw [rd_set_ne _ _ _ _ (by omega)] at e1 e2 e3 e4
      exact ⟨e1, e2, e3, e4⟩

theorem updateStandardStateThermo_spec (R : K) (self : VPSSMgr_ConstVol K)
    (hsz : self.Sized) (k : Nat) (hk : k < self.m_kk.toNat) :
    rd (self._updateStandardStateThermo R).m_hss_RT k
      = rd self.m_h0_RT k + (self.m_plast - self.m_p0) * rd self.m_Vss k / (R * self.m_tlast) ∧
    rd (self._updateStandardStateThermo R).m_cpss_R k = rd self.m_cp0_R k ∧
    rd (self._updateStandardStateThermo R).m_sss_R k = rd self.m_s0_R k ∧
    rd (self._updateStandardStateThermo R).m_gss_RT k
      = rd (self._updateStandardStateThermo R).m_hss_RT k
        - rd (self._updateStandardStateThermo R).m_sss_R k ∧
    (self._updateStandardStateThermo R).m_h0_RT = self.m_h0_RT ∧
    (self._updateStandardStateThermo R).m_cp0_R = self.m_cp0_R ∧
    (self._updateStandardStateThermo R).m_s0_R = self.m_s0_R ∧
    (self._updateStandardStateThermo R).m_Vss = self.m_Vss := by
  obtain ⟨h1, h2, h3, h4⟩ := hsz
  obtain ⟨h', cp', s', g', heq, -, -, -, -, hin, -⟩ :=
    updateStandardStateLoop_spec ((self.m_plast - self.m_p0) / (R * self.m_tlast))
      self.m_kk.toNat 0 self (by omega) (by omega) (by omega) (by omega)
  obtain ⟨e1, e2, e3, e4⟩ := hin k (Nat.zero_le _) (by omega)
  have hupd : self._updateStandardStateThermo R
      = { self with m_hss_RT := h', m_cpss_R := cp', m_sss_R := s', m_gss_RT := g' } := heq
  rw [hupd]
  refine ⟨?_, e2, e3, e4, rfl, rfl, rfl, rfl⟩
  show rd h' k = _
  rw [e1]
  ring

/-- C9. `VPSSMgr_ConstVol::_updateStandardStateThermo` sets, for every species `k < m_kk`,
`h_ss/RT[k] = h_ref/RT[k] + (P - P_ref)*V[k]/(R*T)`, `cp_ss/R[k] = cp_ref/R[k]`,
`s_ss/R[k] = s_ref/R[k]` and `g_ss/RT[k] = h_ss/RT[k] - s_ss/R[k]`, with `T = m_tlast` and
`P = m_plast` the cached temperature and pressure; the reference arrays and the molar
volumes are not modified. -/
theorem C9_updateStandardStateThermo (R : K) (self : VPSSMgr_ConstVol K)
    (hsz : self.Sized) (k : Nat) (hk : k < self.m_kk.toNat) :
    rd (self._updateStandardStateThermo R).m_hss_RT k
      = rd self.m_h0_RT k + (self.m_plast - self.m_p0) * rd self.m_Vss k / (R * self.m_tlast) ∧
    rd (self._updateStandardStateThermo R).m_cpss_R k = rd self.m_cp0_R k ∧
    rd (self._updateStandardStateThermo R).m_sss_R k = rd self.m_s0_R k ∧
    rd (self._updateStandardStateThermo R).m_gss_RT k
      = rd (self._updateStandardStateThermo R).m_hss_RT k
        - rd (self._updateStandardStateThermo R).m_sss_R k ∧
    (self._updateStandardStateThermo R).m_h0_RT = self.m_h0_RT ∧
    (self._updateStandardStateThermo R).m_cp0_R = self.m_cp0_R ∧
    (self._updateStandardStateThermo R).m_s0_R = self.m_s0_R ∧
    (self._updateStandardStateThermo R).m_Vss = self.m_Vss := by
  obtain ⟨h1, h2, h3, h4⟩ := hsz
  obtain ⟨h', cp', s', g', heq, -, -, -, -, hin, -⟩ :=
    updateStandardStateLoop_spec ((self.m_plast - self.m_p0) / (R * self.m_tlast))
      self.m_kk.toNat 0 self (by omega) (by omega) (by omega) (by omega)
  obtain ⟨e1, e2, e3, e4⟩ := hin k (Nat.zero_le _) (by omega)
  have hupd : self._updateStandardStateThermo R
      = { self with m_hss_RT := h', m_cpss_R := cp', m_sss_R := s', m_gss_RT := g' } := heq
  rw [hupd]
  refine ⟨?_, e2, e3, e4, rfl, rfl, rfl, rfl⟩
  show rd h' k = _
  rw [e1]
  ring

/-- C9, instance: species 0 of the sample manager over the rationals. -/
theorem C9_updateStandardStateThermo_witness :
    rd ((sampleMgr : VPSSMgr_ConstVol ℚ)._updateStandardStateThermo 8314).m_hss_RT 0
      = rd (sampleMgr : VPSSMgr_ConstVol ℚ).m_h0_RT 0
        + ((sampleMgr : VPSSMgr_ConstVol ℚ).m_plast - (sampleMgr : VPSSMgr_ConstVol ℚ).m_p0)
          * rd (sampleMgr : VPSSMgr_ConstVol ℚ).m_Vss 0
          / (8314 * (sampleMgr : VPSSMgr_ConstVol ℚ).m_tlast) ∧
    rd ((sampleMgr : VPSSMgr_ConstVol ℚ)._updateStandardStateThermo 8314).m_cpss_R 0
      = rd (sampleMgr : VPSSMgr_ConstVol ℚ).m_cp0_R 0 ∧
    rd ((sampleMgr : VPSSMgr_ConstVol ℚ)._updateStandardStateThermo 8314).m_sss_R 0
      = rd (sampleMgr : VPSSMgr_ConstVol ℚ).m_s0_R 0 ∧
    rd ((sampleMgr : VPSSMgr_ConstVol ℚ)._updateStandardStateThermo 8314).m_gss_RT 0
      = rd ((sampleMgr : VPSSMgr_ConstVol ℚ)._updateStandardStateThermo 8314).m_hss_RT 0
        - rd ((sampleMgr : VPSSMgr_ConstVol ℚ)._updateStandardStateThermo 8314).m_sss_R 0 ∧
    ((sampleMgr : VPSSMgr_ConstVol ℚ)._updateStandardStateThermo 8314).m_h0_RT
      = (sampleMgr : VPSSMgr_ConstVol ℚ).m_h0_RT ∧
    ((sampleMgr : VPSSMgr_ConstVol ℚ)._updateStandardStateThermo 8314).m_cp0_R
      = (sampleMgr : VPSSMgr_ConstVol ℚ).m_cp0_R ∧
    ((sampleMgr : VPSSMgr_ConstVol ℚ)._updateStandardStateThermo 8314).m_s0_R
      = (sampleMgr : VPSSMgr_ConstVol ℚ).m_s0_R ∧
    ((sampleMgr : VPSSMgr_ConstVol ℚ)._updateStandardStateThermo 8314).m_Vss
      = (sampleMgr : VPSSMgr_ConstVol ℚ).m_Vss :=
  C9_updateStandardStateThermo 8314 sampleMgr (by simp [VPSSMgr_ConstVol.Sized, sampleMgr]) 0
    (by simp [sampleMgr])

/-- C10, as stated, fails: species 1 of the sample manager has molar volume zero, and its
`h_ss/RT` and `g_ss/RT` are the same after the update at pressure 100000 and at pressure
200000. -/
theorem C10_counterexample :
    (100000 : ℚ) ≠ 200000 ∧ 1 < (sampleMgr : VPSSMgr_ConstVol ℚ).m_kk.toNat ∧
    rd (({ (sampleMgr : VPSSMgr_ConstVol ℚ) with m_plast := 100000 }
        )._updateStandardStateThermo 8314).m_hss_RT 1
      = rd (({ (sampleMgr : VPSSMgr_ConstVol ℚ) with m_plast := 200000 }
        )._updateStandardStateThermo 8314).m_hss_RT 1 ∧
    rd (({ (sampleMgr : VPSSMgr_ConstVol ℚ) with m_plast := 100000 }
        )._updateStandardStateThermo 8314).m_gss_RT 1
      = rd (({ (sampleMgr : VPSSMgr_ConstVol ℚ) with m_plast := 200000 }
        )._updateStandardStateThermo 8314).m_gss_RT 1 := by
  refine ⟨by norm_num, by simp [sampleMgr], ?_, ?_⟩ <;>
    simp [VPSSMgr_ConstVol._updateStandardStateThermo, updateStandardStateLoop, sampleMgr, rd]

/-- C10, amended.  At a fixed nonzero temperature, with a nonzero gas constant and fixed
reference-state arrays and molar volumes, for every two pressures `P1 ≠ P2` and every species
`k < m_kk`: `s_ss/R[k]` and `cp_ss/R[k]` are the same after both updates, and `h_ss/RT[k]`
differs between the two updates exactly when the molar volume `V[k]` is not zero; the same
holds for `g_ss/RT[k]`. -/
theorem C10_pressure_change (R : K) (self : VPSSMgr_ConstVol K) (P1 P2 : K)
    (hsz : self.Sized) (hP : P1 ≠ P2) (hR : R ≠ 0) (hT : self.m_tlast ≠ 0)
    (k : Nat) (hk : k < self.m_kk.toNat) :
    rd (({ self with m_plast := P1 })._updateStandardStateThermo R).m_sss_R k
      = rd (({ self with m_plast := P2 })._updateStandardStateThermo R).m_sss_R k ∧
    rd (({ self with m_plast := P1 })._updateStandardStateThermo R).m_cpss_R k
      = rd (({ self with m_plast := P2 })._updateStandardStateThermo R).m_cpss_R k ∧
    (rd (({ self with m_plast := P1 })._updateStandardStateThermo R).m_hss_RT k
        ≠ rd (({ self with m_plast := P2 })._updateStandardStateThermo R).m_hss_RT k
      ↔ rd self.m_Vss k ≠ 0) ∧
    (rd (({ self with m_plast := P1 })._updateStandardStateThermo R).m_gss_RT k
        ≠ rd (({ self with m_plast := P2 })._updateStandardStateThermo R).m_gss_RT k
      ↔ rd self.m_Vss k ≠ 0) := by
  obtain ⟨a1, a2, a3, a4, -⟩ :=
    updateStandardStateThermo_spec R { self with m_plast := P1 } hsz k hk
  obtain ⟨b1, b2, b3, b4, -⟩ :=
    updateStandardStateThermo_spec R { self with m_plast := P2 } hsz k hk
  simp only at a1 a2 a3 b1 b2 b3
  have hRT : R * self.m_tlast ≠ 0 := mul_ne_zero hR hT
  have hP' : P1 - P2 ≠ 0 := sub_ne_zero.mpr hP
  have key : rd (({ self with m_plast := P1 })._updateStandardStateThermo R).m_hss_RT k
      - rd (({ self with m_plast := P2 })._updateStandardStateThermo R).m_hss_RT k
      = (P1 - P2) * rd self.m_Vss k / (R * self.m_tlast) := by
    rw [a1, b1]
    field_simp
    ring
  have hiff : rd (({ self with m_plast := P1 })._updateStandardStateThermo R).m_hss_RT k
        ≠ rd (({ self with m_plast := P2 })._updateStandardStateThermo R).m_hss_RT k
      ↔ rd self.m_Vss k ≠ 0 := by
    rw [← sub_ne_zero, key]
    constructor
    · intro h hV
      apply h
      rw [hV, mul_zero, zero_div]
    · intro hV
      exact div_ne_zero (mul_ne_zero hP' hV) hRT
  refine ⟨by rw [a3, b3], by rw [a2, b2], hiff, ?_⟩
  rw [a4, b4, a3, b3, ← hiff]
  constructor
  · intro h heq
    apply h
    rw [heq]
  · intro h heq
    apply h
    linear_combination heq

/-- C10 amended, instance: species 0 of the sample manager over the rationals. -/
theorem C10_pressure_change_witness :
    rd (({ (sampleMgr : VPSSMgr_ConstVol ℚ) with m_plast := 100000 }
        )._updateStandardStateThermo 8314).m_sss_R 0
      = rd (({ (sampleMgr : VPSSMgr_ConstVol ℚ) with m_plast := 200000 }
        )._updateStandardStateThermo 8314).m_sss_R 0 ∧
    rd (({ (sampleMgr : VPSSMgr_ConstVol ℚ) with m_plast := 100000 }
        )._updateStandardStateThermo 8314).m_cpss_R 0
      = rd (({ (sampleMgr : VPSSMgr_ConstVol ℚ) with m_plast := 200000 }
        )._updateStandardStateThermo 8314).m_cpss_R 0 ∧
    (rd (({ (sampleMgr : VPSSMgr_ConstVol ℚ) with m_plast := 100000 }
        )._updateStandardStateThermo 8314).m_hss_RT 0
        ≠ rd (({ (sampleMgr : VPSSMgr_ConstVol ℚ) with m_plast := 200000 }
        )._updateStandardStateThermo 8314).m_hss_RT 0
      ↔ rd (sampleMgr : VPSSMgr_ConstVol ℚ).m_Vss 0 ≠ 0) ∧
    (rd (({ (sampleMgr : VPSSMgr_ConstVol ℚ) with m_plast := 100000 }
        )._updateStandardStateThermo 8314).m_gss_RT 0
        ≠ rd (({ (sampleMgr : VPSSMgr_ConstVol ℚ) with m_plast := 200000 }
        )._updateStandardStateThermo 8314).m_gss_RT 0
      ↔ rd (sampleMgr : VPSSMgr_ConstVol ℚ).m_Vss 0 ≠ 0) :=
  C10_pressure_change 8314 sampleMgr 100000 200000
    (by simp [VPSSMgr_ConstVol.Sized, sampleMgr]) (by norm_num) (by norm_num)
    (by norm_num [sampleMgr]) 0 (by simp [sampleMgr])

end ConstVol

section ConstVol2
variable [LinearOrderedField K]

theorem updateStandardStateLoop_frame (d : K) :
    ∀ (n k0 : Nat) (self : VPSSMgr_ConstVol K),
      (updateStandardStateLoop d n k0 self).m_Vss = self.m_Vss ∧
      (updateStandardStateLoop d n k0 self).m_useTmpStandardStateStorage
        = self.m_useTmpStandardStateStorage ∧
      (updateStandardStateLoop d n k0 self).m_useTmpRefStateStorage
        = self.m_useTmpRefStateStorage := by
  intro n
  induction n with
  | zero => intro k0 self; exact ⟨rfl, rfl, rfl⟩
  | succ n ih =>
    intro k0 self
    rw [updateStandardStateLoop]
    exact ih (k0 + 1) _

theorem updateStandardStateThermo_full (R : K) (self : VPSSMgr_ConstVol K)
    (hsz : self.Sized) :
    ∃ h' cp' s' g' : List K,
      self._updateStandardStateThermo R
        = { self with m_hss_RT := h', m_cpss_R := cp', m_sss_R := s', m_gss_RT := g' } ∧
      h'.length = self.m_hss_RT.length ∧ cp'.length = self.m_cpss_R.length ∧
      s'.length = self.m_sss_R.length ∧ g'.length = self.m_gss_RT.length ∧
      (∀ k, k < self.m_kk.toNat →
        rd h' k = rd self.m_h0_RT k
          + (self.m_plast - self.m_p0) / (R * self.m_tlast) * rd self.m_Vss k ∧
        rd cp' k = rd self.m_cp0_R k ∧ rd s' k = rd self.m_s0_R k ∧
        rd g' k = rd h' k - rd s' k) ∧
      (∀ k, self.m_kk.toNat ≤ k →
        rd h' k = rd self.m_hss_RT k ∧ rd cp' k = rd self.m_cpss_R k ∧
        rd s' k = rd self.m_sss_R k ∧ rd g' k = rd self.m_gss_RT k) := by
  obtain ⟨h1, h2, h3, h4⟩ := hsz
  obtain ⟨h', cp', s', g', heq, l1, l2, l3, l4, hin, hout⟩ :=
    updateStandardStateLoop_spec ((self.m_plast - self.m_p0) / (R * self.m_tlast))
      self.m_kk.toNat 0 self (by omega) (by omega) (by omega) (by omega)
  exact ⟨h', cp', s', g', heq, l1, l2, l3, l4, fun k hk => hin k (Nat.zero_le _) (by omega),
    fun k hk => hout k (Or.inr (by omega))⟩

/-- C11. Two consecutive constant-volume standard-state updates with the same cached
`(T, P)` and the same reference-state arrays leave the object, and so every standard-state
array (`h_ss/RT`, `cp_ss/R`, `s_ss/R`, `g_ss/RT`, `V_ss`), exactly as it was after the first
update. -/
theorem C11_update_idempotent (R : K) (self : VPSSMgr_ConstVol K) (hsz : self.Sized) :
    (self._updateStandardStateThermo R)._updateStandardStateThermo R
      = self._updateStandardStateThermo R := by
  obtain ⟨h1, cp1, s1, g1, heq1, lh1, lcp1, ls1, lg1, hin1, hout1⟩ :=
    updateStandardStateThermo_full R self hsz
  have hsz1 : ({ self with m_hss_RT := h1, m_cpss_R := cp1, m_sss_R := s1, m_gss_RT := g1 }
      : VPSSMgr_ConstVol K).Sized := by
    obtain ⟨a1, a2, a3, a4⟩ := hsz
    exact ⟨by simp only [lh1]; exact a1, by simp only [lcp1]; exact a2,
      by simp only [ls1]; exact a3, by simp only [lg1]; exact a4⟩
  obtain ⟨h2, cp2, s2, g2, heq2, lh2, lcp2, ls2, lg2, hin2, hout2⟩ :=
    updateStandardStateThermo_full R
      { self with m_hss_RT := h1, m_cpss_R := cp1, m_sss_R := s1, m_gss_RT := g1 } hsz1
  simp only at lh2 lcp2 ls2 lg2 hin2 hout2
  rw [heq1, heq2]
  have key : ∀ k, rd h2 k = rd h1 k ∧ rd cp2 k = rd cp1 k ∧ rd s2 k = rd s1 k ∧
      rd g2 k = rd g1 k := by
    intro k
    by_cases hk : k < self.m_kk.toNat
    · obtain ⟨a1, a2, a3, a4⟩ := hin1 k hk
      obtain ⟨b1, b2, b3, b4⟩ := hin2 k hk
      refine ⟨by rw [b1, a1], by rw [b2, a2], by rw [b3, a3], ?_⟩
      rw [b4, a4, b1, a1, b3, a3]
    · exact hout2 k (by omega)
  have eh : h2 = h1 := ext_rd _ _ lh2 (fun k _ => (key k).1)
  have ecp : cp2 = cp1 := ext_rd _ _ lcp2 (fun k _ => (key k).2.1)
  have es : s2 = s1 := ext_rd _ _ ls2 (fun k _ => (key k).2.2.1)
  have eg : g2 = g1 := ext_rd _ _ lg2 (fun k _ => (key k).2.2.2)
  rw [eh, ecp, es, eg]

/-- C11, instance: the sample manager over the rationals. -/
theorem C11_update_idempotent_witness :
    ((sampleMgr : VPSSMgr_ConstVol ℚ)._updateStandardStateThermo 8314
        )._updateStandardStateThermo 8314
      = (sampleMgr : VPSSMgr_ConstVol ℚ)._updateStandardStateThermo 8314 :=
  C11_update_idempotent 8314 sampleMgr (by simp [VPSSMgr_ConstVol.Sized, sampleMgr])

/-- C12. For every `(T, P)` put in the cache, `_updateStandardStateThermo` leaves the vector
`m_Vss` unchanged, and `getStandardVolumes_ref`, with standard-state storage enabled,
returns normally and writes to the buffer exactly the configured values `V_ss[k]`, leaving
the rest of the buffer untouched. -/
theorem C12_molar_volumes_invariant (R : K) (self : VPSSMgr_ConstVol K) (T P : K)
    (vol : Nat → K) (hstore : self.m_useTmpStandardStateStorage = true) :
    (({ self with m_tlast := T, m_plast := P })._updateStandardStateThermo R).m_Vss
      = self.m_Vss ∧
    ∃ vol', (({ self with m_tlast := T, m_plast := P })._updateStandardStateThermo R
        ).getStandardVolumes_ref vol = .ok vol' ∧
      (∀ k, k < self.m_Vss.length → vol' k = rd self.m_Vss k) ∧
      (∀ k, self.m_Vss.length ≤ k → vol' k = vol k) := by
  obtain ⟨e1, e2, -⟩ := updateStandardStateLoop_frame
    ((P - self.m_p0) / (R * T)) self.m_kk.toNat 0 { self with m_tlast := T, m_plast := P }
  have hV : (({ self with m_tlast := T, m_plast := P })._updateStandardStateThermo R).m_Vss
      = self.m_Vss := e1
  have hS : (({ self with m_tlast := T, m_plast := P })._updateStandardStateThermo R
      ).m_useTmpStandardStateStorage = true := e2.trans hstore
  refine ⟨hV, stdCopy self.m_Vss vol, ?_, ?_, ?_⟩
  · unfold VPSSMgr_ConstVol.getStandardVolumes_ref
    rw [if_pos hS, hV]
  · intro k hk
    simp only [stdCopy, if_pos hk]
  · intro k hk
    simp only [stdCopy, if_neg (not_lt.mpr hk)]

/-- C12, instance: the sample manager over the rationals, moved to `T = 500`, `P = 1`. -/
theorem C12_molar_volumes_invariant_witness :
    (({ (sampleMgr : VPSSMgr_ConstVol ℚ) with m_tlast := 500, m_plast := 1 }
        )._updateStandardStateThermo 8314).m_Vss
      = (sampleMgr : VPSSMgr_ConstVol ℚ).m_Vss ∧
    ∃ vol', (({ (sampleMgr : VPSSMgr_ConstVol ℚ) with m_tlast := 500, m_plast := 1 }
        )._updateStandardStateThermo 8314).getStandardVolumes_ref (fun _ => 7) = .ok vol' ∧
      (∀ k, k < (sampleMgr : VPSSMgr_ConstVol ℚ).m_Vss.length →
        vol' k = rd (sampleMgr : VPSSMgr_ConstVol ℚ).m_Vss k) ∧
      (∀ k, (sampleMgr : VPSSMgr_ConstVol ℚ).m_Vss.length ≤ k → vol' k = (fun _ => 7) k) :=
  C12_molar_volumes_invariant 8314 sampleMgr 500 1 (fun _ => 7) rfl

/-- C13: the code at a failing input.  For the sample manager (reference-state storage
enabled, `g0_RT[0] = -4`, `T = 300`) and `R = 8314`, with `scale` multiplying by its factor,
`getGibbs_RT_ref` writes `grt[0] = g0_RT[0] * (R*T) = -9976800`, not `g0_RT[0]`. -/
theorem C13_getGibbs_RT_ref_is_scaled :
    ∃ grt, (sampleMgr : VPSSMgr_ConstVol ℚ).getGibbs_RT_ref scaleTimes 8314 (fun _ => 0)
        = .ok grt ∧
      grt 0 = rd (sampleMgr : VPSSMgr_ConstVol ℚ).m_g0_RT 0
        * (8314 * (sampleMgr : VPSSMgr_ConstVol ℚ).m_tlast) ∧
      grt 0 = -9976800 ∧
      grt 0 ≠ rd (sampleMgr : VPSSMgr_ConstVol ℚ).m_g0_RT 0 := by
  refine ⟨_, rfl, ?_, ?_, ?_⟩ <;>
    norm_num [scaleTimes, stdCopy, sampleMgr, rd]

/-- C14. `getGibbs_RT_ref` throws if and only if `m_useTmpRefStateStorage` is false, and
`getStandardVolumes_ref` throws if and only if `m_useTmpStandardStateStorage` is false; a
throw leaves the caller's buffer as it was.  This holds whatever `scale` does. -/
theorem C14_getters_fail_iff_storage_disabled (scale : (Nat → K) → Nat → K → Nat → K)
    (R : K) (self : VPSSMgr_ConstVol K) (buf : Nat → K) :
    ((∃ e b, self.getGibbs_RT_ref scale R buf = .error (e, b)) ↔
      self.m_useTmpRefStateStorage = false) ∧
    (∀ e b, self.getGibbs_RT_ref scale R buf = .error (e, b) →
      e = VPSSMgrError.getGibbs_RT_ref_unimplemented ∧ b = buf) ∧
    ((∃ e b, self.getStandardVolumes_ref buf = .error (e, b)) ↔
      self.m_useTmpStandardStateStorage = false) ∧
    (∀ e b, self.getStandardVolumes_ref buf = .error (e, b) →
      e = VPSSMgrError.getStandardVolumes_ref_unimplemented ∧ b = buf) := by
  unfold VPSSMgr_ConstVol.getGibbs_RT_ref VPSSMgr_ConstVol.getStandardVolumes_ref
  cases h1 : self.m_useTmpRefStateStorage <;> cases h2 : self.m_useTmpStandardStateStorage <;>
    simp

end ConstVol2

section ConstVol3
variable [LinearOrderedField K]

theorem modelRejected_eq_false_iff (model : String) :
    modelRejected model = false ↔
      (model = "constant_incompressible" ∨ model = "constantVolume") := by
  unfold modelRejected
  by_cases h1 : model = "constant_incompressible"
  · simp [h1]
  · by_cases h2 : model = "constantVolume"
    · simp [h2]
    · simp [h1, h2]

theorem initThermoXMLLoop_spec (nodes : Nat → Option (SpeciesNode K)) :
    ∀ (n k0 : Nat) (self : VPSSMgr_ConstVol K),
      ((∀ k, k0 ≤ k → k < k0 + n → ∃ s ss, nodes k = some s ∧ s.standardState = some ss ∧
          (ss.model = "constant_incompressible" ∨ ss.model = "constantVolume")) →
        ∃ st, initThermoXMLLoop nodes n k0 self = .ok st) ∧
      (∀ k, k0 ≤ k → k < k0 + n →
        (∀ j, k0 ≤ j → j < k → ∃ s ss, nodes j = some s ∧ s.standardState = some ss ∧
          (ss.model = "constant_incompressible" ∨ ss.model = "constantVolume")) →
        (¬ ∃ s ss, nodes k = some s ∧ s.standardState = some ss ∧
          (ss.model = "constant_incompressible" ∨ ss.model = "constantVolume")) →
        ∃ e st', initThermoXMLLoop nodes n k0 self = .error (e, st') ∧
          (∀ j, k ≤ j → rd st'.m_Vss j = rd self.m_Vss j) ∧
          (∀ s ss, nodes k = some s → s.standardState = some ss →
            e = VPSSMgrError.modelNotConstantIncompressible)) := by
  intro n
  induction n with
  | zero =>
    intro k0 self
    exact ⟨fun _ => ⟨self, rfl⟩, fun k h1 h2 => by omega⟩
  | succ n ih =>
    intro k0 self
    constructor
    · intro hall
      obtain ⟨s, ss, hs, hss, hm⟩ := hall k0 le_rfl (by omega)
      rw [initThermoXMLLoop]
      simp only [hs, hss, (modelRejected_eq_false_iff ss.model).mpr hm, Bool.false_eq_true,
        if_false]
      exact (ih (k0 + 1) _).1 (fun k h1 h2 => hall k (by omega) (by omega))
    · intro k hk1 hk2 hprev hbad
      rw [initThermoXMLLoop]
      rcases Nat.eq_or_lt_of_le hk1 with rfl | hlt
      · cases hs : nodes k0 with
        | none =>
          simp only
          exact ⟨_, _, rfl, fun _ _ => rfl, fun s ss h => by simp [hs] at h⟩
        | some s =>
          simp only
          cases hss : s.standardState with
          | none =>
            simp only
            refine ⟨_, _, rfl, fun _ _ => rfl, fun s' ss' h1 h2 => ?_⟩
            cases h1
            rw [hss] at h2
            exact absurd h2 (by simp)
          | some ss =>
            have hrej : modelRejected ss.model = true := by
              cases hr : modelRejected ss.model
              · exact absurd ⟨s, ss, hs, hss, (modelRejected_eq_false_iff _).mp hr⟩ hbad
              · rfl
            simp only [hrej, if_true]
            exact ⟨_, _, rfl, fun _ _ => rfl, fun _ _ _ _ => rfl⟩
      · obtain ⟨s, ss, hs, hss, hm⟩ := hprev k0 le_rfl hlt
        simp only [hs, hss, (modelRejected_eq_false_iff ss.model).mpr hm, Bool.false_eq_true,
          if_false]
        obtain ⟨e, st', heq, hV, he⟩ := (ih (k0 + 1) _).2 k (by omega) (by omega)
          (fun j h1 h2 => hprev j (by omega) h2) hbad
        refine ⟨e, st', heq, ?_, he⟩
        intro j hj
        rw [hV j hj]
        exact rd_set_ne _ _ _ _ (by omega)

/-- C15. In `createInstallPDSS` and in `initThermoXML` the model name of a species'
`standardState` node is accepted if and only if it is exactly `"constant_incompressible"` or
`"constantVolume"`; the comparison is case-sensitive.  `createInstallPDSS` with any other
name throws and leaves the object, hence `m_Vss`, untouched.  `initThermoXML` returns normally
if and only if every species `k < m_kk` has a species node, a `standardState` node and an
accepted name; at the first species where this fails it throws with `m_Vss[k]`, and every
later entry, not written. -/
theorem C15_model_name_accepted_iff (nodes : Nat → Option (SpeciesNode K))
    (self : VPSSMgr_ConstVol K) :
    (∀ (k : Nat) (node : SpeciesNode K) (ss : StandardStateNode K),
      node.standardState = some ss →
      ((∃ st, self.createInstallPDSS k node = .ok st) ↔
        (ss.model = "constant_incompressible" ∨ ss.model = "constantVolume")) ∧
      (¬ (ss.model = "constant_incompressible" ∨ ss.model = "constantVolume") →
        self.createInstallPDSS k node
          = .error (VPSSMgrError.modelNotConstantIncompressible, self))) ∧
    ((∃ st, self.initThermoXML nodes = .ok st) ↔
      ∀ k, k < self.m_kk.toNat → ∃ s ss, nodes k = some s ∧ s.standardState = some ss ∧
        (ss.model = "constant_incompressible" ∨ ss.model = "constantVolume")) ∧
    (∀ k, k < self.m_kk.toNat →
      (∀ j, j < k → ∃ s ss, nodes j = some s ∧ s.standardState = some ss ∧
        (ss.model = "constant_incompressible" ∨ ss.model = "constantVolume")) →
      ∀ s ss, nodes k = some s → s.standardState = some ss →
        ¬ (ss.model = "constant_incompressible" ∨ ss.model = "constantVolume") →
        ∃ st', self.initThermoXML nodes
            = .error (VPSSMgrError.modelNotConstantIncompressible, st') ∧
          ∀ j, k ≤ j → rd st'.m_Vss j = rd self.m_Vss j) ∧
    modelRejected "ConstantVolume" = true ∧
    modelRejected "constant_incompressible " = true := by
  refine ⟨?_, ?_, ?_, by decide, by decide⟩
  · intro k node ss hss
    unfold VPSSMgr_ConstVol.createInstallPDSS
    simp only [hss]
    cases hr : modelRejected ss.model
    · have := (modelRejected_eq_false_iff ss.model).mp hr
      simp [this]
    · have : ¬ (ss.model = "constant_incompressible" ∨ ss.model = "constantVolume") := by
        intro h
        rw [(modelRejected_eq_false_iff ss.model).mpr h] at hr
        exact absurd hr (by simp)
      simp [this]
  · constructor
    · rintro ⟨st, hst⟩
      by_contra hnot
      have hex : ∃ k, k < self.m_kk.toNat ∧
          ¬ ∃ s ss, nodes k = some s ∧ s.standardState = some ss ∧
            (ss.model = "constant_incompressible" ∨ ss.model = "constantVolume") := by
        by_contra hne
        apply hnot
        intro k hk
        by_contra hc
        exact hne ⟨k, hk, hc⟩
      classical
      have hk0 := Nat.find_spec hex
      have hmin := fun j (hj : j < Nat.find hex) => Nat.find_min hex hj
      obtain ⟨e, st', heq, -⟩ := (initThermoXMLLoop_spec nodes self.m_kk.toNat 0 self).2
        (Nat.find hex) (Nat.zero_le _) (by omega)
        (fun j _ hj => by
          have := hmin j hj
          by_contra hc
          exact this ⟨by omega, hc⟩)
        hk0.2
      unfold VPSSMgr_ConstVol.initThermoXML at hst
      rw [heq] at hst
      exact absurd hst (by simp)
    · intro hall
      exact (initThermoXMLLoop_spec nodes self.m_kk.toNat 0 self).1
        (fun k _ hk => hall k (by omega))
  · intro k hk hprev s ss hs hss hbad
    obtain ⟨e, st', heq, hV, he⟩ := (initThermoXMLLoop_spec nodes self.m_kk.toNat 0 self).2
      k (Nat.zero_le _) (by omega) (fun j _ hj => hprev j hj)
      (by
        rintro ⟨s', ss', h1, h2, h3⟩
        rw [hs] at h1
        cases h1
        rw [hss] at h2
        cases h2
        exact hbad h3)
    rw [he s ss hs hss] at heq
    exact ⟨st', heq, hV⟩

end ConstVol3


/-! ## Loops that accumulate into a vector -/

section LoopLemmas
variable [LinearOrderedField K]

theorem set_rd_self (l : List K) (i : Nat) : l.set i (rd l i) = l := by
  by_cases h : i < l.length
  · apply ext_rd _ _ (by simp)
    intro j _
    exact rd_set_same _ _ _ _ rfl
  · exact List.set_eq_of_length_le (by omega)

theorem forLoop_pair {α β : Type} (b1 : Nat → α → α) (b2 : Nat → β → β) :
    ∀ (n i0 : Nat) (x : α) (y : β),
      forLoop (fun i (d : α × β) => (b1 i d.1, b2 i d.2)) n i0 (x, y)
        = (forLoop b1 n i0 x, forLoop b2 n i0 y) := by
  intro n
  induction n with
  | zero => intro i0 x y; rfl
  | succ n ih =>
    intro i0 x y
    simp only [forLoop]
    exact ih (i0 + 1) (b1 i0 x) (b2 i0 y)

theorem forLoop_accum (f : Nat → K) (iK : Nat) :
    ∀ (n i0 : Nat) (l : List K),
      forLoop (fun i l => l.set iK (rd l iK + f i)) n i0 l
        = l.set iK (rd l iK + Finset.sum (Finset.range n) (fun j => f (i0 + j))) := by
  intro n
  induction n with
  | zero =>
    intro i0 l
    simp only [forLoop, Finset.range_zero, Finset.sum_empty, add_zero]
    exact (set_rd_self l iK).symm
  | succ n ih =>
    intro i0 l
    simp only [forLoop]
    rw [ih (i0 + 1), Finset.sum_range_succ', List.set_set]
    by_cases h : iK < l.length
    · rw [rd_set_eq _ _ _ h]
      congr 1
      simp only [Nat.add_zero]
      have : ∀ j, i0 + 1 + j = i0 + (j + 1) := fun j => by omega
      simp only [this]
      ring
    · rw [List.set_eq_of_length_le (by omega), List.set_eq_of_length_le (by omega)]

theorem forLoop_each (body : Nat → List K → List K) (S : Nat → K)
    (hbody : ∀ iK l, body iK l = l.set iK (rd l iK + S iK)) :
    ∀ (n i0 : Nat) (l : List K), i0 + n ≤ l.length →
      (forLoop body n i0 l).length = l.length ∧
      (∀ k, i0 ≤ k → k < i0 + n → rd (forLoop body n i0 l) k = rd l k + S k) ∧
      (∀ k, k < i0 ∨ i0 + n ≤ k → rd (forLoop body n i0 l) k = rd l k) := by
  intro n
  induction n with
  | zero =>
    intro i0 l _
    exact ⟨rfl, fun k h1 h2 => by omega, fun k _ => rfl⟩
  | succ n ih =>
    intro i0 l hl
    simp only [forLoop]
    obtain ⟨h1, h2, h3⟩ := ih (i0 + 1) (body i0 l) (by rw [hbody]; simp; omega)
    rw [hbody] at h1 h2 h3
    rw [hbody]
    refine ⟨by simpa using h1, ?_, ?_⟩
    · intro k hk1 hk2
      rcases Nat.eq_or_lt_of_le hk1 with rfl | h
      · rw [h3 i0 (Or.inl (by omega)), rd_set_eq _ _ _ (by omega)]
      · rw [h2 k (by omega) (by omega), rd_set_ne _ _ _ _ (by omega)]
    · intro k hk
      rw [h3 k (by omega), rd_set_ne _ _ _ _ (by omega)]

theorem rd_replicate_zero (n k : Nat) : rd (List.replicate n (0 : K)) k = 0 := by
  by_cases h : k < n
  · simp [rd, List.getD, h]
  · simp [rd, List.getD, h]

/-- Two nested accumulation loops started from a zero vector of length `m` leave at place
`k < m` the sum of the values added for `k`. -/
theorem nested_accum (f : Nat → Nat → K) (m n : Nat) (k : Nat) (hk : k < m) :
    rd (forLoop
        (fun iK l => forLoop (fun i l => l.set iK (rd l iK + f iK i)) n 0 l)
        m 0 (List.replicate m (0 : K))) k
      = Finset.sum (Finset.range n) (fun i => f k i) ∧
    (forLoop
        (fun iK l => forLoop (fun i l => l.set iK (rd l iK + f iK i)) n 0 l)
        m 0 (List.replicate m (0 : K))).length = m := by
  have hbody : ∀ iK (l : List K),
      (fun iK l => forLoop (fun i l => l.set iK (rd l iK + f iK i)) n 0 l) iK l
        = l.set iK (rd l iK + Finset.sum (Finset.range n) (fun i => f iK i)) := by
    intro iK l
    simp only
    rw [forLoop_accum (f iK) iK n 0 l]
    simp only [Nat.zero_add]
  obtain ⟨h1, h2, -⟩ := forLoop_each _ _ hbody m 0 (List.replicate m (0 : K)) (by simp)
  constructor
  · rw [h2 k (Nat.zero_le _) (by omega), rd_replicate_zero, zero_add]
  · rw [h1, List.length_replicate]

end LoopLemmas


/-! ## MixedSolventElectrolyte: lemmas and claims -/

section MSELemmas
variable [LinearOrderedField K]

theorem lnActCoeff_sum (R : K) (self : MixedSolventElectrolyte K) (k : Nat)
    (hk : k < self.m_kk) :
    rd (self.s_update_lnActCoeff R).lnActCoeff_Scaled_ k
      = Finset.sum (Finset.range self.numBinaryInteractions_)
          (fun i => lnActCoeffTerm self self.temperature (R * self.temperature) k i) :=
  (nested_accum
    (fun iK i => lnActCoeffTerm self self.temperature (R * self.temperature) iK i)
    self.m_kk self.numBinaryInteractions_ k hk).1

theorem lnActCoeffTerm_eq (R : K) (self : MixedSolventElectrolyte K) (k i : Nat) :
    lnActCoeffTerm self self.temperature (R * self.temperature) k i
      = margulesTerm (kron k (rd self.m_pSpecies_A_ij i))
          (if rd self.m_pSpecies_A_ij i = k then 0 else kron k (rd self.m_pSpecies_B_ij i))
          (XAAt self i) (XBAt self i) (g0At R self i) (g1At R self i) := by
  unfold lnActCoeffTerm margulesTerm kron XAAt XBAt g0At g1At
  by_cases hA : rd self.m_pSpecies_A_ij i = k
  · simp [hA]
  · have hA' : ¬ k = rd self.m_pSpecies_A_ij i := fun h => hA h.symm
    by_cases hB : rd self.m_pSpecies_B_ij i = k
    · simp [hA, hA', hB]
    · have hB' : ¬ k = rd self.m_pSpecies_B_ij i := fun h => hB h.symm
      simp [hA, hA', hB, hB']

theorem lnActCoeffTerm_distinct (R : K) (self : MixedSolventElectrolyte K) (k i : Nat)
    (hAB : rd self.m_pSpecies_A_ij i ≠ rd self.m_pSpecies_B_ij i) :
    lnActCoeffTerm self self.temperature (R * self.temperature) k i
      = margulesTerm (kron k (rd self.m_pSpecies_A_ij i)) (kron k (rd self.m_pSpecies_B_ij i))
          (XAAt self i) (XBAt self i) (g0At R self i) (g1At R self i) := by
  rw [lnActCoeffTerm_eq]
  by_cases hA : rd self.m_pSpecies_A_ij i = k
  · have hB : ¬ k = rd self.m_pSpecies_B_ij i := fun h => hAB (hA.trans h)
    simp [hA, kron, hB]
  · simp [hA]

/-- C16. For every temperature, composition and list of records with `A_i ≠ B_i`, and every
species `k < m_kk`, `s_update_lnActCoeff` leaves in `lnActCoeff[k]` the sum over all records
`i` of `(dA*X_B + X_A*dB - X_A*X_B)*(g0 + g1*X_B) + X_A*X_B*(dB - X_B)*g1`, with `dA = 1` if
`k = A_i` else 0, `dB = 1` if `k = B_i` else 0, `g0 = (Hb_i - T*Sb_i)/(R*T)` and
`g1 = (Hc_i - T*Sc_i)/(R*T)`. -/
theorem C16_lnActCoeff_formula (R : K) (self : MixedSolventElectrolyte K)
    (hAB : ∀ i, i < self.numBinaryInteractions_ →
      rd self.m_pSpecies_A_ij i ≠ rd self.m_pSpecies_B_ij i)
    (k : Nat) (hk : k < self.m_kk) :
    rd (self.s_update_lnActCoeff R).lnActCoeff_Scaled_ k
      = Finset.sum (Finset.range self.numBinaryInteractions_) (fun i =>
          margulesTerm (kron k (rd self.m_pSpecies_A_ij i)) (kron k (rd self.m_pSpecies_B_ij i))
            (rd self.moleFractions_ (rd self.m_pSpecies_A_ij i))
            (rd self.moleFractions_ (rd self.m_pSpecies_B_ij i))
            ((rd self.m_HE_b_ij i - self.temperature * rd self.m_SE_b_ij i)
              / (R * self.temperature))
            ((rd self.m_HE_c_ij i - self.temperature * rd self.m_SE_c_ij i)
              / (R * self.temperature))) := by
  rw [lnActCoeff_sum R self k hk]
  apply Finset.sum_congr rfl
  intro i hi
  rw [lnActCoeffTerm_distinct R self k i (hAB i (Finset.mem_range.mp hi))]
  rfl

/-- C16, instance: species 1 of the sample phase over the rationals. -/
theorem C16_lnActCoeff_formula_witness :
    rd ((samplePhase : MixedSolventElectrolyte ℚ).s_update_lnActCoeff 8314).lnActCoeff_Scaled_ 1
      = Finset.sum (Finset.range (samplePhase : MixedSolventElectrolyte ℚ).numBinaryInteractions_)
        (fun i =>
          margulesTerm (kron 1 (rd (samplePhase : MixedSolventElectrolyte ℚ).m_pSpecies_A_ij i))
            (kron 1 (rd (samplePhase : MixedSolventElectrolyte ℚ).m_pSpecies_B_ij i))
            (rd (samplePhase : MixedSolventElectrolyte ℚ).moleFractions_
              (rd (samplePhase : MixedSolventElectrolyte ℚ).m_pSpecies_A_ij i))
            (rd (samplePhase : MixedSolventElectrolyte ℚ).moleFractions_
              (rd (samplePhase : MixedSolventElectrolyte ℚ).m_pSpecies_B_ij i))
            ((rd (samplePhase : MixedSolventElectrolyte ℚ).m_HE_b_ij i
                - (samplePhase : MixedSolventElectrolyte ℚ).temperature
                  * rd (samplePhase : MixedSolventElectrolyte ℚ).m_SE_b_ij i)
              / (8314 * (samplePhase : MixedSolventElectrolyte ℚ).temperature))
            ((rd (samplePhase : MixedSolventElectrolyte ℚ).m_HE_c_ij i
                - (samplePhase : MixedSolventElectrolyte ℚ).temperature
                  * rd (samplePhase : MixedSolventElectrolyte ℚ).m_SE_c_ij i)
              / (8314 * (samplePhase : MixedSolventElectrolyte ℚ).temperature))) :=
  C16_lnActCoeff_formula 8314 samplePhase
    (by
      intro i hi
      have h1 : i < 1 := hi
      interval_cases i
      simp [samplePhase, MixedSolventElectrolyte.blank, rd])
    1 (by simp [samplePhase, MixedSolventElectrolyte.blank])

end MSELemmas

section MSEClaims2
variable [LinearOrderedField K]

/-- C17, as stated, fails: the sample phase has the single record `(A, B) = (1, 0)`, which
does not touch species 2, and `lnActCoeff[2]` is not zero after `s_update_lnActCoeff`. -/
theorem C17_counterexample :
    (samplePhase : MixedSolventElectrolyte ℚ).numBinaryInteractions_ = 1 ∧
    rd (samplePhase : MixedSolventElectrolyte ℚ).m_pSpecies_A_ij 0 ≠ 2 ∧
    rd (samplePhase : MixedSolventElectrolyte ℚ).m_pSpecies_B_ij 0 ≠ 2 ∧
    rd ((samplePhase : MixedSolventElectrolyte ℚ).s_update_lnActCoeff 8314).lnActCoeff_Scaled_ 2
      ≠ 0 := by
  refine ⟨rfl, by simp [samplePhase, MixedSolventElectrolyte.blank, rd],
    by simp [samplePhase, MixedSolventElectrolyte.blank, rd], ?_⟩
  rw [lnActCoeff_sum 8314 samplePhase 2 (by simp [samplePhase, MixedSolventElectrolyte.blank])]
  have h1 : (samplePhase : MixedSolventElectrolyte ℚ).numBinaryInteractions_ = 1 := rfl
  rw [h1, Finset.sum_range_one]
  norm_num [lnActCoeffTerm, samplePhase, MixedSolventElectrolyte.blank, rd]

/-- C17, amended.  For every species `k < m_kk`, `lnActCoeff[k]` is the sum over all
records of the value the loop body adds for the record, and a record whose `A` and `B` are
both different from `k` adds `-X_A*X_B*(g0 + 2*g1*X_B)`, which is zero when `X_A = 0` or
`X_B = 0`. -/
theorem C17_untouched_record_term (R : K) (self : MixedSolventElectrolyte K)
    (k : Nat) (hk : k < self.m_kk) :
    rd (self.s_update_lnActCoeff R).lnActCoeff_Scaled_ k
      = Finset.sum (Finset.range self.numBinaryInteractions_)
          (fun i => lnActCoeffTerm self self.temperature (R * self.temperature) k i) ∧
    ∀ i, rd self.m_pSpecies_A_ij i ≠ k → rd self.m_pSpecies_B_ij i ≠ k →
      lnActCoeffTerm self self.temperature (R * self.temperature) k i
        = -(XAAt self i * XBAt self i * (g0At R self i + 2 * g1At R self i * XBAt self i)) ∧
      (XAAt self i = 0 ∨ XBAt self i = 0 →
        lnActCoeffTerm self self.temperature (R * self.temperature) k i = 0) := by
  refine ⟨lnActCoeff_sum R self k hk, fun i hA hB => ?_⟩
  have hA' : ¬ k = rd self.m_pSpecies_A_ij i := fun h => hA h.symm
  have hB' : ¬ k = rd self.m_pSpecies_B_ij i := fun h => hB h.symm
  have key : lnActCoeffTerm self self.temperature (R * self.temperature) k i
      = -(XAAt self i * XBAt self i * (g0At R self i + 2 * g1At R self i * XBAt self i)) := by
    rw [lnActCoeffTerm_eq]
    simp only [margulesTerm, kron, hA, hA', hB', if_false]
    ring
  refine ⟨key, fun h0 => ?_⟩
  rw [key]
  rcases h0 with h | h <;> rw [h] <;> ring

/-- C17 amended, instance: species 2 of the sample phase over the rationals. -/
theorem C17_untouched_record_term_witness :
    rd ((samplePhase : MixedSolventElectrolyte ℚ).s_update_lnActCoeff 8314).lnActCoeff_Scaled_ 2
      = Finset.sum (Finset.range (samplePhase : MixedSolventElectrolyte ℚ).numBinaryInteractions_)
          (fun i => lnActCoeffTerm (samplePhase : MixedSolventElectrolyte ℚ)
            (samplePhase : MixedSolventElectrolyte ℚ).temperature
            (8314 * (samplePhase : MixedSolventElectrolyte ℚ).temperature) 2 i) ∧
    ∀ i, rd (samplePhase : MixedSolventElectrolyte ℚ).m_pSpecies_A_ij i ≠ 2 →
      rd (samplePhase : MixedSolventElectrolyte ℚ).m_pSpecies_B_ij i ≠ 2 →
      lnActCoeffTerm (samplePhase : MixedSolventElectrolyte ℚ)
          (samplePhase : MixedSolventElectrolyte ℚ).temperature
          (8314 * (samplePhase : MixedSolventElectrolyte ℚ).temperature) 2 i
        = -(XAAt (samplePhase : MixedSolventElectrolyte ℚ) i
            * XBAt (samplePhase : MixedSolventElectrolyte ℚ) i
            * (g0At 8314 (samplePhase : MixedSolventElectrolyte ℚ) i
              + 2 * g1At 8314 (samplePhase : MixedSolventElectrolyte ℚ) i
                * XBAt (samplePhase : MixedSolventElectrolyte ℚ) i)) ∧
      (XAAt (samplePhase : MixedSolventElectrolyte ℚ) i = 0
          ∨ XBAt (samplePhase : MixedSolventElectrolyte ℚ) i = 0 →
        lnActCoeffTerm (samplePhase : MixedSolventElectrolyte ℚ)
          (samplePhase : MixedSolventElectrolyte ℚ).temperature
          (8314 * (samplePhase : MixedSolventElectrolyte ℚ).temperature) 2 i = 0) :=
  C17_untouched_record_term 8314 samplePhase 2
    (by simp [samplePhase, MixedSolventElectrolyte.blank])

theorem testProb_ok (phase : MixedSolventElectrolyte K) (iLiCl iKCl : Nat) :
    ∃ st, phase.testProb (some iLiCl) (some iKCl) = .ok st ∧
      st.m_kk = phase.m_kk ∧ st.numBinaryInteractions_ = 1 ∧
      rd st.m_pSpecies_A_ij 0 = iKCl ∧ rd st.m_pSpecies_B_ij 0 = iLiCl ∧
      rd st.m_HE_b_ij 0 = -17570e3 ∧ rd st.m_HE_c_ij 0 = -377.0e3 ∧
      rd st.m_SE_b_ij 0 = -7.627e3 ∧ rd st.m_SE_c_ij 0 = 4.958e3 := by
  refine ⟨_, rfl, rfl, rfl, ?_, ?_, ?_, ?_, ?_, ?_⟩ <;>
    exact rd_set_eq _ _ _ (by simp [length_resize])

/-- C18. End-to-end scenario.  The test constructor, given a phase in which `KCl(L)` and
`LiCl(L)` are two different species, returns an object with the single record
`(A, B) = (KCl, LiCl)`; at `T = 900` with `X_A = 0.4` and `X_B = 0.6`, `s_update_lnActCoeff`
gives `R*T*lnActCoeff[A] = -4202474.4` and `R*T*lnActCoeff[B] = -2642038.4`, hence
`lnActCoeff[A] = -4669.416/R` and `lnActCoeff[B] = -2642038.4/(900*R)`. -/
theorem C18_end_to_end (R : K) (hR : R ≠ 0) (phase : MixedSolventElectrolyte K)
    (iLiCl iKCl : Nat) (hne : iKCl ≠ iLiCl) (hA : iKCl < phase.m_kk)
    (hB : iLiCl < phase.m_kk) (X : List K) (hXA : rd X iKCl = 0.4) (hXB : rd X iLiCl = 0.6) :
    ∃ st, phase.testProb (some iLiCl) (some iKCl) = .ok st ∧
      st.numBinaryInteractions_ = 1 ∧
      rd st.m_pSpecies_A_ij 0 = iKCl ∧ rd st.m_pSpecies_B_ij 0 = iLiCl ∧
      R * 900 * rd (({ st with temperature := 900, moleFractions_ := X }
          ).s_update_lnActCoeff R).lnActCoeff_Scaled_ iKCl = -4202474.4 ∧
      R * 900 * rd (({ st with temperature := 900, moleFractions_ := X }
          ).s_update_lnActCoeff R).lnActCoeff_Scaled_ iLiCl = -2642038.4 ∧
      rd (({ st with temperature := 900, moleFractions_ := X }
          ).s_update_lnActCoeff R).lnActCoeff_Scaled_ iKCl = -4669.416 / R ∧
      rd (({ st with temperature := 900, moleFractions_ := X }
          ).s_update_lnActCoeff R).lnActCoeff_Scaled_ iLiCl = -2642038.4 / (900 * R) := by
  obtain ⟨st, hst, hkk, hn, hiA, hiB, hHb, hHc, hSb, hSc⟩ := testProb_ok phase iLiCl iKCl
  have hne' : ¬ iLiCl = iKCl := fun h => hne h.symm
  have eA : rd (({ st with temperature := 900, moleFractions_ := X }
      ).s_update_lnActCoeff R).lnActCoeff_Scaled_ iKCl = -4669.416 / R := by
    rw [lnActCoeff_sum R _ iKCl (by simp only [hkk]; exact hA)]
    simp only [hn, Finset.sum_range_one, lnActCoeffTerm, hiA, hiB, hHb, hHc, hSb, hSc,
      hXA, hXB, if_true, hne', if_false]
    field_simp
    norm_num
    ring
  have eB : rd (({ st with temperature := 900, moleFractions_ := X }
      ).s_update_lnActCoeff R).lnActCoeff_Scaled_ iLiCl = -2642038.4 / (900 * R) := by
    rw [lnActCoeff_sum R _ iLiCl (by simp only [hkk]; exact hB)]
    simp only [hn, Finset.sum_range_one, lnActCoeffTerm, hiA, hiB, hHb, hHc, hSb, hSc,
      hXA, hXB, if_true, hne, if_false]
    field_simp
    norm_num
    ring
  refine ⟨st, hst, hn, hiA, hiB, ?_, ?_, eA, eB⟩
  · rw [eA]
    field_simp
    norm_num
    ring
  · rw [eB]
    field_simp
    norm_num
    ring

end MSEClaims2

section MSEClaims3
variable [LinearOrderedField K]

/-- C18, instance: a two-species phase with `LiCl(L)` at index 0 and `KCl(L)` at index 1,
over the rationals. -/
theorem C18_end_to_end_witness :
    ∃ st, (MixedSolventElectrolyte.blank 2 (300 : ℚ) [0.5, 0.5]).testProb (some 0) (some 1)
        = .ok st ∧
      st.numBinaryInteractions_ = 1 ∧
      rd st.m_pSpecies_A_ij 0 = 1 ∧ rd st.m_pSpecies_B_ij 0 = 0 ∧
      8314 * 900 * rd (({ st with temperature := 900, moleFractions_ := [0.6, 0.4] }
          ).s_update_lnActCoeff 8314).lnActCoeff_Scaled_ 1 = -4202474.4 ∧
      8314 * 900 * rd (({ st with temperature := 900, moleFractions_ := [0.6, 0.4] }
          ).s_update_lnActCoeff 8314).lnActCoeff_Scaled_ 0 = -2642038.4 ∧
      rd (({ st with temperature := 900, moleFractions_ := [0.6, 0.4] }
          ).s_update_lnActCoeff 8314).lnActCoeff_Scaled_ 1 = -4669.416 / 8314 ∧
      rd (({ st with temperature := 900, moleFractions_ := [0.6, 0.4] }
          ).s_update_lnActCoeff 8314).lnActCoeff_Scaled_ 0 = -2642038.4 / (900 * 8314) :=
  C18_end_to_end 8314 (by norm_num) (MixedSolventElectrolyte.blank 2 300 [0.5, 0.5]) 0 1
    (by decide) (by simp [MixedSolventElectrolyte.blank])
    (by simp [MixedSolventElectrolyte.blank]) [0.6, 0.4] (by norm_num [rd])
    (by norm_num [rd])

/-- C19. For a single record `(A, B)` with `A ≠ B` and `X_A + X_B = 1` the sum reduces to
the two-parameter Margules form `lnActCoeff[A] = X_B^2*(g0 + g1*(2*X_B - 1))` and
`lnActCoeff[B] = X_A^2*(g0 + 2*g1*X_B)`; at `X_A = X_B = 1/2` these are `g0/4` and
`(g0 + g1)/4`. -/
theorem C19_binary_margules (R : K) (self : MixedSolventElectrolyte K)
    (h1 : self.numBinaryInteractions_ = 1)
    (hAB : rd self.m_pSpecies_A_ij 0 ≠ rd self.m_pSpecies_B_ij 0)
    (hA : rd self.m_pSpecies_A_ij 0 < self.m_kk) (hB : rd self.m_pSpecies_B_ij 0 < self.m_kk)
    (hX : XAAt self 0 + XBAt self 0 = 1) :
    rd (self.s_update_lnActCoeff R).lnActCoeff_Scaled_ (rd self.m_pSpecies_A_ij 0)
      = XBAt self 0 ^ 2 * (g0At R self 0 + g1At R self 0 * (2 * XBAt self 0 - 1)) ∧
    rd (self.s_update_lnActCoeff R).lnActCoeff_Scaled_ (rd self.m_pSpecies_B_ij 0)
      = XAAt self 0 ^ 2 * (g0At R self 0 + 2 * g1At R self 0 * XBAt self 0) ∧
    (XAAt self 0 = 1 / 2 →
      rd (self.s_update_lnActCoeff R).lnActCoeff_Scaled_ (rd self.m_pSpecies_A_ij 0)
        = g0At R self 0 / 4 ∧
      rd (self.s_update_lnActCoeff R).lnActCoeff_Scaled_ (rd self.m_pSpecies_B_ij 0)
        = (g0At R self 0 + g1At R self 0) / 4) := by
  have hXA : XAAt self 0 = 1 - XBAt self 0 := by linear_combination hX
  have eA : rd (self.s_update_lnActCoeff R).lnActCoeff_Scaled_ (rd self.m_pSpecies_A_ij 0)
      = XBAt self 0 ^ 2 * (g0At R self 0 + g1At R self 0 * (2 * XBAt self 0 - 1)) := by
    rw [lnActCoeff_sum R self _ hA, h1, Finset.sum_range_one,
      lnActCoeffTerm_distinct R self _ 0 hAB]
    simp only [margulesTerm, kron, if_true, hAB, if_false, hXA]
    ring
  have eB : rd (self.s_update_lnActCoeff R).lnActCoeff_Scaled_ (rd self.m_pSpecies_B_ij 0)
      = XAAt self 0 ^ 2 * (g0At R self 0 + 2 * g1At R self 0 * XBAt self 0) := by
    rw [lnActCoeff_sum R self _ hB, h1, Finset.sum_range_one,
      lnActCoeffTerm_distinct R self _ 0 hAB]
    simp only [margulesTerm, kron, if_true, hAB.symm, if_false, hXA]
    ring
  refine ⟨eA, eB, fun hhalf => ?_⟩
  have hXB : XBAt self 0 = 1 / 2 := by linear_combination hX - hhalf
  rw [eA, eB, hhalf, hXB]
  constructor <;> ring

end MSEClaims3

section MSEClaims4
variable [LinearOrderedField K]

/-- C19, instance: the sample phase over the rationals, where `X_A = 0.4`, `X_B = 0.6`. -/
theorem C19_binary_margules_witness :
    rd ((samplePhase : MixedSolventElectrolyte ℚ).s_update_lnActCoeff 8314).lnActCoeff_Scaled_
        (rd (samplePhase : MixedSolventElectrolyte ℚ).m_pSpecies_A_ij 0)
      = XBAt (samplePhase : MixedSolventElectrolyte ℚ) 0 ^ 2
        * (g0At 8314 (samplePhase : MixedSolventElectrolyte ℚ) 0
          + g1At 8314 (samplePhase : MixedSolventElectrolyte ℚ) 0
            * (2 * XBAt (samplePhase : MixedSolventElectrolyte ℚ) 0 - 1)) ∧
    rd ((samplePhase : MixedSolventElectrolyte ℚ).s_update_lnActCoeff 8314).lnActCoeff_Scaled_
        (rd (samplePhase : MixedSolventElectrolyte ℚ).m_pSpecies_B_ij 0)
      = XAAt (samplePhase : MixedSolventElectrolyte ℚ) 0 ^ 2
        * (g0At 8314 (samplePhase : MixedSolventElectrolyte ℚ) 0
          + 2 * g1At 8314 (samplePhase : MixedSolventElectrolyte ℚ) 0
            * XBAt (samplePhase : MixedSolventElectrolyte ℚ) 0) ∧
    (XAAt (samplePhase : MixedSolventElectrolyte ℚ) 0 = 1 / 2 →
      rd ((samplePhase : MixedSolventElectrolyte ℚ).s_update_lnActCoeff 8314).lnActCoeff_Scaled_
          (rd (samplePhase : MixedSolventElectrolyte ℚ).m_pSpecies_A_ij 0)
        = g0At 8314 (samplePhase : MixedSolventElectrolyte ℚ) 0 / 4 ∧
      rd ((samplePhase : MixedSolventElectrolyte ℚ).s_update_lnActCoeff 8314).lnActCoeff_Scaled_
          (rd (samplePhase : MixedSolventElectrolyte ℚ).m_pSpecies_B_ij 0)
        = (g0At 8314 (samplePhase : MixedSolventElectrolyte ℚ) 0
          + g1At 8314 (samplePhase : MixedSolventElectrolyte ℚ) 0) / 4) :=
  C19_binary_margules 8314 samplePhase rfl
    (by simp [samplePhase, MixedSolventElectrolyte.blank, rd])
    (by simp [samplePhase, MixedSolventElectrolyte.blank, rd])
    (by simp [samplePhase, MixedSolventElectrolyte.blank, rd])
    (by norm_num [XAAt, XBAt, samplePhase, MixedSolventElectrolyte.blank, rd])

theorem forLoop_update {α : Type} (g : Nat → α) :
    ∀ (n i0 : Nat) (out : Nat → α) (k : Nat),
      forLoop (fun k out => Function.update out k (g k)) n i0 out k
        = if i0 ≤ k ∧ k < i0 + n then g k else out k := by
  intro n
  induction n with
  | zero =>
    intro i0 out k
    simp only [forLoop]
    rw [if_neg (by omega)]
  | succ n ih =>
    intro i0 out k
    simp only [forLoop]
    rw [ih (i0 + 1)]
    by_cases h : k = i0
    · subst h
      rw [if_neg (by omega), if_pos (by omega), Function.update_same]
    · rw [Function.update_noteq h]
      by_cases h2 : i0 + 1 ≤ k ∧ k < i0 + 1 + n
      · rw [if_pos h2, if_pos (by omega)]
      · rw [if_neg h2, if_neg (by omega)]

theorem dlnActCoeffdT_sum (R : K) (self : MixedSolventElectrolyte K) (k : Nat)
    (hk : k < self.m_kk) :
    rd (self.s_update_dlnActCoeff_dT R).dlnActCoeffdT_Scaled_ k
      = Finset.sum (Finset.range self.numBinaryInteractions_)
          (fun i => dlnActCoeffdTTerm self (R * self.temperature * self.temperature) k i) ∧
    rd (self.s_update_dlnActCoeff_dT R).d2lnActCoeffdT2_Scaled_ k
      = Finset.sum (Finset.range self.numBinaryInteractions_)
          (fun i => -(2.0 * dlnActCoeffdTTerm self
            (R * self.temperature * self.temperature) k i / self.temperature)) := by
  have hsplit : ∀ (d : List K × List K),
      forLoop
        (fun iK (d : List K × List K) =>
          forLoop
            (fun i (d : List K × List K) =>
              let temp := dlnActCoeffdTTerm self (R * self.temperature * self.temperature) iK i
              (d.1.set iK (rd d.1 iK + temp),
                d.2.set iK (rd d.2 iK - 2.0 * temp / self.temperature)))
            self.numBinaryInteractions_ 0 d)
        self.m_kk 0 d
      = (forLoop
          (fun iK l => forLoop
            (fun i l => l.set iK (rd l iK
              + dlnActCoeffdTTerm self (R * self.temperature * self.temperature) iK i))
            self.numBinaryInteractions_ 0 l)
          self.m_kk 0 d.1,
        forLoop
          (fun iK l => forLoop
            (fun i l => l.set iK (rd l iK
              + -(2.0 * dlnActCoeffdTTerm self
                (R * self.temperature * self.temperature) iK i / self.temperature)))
            self.numBinaryInteractions_ 0 l)
          self.m_kk 0 d.2) := by
    intro d
    have hbody : (fun iK (d : List K × List K) =>
          forLoop
            (fun i (d : List K × List K) =>
              let temp := dlnActCoeffdTTerm self (R * self.temperature * self.temperature) iK i
              (d.1.set iK (rd d.1 iK + temp),
                d.2.set iK (rd d.2 iK - 2.0 * temp / self.temperature)))
            self.numBinaryInteractions_ 0 d)
        = fun iK (d : List K × List K) =>
          ((fun iK l => forLoop
            (fun i l => l.set iK (rd l iK
              + dlnActCoeffdTTerm self (R * self.temperature * self.temperature) iK i))
            self.numBinaryInteractions_ 0 l) iK d.1,
          (fun iK l => forLoop
            (fun i l => l.set iK (rd l iK
              + -(2.0 * dlnActCoeffdTTerm self
                (R * self.temperature * self.temperature) iK i / self.temperature)))
            self.numBinaryInteractions_ 0 l) iK d.2) := by
      funext iK d
      obtain ⟨x, y⟩ := d
      simp only [sub_eq_add_neg]
      exact forLoop_pair
        (fun i l => l.set iK (rd l iK
          + dlnActCoeffdTTerm self (R * self.temperature * self.temperature) iK i))
        (fun i l => l.set iK (rd l iK
          + -(2.0 * dlnActCoeffdTTerm self
            (R * self.temperature * self.temperature) iK i / self.temperature)))
        self.numBinaryInteractions_ 0 x y
    rw [hbody]
    obtain ⟨x, y⟩ := d
    exact forLoop_pair _ _ self.m_kk 0 x y
  unfold MixedSolventElectrolyte.s_update_dlnActCoeff_dT
  simp only
  rw [hsplit]
  exact ⟨(nested_accum _ self.m_kk self.numBinaryInteractions_ k hk).1,
    (nested_accum _ self.m_kk self.numBinaryInteractions_ k hk).1⟩

end MSEClaims4

section MSEDeriv

theorem hasDerivAt_g (H S R T0 : ℝ) (hR : R ≠ 0) (hT : T0 ≠ 0) :
    HasDerivAt (fun T => (H - T * S) / (R * T)) (-H / (R * T0 * T0)) T0 := by
  have h1 : HasDerivAt (fun T : ℝ => H - T * S) (-S) T0 := by
    simpa using ((hasDerivAt_id T0).mul_const S).const_sub H
  have h2 : HasDerivAt (fun T : ℝ => R * T) R T0 := by
    simpa using (hasDerivAt_id T0).const_mul R
  have h3 := h1.div h2 (mul_ne_zero hR hT)
  convert h3 using 1
  field_simp
  ring

theorem hasDerivAt_lnActCoeffTerm (R : ℝ) (self : MixedSolventElectrolyte ℝ) (T0 : ℝ)
    (hR : R ≠ 0) (hT : T0 ≠ 0) (k i : Nat) :
    HasDerivAt (fun T => lnActCoeffTerm self T (R * T) k i)
      (dlnActCoeffdTTerm self (R * T0 * T0) k i) T0 := by
  have hg0 := hasDerivAt_g (rd self.m_HE_b_ij i) (rd self.m_SE_b_ij i) R T0 hR hT
  have hg1 := hasDerivAt_g (rd self.m_HE_c_ij i) (rd self.m_SE_c_ij i) R T0 hR hT
  unfold lnActCoeffTerm dlnActCoeffdTTerm
  exact ((hg0.add (hg1.mul_const _)).const_mul _).add (hg1.const_mul _)

/-- C20. For every nonzero temperature and gas constant, every composition and interaction
list and every species `k < m_kk`, the value that `getdlnActCoeffdT` writes for `k` is the
sum over the records of the body's term with `g0 = -Hb/(R*T*T)`, `g1 = -Hc/(R*T*T)`, and it
is the derivative with respect to `T`, at the current temperature, of `lnActCoeff[k]` as
computed by `s_update_lnActCoeff` (composition and parameters held fixed). -/
theorem C20_dlnActCoeffdT_is_derivative (R : ℝ) (self : MixedSolventElectrolyte ℝ)
    (hR : R ≠ 0) (hT : self.temperature ≠ 0) (k : Nat) (hk : k < self.m_kk)
    (buf : Nat → ℝ) :
    (self.getdlnActCoeffdT R buf).2 k
      = Finset.sum (Finset.range self.numBinaryInteractions_)
          (fun i => dlnActCoeffdTTerm self (R * self.temperature * self.temperature) k i) ∧
    HasDerivAt
      (fun T => rd (({ self with temperature := T }).s_update_lnActCoeff R).lnActCoeff_Scaled_ k)
      ((self.getdlnActCoeffdT R buf).2 k) self.temperature := by
  have hval : (self.getdlnActCoeffdT R buf).2 k
      = Finset.sum (Finset.range self.numBinaryInteractions_)
          (fun i => dlnActCoeffdTTerm self (R * self.temperature * self.temperature) k i) := by
    unfold MixedSolventElectrolyte.getdlnActCoeffdT
    simp only
    rw [forLoop_update, if_pos ⟨Nat.zero_le _, by simpa using hk⟩]
    exact (dlnActCoeffdT_sum R self k hk).1
  have hfun : (fun T =>
        rd (({ self with temperature := T }).s_update_lnActCoeff R).lnActCoeff_Scaled_ k)
      = fun T => Finset.sum (Finset.range self.numBinaryInteractions_)
          (fun i => lnActCoeffTerm self T (R * T) k i) := by
    funext T
    exact lnActCoeff_sum R { self with temperature := T } k hk
  refine ⟨hval, ?_⟩
  rw [hval, hfun]
  exact HasDerivAt.sum (fun i _ => hasDerivAt_lnActCoeffTerm R self self.temperature hR hT k i)

/-- C20, instance: species 1 of the sample phase over the reals. -/
theorem C20_dlnActCoeffdT_is_derivative_witness :
    ((samplePhase : MixedSolventElectrolyte ℝ).getdlnActCoeffdT 8314 (fun _ => 0)).2 1
      = Finset.sum (Finset.range (samplePhase : MixedSolventElectrolyte ℝ).numBinaryInteractions_)
          (fun i => dlnActCoeffdTTerm (samplePhase : MixedSolventElectrolyte ℝ)
            (8314 * (samplePhase : MixedSolventElectrolyte ℝ).temperature
              * (samplePhase : MixedSolventElectrolyte ℝ).temperature) 1 i) ∧
    HasDerivAt
      (fun T => rd (({ (samplePhase : MixedSolventElectrolyte ℝ) with temperature := T }
        ).s_update_lnActCoeff 8314).lnActCoeff_Scaled_ 1)
      (((samplePhase : MixedSolventElectrolyte ℝ).getdlnActCoeffdT 8314 (fun _ => 0)).2 1)
      (samplePhase : MixedSolventElectrolyte ℝ).temperature :=
  C20_dlnActCoeffdT_is_derivative 8314 samplePhase (by norm_num)
    (by norm_num [samplePhase, MixedSolventElectrolyte.blank]) 1
    (by simp [samplePhase, MixedSolventElectrolyte.blank]) (fun _ => 0)

end MSEDeriv

/-! ## MixedSolventElectrolyte: loops on caller buffers -/

section BufferLoops
variable [LinearOrderedField K]

theorem forLoop_update_at {α : Type} (G : Nat → α → α) (body : Nat → (Nat → α) → Nat → α)
    (hbody : ∀ k out, body k out = Function.update out k (G k (out k))) :
    ∀ (n i0 : Nat) (out : Nat → α) (k : Nat),
      forLoop body n i0 out k = if i0 ≤ k ∧ k < i0 + n then G k (out k) else out k := by
  intro n
  induction n with
  | zero =>
    intro i0 out k
    simp only [forLoop]
    rw [if_neg (by omega)]
  | succ n ih =>
    intro i0 out k
    simp only [forLoop]
    rw [ih (i0 + 1), hbody]
    by_cases h : k = i0
    · subst h
      rw [if_neg (by omega), if_pos (by omega), Function.update_same]
    · rw [Function.update_noteq h]
      by_cases h2 : i0 + 1 ≤ k ∧ k < i0 + 1 + n
      · rw [if_pos h2, if_pos (by omega)]
      · rw [if_neg h2, if_neg (by omega)]

theorem forLoop_accum_fn (f : Nat → K) (iK : Nat) :
    ∀ (n i0 : Nat) (out : Nat → K),
      forLoop (fun i out => Function.update out iK (out iK + f i)) n i0 out
        = Function.update out iK
            (out iK + Finset.sum (Finset.range n) (fun j => f (i0 + j))) := by
  intro n
  induction n with
  | zero =>
    intro i0 out
    simp only [forLoop, Finset.range_zero, Finset.sum_empty, add_zero]
    exact (Function.update_eq_self iK out).symm
  | succ n ih =>
    intro i0 out
    simp only [forLoop]
    rw [ih (i0 + 1), Finset.sum_range_succ', Function.update_idem, Function.update_same]
    have : ∀ j, i0 + 1 + j = i0 + (j + 1) := fun j => by omega
    simp only [Nat.add_zero, this]
    exact congrArg (Function.update out iK) (by ring)

/-- C21. After `s_update_dlnActCoeff_dT`, for every species `k < m_kk`, every temperature
and any number of interaction records, `d2lnActCoeffdT2[k] = -(2/T) * dlnActCoeffdT[k]`.
The case `T ≠ 0` of the claim is included; in the field model, where a quotient by zero is
zero, both sides are also equal at `T = 0`. -/
theorem C21_second_derivative_identity (R : K) (self : MixedSolventElectrolyte K)
    (k : Nat) (hk : k < self.m_kk) :
    rd (self.s_update_dlnActCoeff_dT R).d2lnActCoeffdT2_Scaled_ k
      = -(2 / self.temperature) * rd (self.s_update_dlnActCoeff_dT R).dlnActCoeffdT_Scaled_ k := by
  obtain ⟨h1, h2⟩ := dlnActCoeffdT_sum R self k hk
  rw [h1, h2, Finset.mul_sum]
  apply Finset.sum_congr rfl
  intro i _
  norm_num
  ring

/-- C21, instance: species 1 of the two-record sample phase over the rationals. -/
theorem C21_second_derivative_identity_witness :
    rd ((samplePhase2 : MixedSolventElectrolyte ℚ).s_update_dlnActCoeff_dT 8314
        ).d2lnActCoeffdT2_Scaled_ 1
      = -(2 / (samplePhase2 : MixedSolventElectrolyte ℚ).temperature)
        * rd ((samplePhase2 : MixedSolventElectrolyte ℚ).s_update_dlnActCoeff_dT 8314
          ).dlnActCoeffdT_Scaled_ 1 :=
  C21_second_derivative_identity 8314 samplePhase2 1
    (by simp [samplePhase2, MixedSolventElectrolyte.blank])

/-- C25. For every species `k < m_kk`, `getChemPotentials` writes
`mu[k] = mu0_ss[k] + R*T*(log(max(X_k, SmallNumber)) + lnActCoeff[k])`, where `mu0_ss[k]` is
what `getStandardChemPotentials` left in the buffer and `lnActCoeff` is the result of
`s_update_lnActCoeff`; when `X_k >= SmallNumber` this is
`mu0_ss[k] + R*T*log(X_k) + R*T*lnActCoeff[k]`. -/
theorem C25_chemPotentials (getStandardChemPotentials : (Nat → K) → Nat → K) (log : K → K)
    (SmallNumber R : K) (self : MixedSolventElectrolyte K) (mu : Nat → K)
    (k : Nat) (hk : k < self.m_kk) :
    (self.getChemPotentials getStandardChemPotentials log SmallNumber R mu).2 k
      = getStandardChemPotentials mu k
        + R * self.temperature * (log (max (rd self.moleFractions_ k) SmallNumber)
          + rd (self.s_update_lnActCoeff R).lnActCoeff_Scaled_ k) ∧
    (SmallNumber ≤ rd self.moleFractions_ k →
      (self.getChemPotentials getStandardChemPotentials log SmallNumber R mu).2 k
        = getStandardChemPotentials mu k
          + R * self.temperature * log (rd self.moleFractions_ k)
          + R * self.temperature * rd (self.s_update_lnActCoeff R).lnActCoeff_Scaled_ k) := by
  have key : (self.getChemPotentials getStandardChemPotentials log SmallNumber R mu).2 k
      = getStandardChemPotentials mu k
        + R * self.temperature * (log (max (rd self.moleFractions_ k) SmallNumber)
          + rd (self.s_update_lnActCoeff R).lnActCoeff_Scaled_ k) := by
    unfold MixedSolventElectrolyte.getChemPotentials
    simp only
    rw [forLoop_update_at
      (fun k x => x + R * (self.s_update_lnActCoeff R).temperature
        * (log (max (rd (self.s_update_lnActCoeff R).moleFractions_ k) SmallNumber)
          + rd (self.s_update_lnActCoeff R).lnActCoeff_Scaled_ k)) _ (fun _ _ => rfl)]
    rw [if_pos ⟨Nat.zero_le _, by simpa using hk⟩]
    rfl
  refine ⟨key, fun hX => ?_⟩
  rw [key, max_eq_left hX]
  ring

/-- C25, instance: species 1 of the sample phase over the reals with the real logarithm. -/
theorem C25_chemPotentials_witness :
    ((samplePhase : MixedSolventElectrolyte ℝ).getChemPotentials (fun _ _ => 1000) Real.log
        (1 / 1000000) 8314 (fun _ => 0)).2 1
      = (fun (_ : Nat → ℝ) (_ : Nat) => (1000 : ℝ)) (fun _ => 0) 1
        + 8314 * (samplePhase : MixedSolventElectrolyte ℝ).temperature
          * (Real.log (max (rd (samplePhase : MixedSolventElectrolyte ℝ).moleFractions_ 1)
              (1 / 1000000))
            + rd ((samplePhase : MixedSolventElectrolyte ℝ).s_update_lnActCoeff 8314
              ).lnActCoeff_Scaled_ 1) ∧
    (1 / 1000000 ≤ rd (samplePhase : MixedSolventElectrolyte ℝ).moleFractions_ 1 →
      ((samplePhase : MixedSolventElectrolyte ℝ).getChemPotentials (fun _ _ => 1000) Real.log
          (1 / 1000000) 8314 (fun _ => 0)).2 1
        = (fun (_ : Nat → ℝ) (_ : Nat) => (1000 : ℝ)) (fun _ => 0) 1
          + 8314 * (samplePhase : MixedSolventElectrolyte ℝ).temperature
            * Real.log (rd (samplePhase : MixedSolventElectrolyte ℝ).moleFractions_ 1)
          + 8314 * (samplePhase : MixedSolventElectrolyte ℝ).temperature
            * rd ((samplePhase : MixedSolventElectrolyte ℝ).s_update_lnActCoeff 8314
              ).lnActCoeff_Scaled_ 1) :=
  C25_chemPotentials (fun _ _ => 1000) Real.log (1 / 1000000) 8314 samplePhase (fun _ => 0) 1
    (by simp [samplePhase, MixedSolventElectrolyte.blank])

end BufferLoops

/-! ## MixedSolventElectrolyte: the directional derivative -/

section Directional
variable [LinearOrderedField K]

theorem getdlnActCoeffds_value (R : K) (self : MixedSolventElectrolyte K) (dTds : K)
    (dXds : Nat → K) (out : Nat → K) (k : Nat) (hk : k < self.m_kk) :
    (self.getdlnActCoeffds R dTds dXds out).2 k
      = Finset.sum (Finset.range self.numBinaryInteractions_) (fun i =>
          dlnActCoeffdsTerm (self.s_update_dlnActCoeff_dT R) self.temperature
              (R * self.temperature) dXds k i
            + rd (self.s_update_dlnActCoeff_dT R).dlnActCoeffdT_Scaled_ k * dTds) := by
  unfold MixedSolventElectrolyte.getdlnActCoeffds
  simp only
  rw [forLoop_update_at
    (fun iK _ => Finset.sum (Finset.range self.numBinaryInteractions_) (fun i =>
      dlnActCoeffdsTerm (self.s_update_dlnActCoeff_dT R) self.temperature
          (R * self.temperature) dXds iK i
        + rd (self.s_update_dlnActCoeff_dT R).dlnActCoeffdT_Scaled_ iK * dTds))]
  · rw [if_pos ⟨Nat.zero_le k, by
      have : (self.s_update_dlnActCoeff_dT R).m_kk = self.m_kk := rfl
      omega⟩]
  · intro iK o
    have hn : (self.s_update_dlnActCoeff_dT R).numBinaryInteractions_
        = self.numBinaryInteractions_ := rfl
    rw [hn, forLoop_accum_fn, Function.update_idem, Function.update_same]
    simp only [Nat.zero_add]
    norm_num

theorem dlnActCoeffdsTerm_distinct (R : K) (self : MixedSolventElectrolyte K)
    (dXds : Nat → K) (k i : Nat)
    (hAB : rd self.m_pSpecies_A_ij i ≠ rd self.m_pSpecies_B_ij i) :
    dlnActCoeffdsTerm (self.s_update_dlnActCoeff_dT R) self.temperature
        (R * self.temperature) dXds k i
      = ((kron k (rd self.m_pSpecies_B_ij i) - XBAt self i) * dXds (rd self.m_pSpecies_A_ij i)
          + (kron k (rd self.m_pSpecies_A_ij i) - XAAt self i)
            * dXds (rd self.m_pSpecies_B_ij i))
        * (g0At R self i + 2 * g1At R self i * XBAt self i)
      + 2 * (kron k (rd self.m_pSpecies_B_ij i) - XBAt self i) * g1At R self i * XAAt self i
        * dXds (rd self.m_pSpecies_B_ij i) := by
  have e1 : (self.s_update_dlnActCoeff_dT R).m_pSpecies_A_ij = self.m_pSpecies_A_ij := rfl
  have e2 : (self.s_update_dlnActCoeff_dT R).m_pSpecies_B_ij = self.m_pSpecies_B_ij := rfl
  have e3 : (self.s_update_dlnActCoeff_dT R).moleFractions_ = self.moleFractions_ := rfl
  have e4 : (self.s_update_dlnActCoeff_dT R).m_HE_b_ij = self.m_HE_b_ij := rfl
  have e5 : (self.s_update_dlnActCoeff_dT R).m_HE_c_ij = self.m_HE_c_ij := rfl
  have e6 : (self.s_update_dlnActCoeff_dT R).m_SE_b_ij = self.m_SE_b_ij := rfl
  have e7 : (self.s_update_dlnActCoeff_dT R).m_SE_c_ij = self.m_SE_c_ij := rfl
  unfold dlnActCoeffdsTerm
  simp only [e1, e2, e3, e4, e5, e6, e7, kron, XAAt, XBAt, g0At, g1At]
  by_cases hA : rd self.m_pSpecies_A_ij i = k
  · have hB : ¬ k = rd self.m_pSpecies_B_ij i := fun h => hAB (hA.trans h)
    simp only [hA, hB, if_true, if_false, Int.cast_one, Int.cast_zero, eq_self_iff_true]
    ring
  · have hA' : ¬ k = rd self.m_pSpecies_A_ij i := fun h => hA h.symm
    by_cases hB : rd self.m_pSpecies_B_ij i = k
    · simp only [hA, hA', hB, if_true, if_false, Int.cast_one, Int.cast_zero,
        eq_self_iff_true]
      ring
    · have hB' : ¬ k = rd self.m_pSpecies_B_ij i := fun h => hB h.symm
      simp only [hA, hA', hB, hB', if_false, Int.cast_zero]
      ring

/-- C22. For every list of records with `A_i ≠ B_i`, composition, direction `dXds`, `dTds`
and species `k < m_kk`, `getdlnActCoeffds` writes into `dlnActCoeffds[k]` the claimed value
(the structural sum over the records plus `dlnActCoeffdT[k]*dTds` once) plus
`(n - 1) * dlnActCoeffdT[k]*dTds`, `n` the number of records: the statement
`dlnActCoeffdT_Scaled_[iK]*dTds` stands inside the record loop, so the temperature term
enters once per record and not once. -/
theorem C22_dTds_term_added_per_record (R : K) (self : MixedSolventElectrolyte K) (dTds : K)
    (dXds : Nat → K) (out : Nat → K)
    (hAB : ∀ i, i < self.numBinaryInteractions_ →
      rd self.m_pSpecies_A_ij i ≠ rd self.m_pSpecies_B_ij i)
    (k : Nat) (hk : k < self.m_kk) :
    (self.getdlnActCoeffds R dTds dXds out).2 k
      = dlnActCoeffdsClaimed R self dTds dXds
          (rd (self.getdlnActCoeffds R dTds dXds out).1.dlnActCoeffdT_Scaled_ k) k
        + ((self.numBinaryInteractions_ : K) - 1)
          * (rd (self.getdlnActCoeffds R dTds dXds out).1.dlnActCoeffdT_Scaled_ k * dTds) := by
  rw [getdlnActCoeffds_value R self dTds dXds out k hk]
  have hs : (self.getdlnActCoeffds R dTds dXds out).1 = self.s_update_dlnActCoeff_dT R := rfl
  rw [hs, Finset.sum_add_distrib, Finset.sum_const, Finset.card_range, nsmul_eq_mul]
  unfold dlnActCoeffdsClaimed
  rw [Finset.sum_congr rfl (fun i hi =>
    dlnActCoeffdsTerm_distinct R self dXds k i (hAB i (Finset.mem_range.mp hi)))]
  ring

/-- C22, failing input: `samplePhase2` (two records) with `R = 1`, `dTds = 1` and the zero
direction `dXds = 0`.  The claimed value of `dlnActCoeffds[0]` is `dlnActCoeffdT[0]`,
157/50000; the code writes twice that, 157/25000. -/
theorem C22_dTds_term_added_per_record_witness :
    (samplePhase2.getdlnActCoeffds (1 : ℚ) 1 (fun _ => 0) (fun _ => 0)).2 0
      = dlnActCoeffdsClaimed 1 samplePhase2 1 (fun _ => 0)
          (rd (samplePhase2.getdlnActCoeffds (1 : ℚ) 1 (fun _ => 0)
            (fun _ => 0)).1.dlnActCoeffdT_Scaled_ 0) 0
        + (((samplePhase2 : MixedSolventElectrolyte ℚ).numBinaryInteractions_ : ℚ) - 1)
          * (rd (samplePhase2.getdlnActCoeffds (1 : ℚ) 1 (fun _ => 0)
            (fun _ => 0)).1.dlnActCoeffdT_Scaled_ 0 * 1) ∧
    (samplePhase2.getdlnActCoeffds (1 : ℚ) 1 (fun _ => 0) (fun _ => 0)).2 0 = 157 / 25000 ∧
    dlnActCoeffdsClaimed 1 samplePhase2 1 (fun _ => 0)
      (rd (samplePhase2.getdlnActCoeffds (1 : ℚ) 1 (fun _ => 0)
        (fun _ => 0)).1.dlnActCoeffdT_Scaled_ 0) 0 = 157 / 50000 := by
  have hd : rd (samplePhase2.getdlnActCoeffds (1 : ℚ) 1 (fun _ => 0)
      (fun _ => 0)).1.dlnActCoeffdT_Scaled_ 0 = 157 / 50000 := by
    have hs : (samplePhase2.getdlnActCoeffds (1 : ℚ) 1 (fun _ => 0) (fun _ => 0)).1
        = samplePhase2.s_update_dlnActCoeff_dT 1 := rfl
    rw [hs, (dlnActCoeffdT_sum (1 : ℚ) samplePhase2 0 (by decide)).1]
    norm_num [samplePhase2, MixedSolventElectrolyte.blank, Finset.sum_range_succ,
      dlnActCoeffdTTerm, rd]
  have hc : dlnActCoeffdsClaimed (1 : ℚ) samplePhase2 1 (fun _ => 0) (157 / 50000) 0
      = 157 / 50000 := by
    norm_num [dlnActCoeffdsClaimed]
  have key := C22_dTds_term_added_per_record (1 : ℚ) samplePhase2 1 (fun _ => 0) (fun _ => 0)
    (by
      intro i hi
      have hi' : i < 2 := hi
      interval_cases i <;> simp [samplePhase2, rd])
    0 (by decide)
  refine ⟨key, ?_, ?_⟩
  · rw [key, hd, hc]
    norm_num [samplePhase2]
  · rw [hd, hc]

end Directional

/-! ## MixedSolventElectrolyte: partial molar volumes -/

section Volumes
variable [LinearOrderedField K]

/-- C23, failing input: `samplePhase2` (three species at 300 K, `X = [0.2, 0.3, 0.5]`, records
`(A, B) = (0, 1)` and `(1, 2)` with volumetric parameters `VHb = [7, 11]`, `VHc = [13, 17]`,
`VSb = VSc = 0`) and standard volumes 100.  For species 0 the claimed sum gives
`vbar[0] = 49091/500`; the code writes `26983/250`, which is 39/4 more.  The locals `delAK`
and `delBK` are set to 0 before the record loop only, so the `delAK = 1` set by record 0
is still in force at record 1, which does not involve species 0, and that record adds
`1 * X_B * (g0 + g1*X_B) = 0.5 * 19.5`.  Species 2 has no earlier match and agrees. -/
theorem C23_indicators_not_reset :
    MixedSolventElectrolyte.getPartialMolarVolumes (fun _ _ => (100 : ℚ)) samplePhase2
        (fun _ => 0) 0 = 26983 / 250 ∧
    partialMolarVolumeClaimed (samplePhase2 : MixedSolventElectrolyte ℚ) 100 0 = 49091 / 500 ∧
    MixedSolventElectrolyte.getPartialMolarVolumes (fun _ _ => (100 : ℚ)) samplePhase2
        (fun _ => 0) 0
      = partialMolarVolumeClaimed (samplePhase2 : MixedSolventElectrolyte ℚ) 100 0
        + 1 * XBAt samplePhase2 1
          * (rd (samplePhase2 : MixedSolventElectrolyte ℚ).m_VHE_b_ij 1
            + rd (samplePhase2 : MixedSolventElectrolyte ℚ).m_VHE_c_ij 1 * XBAt samplePhase2 1) ∧
    MixedSolventElectrolyte.getPartialMolarVolumes (fun _ _ => (100 : ℚ)) samplePhase2
        (fun _ => 0) 2
      = partialMolarVolumeClaimed (samplePhase2 : MixedSolventElectrolyte ℚ) 100 2 := by
  have h1 : MixedSolventElectrolyte.getPartialMolarVolumes (fun _ _ => (100 : ℚ)) samplePhase2
      (fun _ => 0) 0 = 26983 / 250 := by
    norm_num [MixedSolventElectrolyte.getPartialMolarVolumes, forLoop, partialMolarVolumesBody,
      samplePhase2, MixedSolventElectrolyte.blank, rd, Function.update_apply]
  have h2 : partialMolarVolumeClaimed (samplePhase2 : MixedSolventElectrolyte ℚ) 100 0
      = 49091 / 500 := by
    norm_num [partialMolarVolumeClaimed, margulesTerm, kron, XAAt, XBAt, samplePhase2,
      MixedSolventElectrolyte.blank, rd, Finset.sum_range_succ]
  refine ⟨h1, h2, ?_, ?_⟩
  · rw [h1, h2]
    norm_num [XBAt, samplePhase2, MixedSolventElectrolyte.blank, rd]
  · norm_num [MixedSolventElectrolyte.getPartialMolarVolumes, forLoop, partialMolarVolumesBody,
      partialMolarVolumeClaimed, margulesTerm, kron, XAAt, XBAt,
      samplePhase2, MixedSolventElectrolyte.blank, rd, Function.update_apply,
      Finset.sum_range_succ]

end Volumes

/-! ## The Jacobian with respect to the logarithm of the mole numbers -/

section Jacobian
variable [LinearOrderedField K]

theorem set_set_accum (l : List K) (p : Nat) (a b : K) :
    (l.set p (rd l p + a)).set p (rd (l.set p (rd l p + a)) p + b)
      = l.set p (rd l p + (a + b)) := by
  by_cases h : p < l.length
  · rw [rd_set_eq _ _ _ h, List.set_set, add_assoc]
  · have e : ∀ v : K, l.set p v = l := fun v => List.set_eq_of_length_le (by omega)
    rw [e, e, e]

theorem set_set_scale (l : List K) (p : Nat) (x s : K) (h : p < l.length) :
    (l.set p (rd l p + s)).set p (x * rd (l.set p (rd l p + s)) p)
      = l.set p (x * (rd l p + s)) := by
  rw [rd_set_eq _ _ _ h, List.set_set]

/-- A loop whose pass `j` rewrites the single cell `pos j` from its old content, the cells of
different passes being different. -/
theorem forLoop_cells (pos : Nat → Nat) (G : Nat → K → K) (body : Nat → List K → List K)
    (len N : Nat)
    (hbody : ∀ j l, j < N → l.length = len → body j l = l.set (pos j) (G j (rd l (pos j))))
    (hinj : ∀ j j', j < N → j' < N → pos j = pos j' → j = j')
    (hlt : ∀ j, j < N → pos j < len) :
    ∀ (n i0 : Nat) (l : List K), i0 + n ≤ N → l.length = len →
      (forLoop body n i0 l).length = len ∧
      (∀ j, i0 ≤ j → j < i0 + n → rd (forLoop body n i0 l) (pos j) = G j (rd l (pos j))) ∧
      (∀ q, (∀ j, i0 ≤ j → j < i0 + n → pos j ≠ q) → rd (forLoop body n i0 l) q = rd l q) := by
  intro n
  induction n with
  | zero =>
    intro i0 l _ hl
    exact ⟨hl, fun j h1 h2 => by omega, fun q _ => rfl⟩
  | succ n ih =>
    intro i0 l hn hl
    simp only [forLoop]
    have hb := hbody i0 l (by omega) hl
    have hl' : (body i0 l).length = len := by rw [hb, List.length_set, hl]
    obtain ⟨h1, h2, h3⟩ := ih (i0 + 1) (body i0 l) (by omega) hl'
    refine ⟨h1, ?_, ?_⟩
    · intro j hj1 hj2
      by_cases hj : j = i0
      · subst hj
        rw [h3 (pos j) (fun j' hj1' hj2' heq => by
          have := hinj j' j (by omega) (by omega) heq
          omega), hb, rd_set_eq _ _ _ (by rw [hl]; exact hlt j (by omega))]
      · rw [h2 j (by omega) (by omega), hb,
          rd_set_ne _ _ _ _ (fun heq => hj (hinj i0 j (by omega) (by omega) heq).symm)]
    · intro q hq
      rw [h3 q (fun j hj1 hj2 => hq j (by omega) (by omega)), hb,
        rd_set_ne _ _ _ _ (hq i0 (le_refl _) (by omega))]

/-- A loop over the rows of a two-dimensional store, pass `k` rewriting each cell of row `k`
from its old content and leaving the other rows alone. -/
theorem forLoop_rows (idx : Nat → Nat → Nat) (N len : Nat) (G : Nat → Nat → K → K)
    (body : Nat → List K → List K)
    (hbody : ∀ k l, k < N → l.length = len →
      (body k l).length = len ∧
      (∀ m, m < N → rd (body k l) (idx k m) = G k m (rd l (idx k m))) ∧
      (∀ k' m, k' < N → m < N → k' ≠ k → rd (body k l) (idx k' m) = rd l (idx k' m))) :
    ∀ (n i0 : Nat) (l : List K), i0 + n ≤ N → l.length = len →
      (forLoop body n i0 l).length = len ∧
      ∀ k m, k < N → m < N →
        rd (forLoop body n i0 l) (idx k m)
          = if i0 ≤ k ∧ k < i0 + n then G k m (rd l (idx k m)) else rd l (idx k m) := by
  intro n
  induction n with
  | zero =>
    intro i0 l _ hl
    refine ⟨hl, fun k m _ _ => ?_⟩
    rw [if_neg (by omega)]
    rfl
  | succ n ih =>
    intro i0 l hn hl
    simp only [forLoop]
    obtain ⟨hb1, hb2, hb3⟩ := hbody i0 l (by omega) hl
    obtain ⟨h1, h2⟩ := ih (i0 + 1) (body i0 l) (by omega) hb1
    refine ⟨h1, fun k m hk hm => ?_⟩
    rw [h2 k m hk hm]
    by_cases hki : k = i0
    · subst hki
      rw [if_neg (by omega), if_pos (by omega), hb2 m hm]
    · rw [hb3 k m hk hm hki]
      by_cases h : i0 + 1 ≤ k ∧ k < i0 + 1 + n
      · rw [if_pos h, if_pos (by omega)]
      · rw [if_neg h, if_neg (by omega)]

/-- Closed form of the entries left by `s_update_dlnActCoeff_dlnN`. -/
theorem dlnActCoeffdlnN_entry (index2D : Nat → Nat → Nat) (R : K)
    (self : MixedSolventElectrolyte K)
    (hlay : Array2DLayout index2D self.m_kk self.dlnActCoeffdlnN_.length)
    (k m : Nat) (hk : k < self.m_kk) (hm : m < self.m_kk) :
    rd (self.s_update_dlnActCoeff_dlnN index2D R).dlnActCoeffdlnN_ (index2D k m)
      = rd self.moleFractions_ m * dlnNSum R self k m := by
  obtain ⟨hin, hinj⟩ := hlay
  unfold MixedSolventElectrolyte.s_update_dlnActCoeff_dlnN
  simp only
  have hrow : ∀ iK (l : List K), iK < self.m_kk → l.length = self.dlnActCoeffdlnN_.length →
      (fun iM (data : List K) =>
          (forLoop
              (fun i data =>
                (data.set (index2D iK iM)
                    (rd data (index2D iK iM)
                      + dlnNTerm1 self self.temperature (R * self.temperature) iK iM i)).set
                  (index2D iK iM)
                  (rd (data.set (index2D iK iM)
                      (rd data (index2D iK iM)
                        + dlnNTerm1 self self.temperature (R * self.temperature) iK iM i))
                      (index2D iK iM)
                    + dlnNTerm2 self self.temperature (R * self.temperature) iK iM i))
              self.numBinaryInteractions_ 0 data).set (index2D iK iM)
            (rd self.moleFractions_ iM *
              rd (forLoop
                (fun i data =>
                  (data.set (index2D iK iM)
                      (rd data (index2D iK iM)
                        + dlnNTerm1 self self.temperature (R * self.temperature) iK iM i)).set
                    (index2D iK iM)
                    (rd (data.set (index2D iK iM)
                        (rd data (index2D iK iM)
                          + dlnNTerm1 self self.temperature (R * self.temperature) iK iM i))
                        (index2D iK iM)
                      + dlnNTerm2 self self.temperature (R * self.temperature) iK iM i))
                self.numBinaryInteractions_ 0 data) (index2D iK iM))) =
      fun iM (data : List K) =>
        (forLoop
            (fun i data => data.set (index2D iK iM) (rd data (index2D iK iM)
              + (dlnNTerm1 self self.temperature (R * self.temperature) iK iM i
                + dlnNTerm2 self self.temperature (R * self.temperature) iK iM i)))
            self.numBinaryInteractions_ 0 data).set (index2D iK iM)
          (rd self.moleFractions_ iM *
            rd (forLoop
              (fun i data => data.set (index2D iK iM) (rd data (index2D iK iM)
                + (dlnNTerm1 self self.temperature (R * self.temperature) iK iM i
                  + dlnNTerm2 self self.temperature (R * self.temperature) iK iM i)))
              self.numBinaryInteractions_ 0 data) (index2D iK iM)) := by
    intro iK l _ _
    funext iM data
    simp only [set_set_accum]
  have hcells : ∀ iK (l : List K), iK < self.m_kk → l.length = self.dlnActCoeffdlnN_.length →
      ∀ iM (data : List K), iM < self.m_kk → data.length = self.dlnActCoeffdlnN_.length →
        (forLoop
            (fun i data => data.set (index2D iK iM) (rd data (index2D iK iM)
              + (dlnNTerm1 self self.temperature (R * self.temperature) iK iM i
                + dlnNTerm2 self self.temperature (R * self.temperature) iK iM i)))
            self.numBinaryInteractions_ 0 data).set (index2D iK iM)
          (rd self.moleFractions_ iM *
            rd (forLoop
              (fun i data => data.set (index2D iK iM) (rd data (index2D iK iM)
                + (dlnNTerm1 self self.temperature (R * self.temperature) iK iM i
                  + dlnNTerm2 self self.temperature (R * self.temperature) iK iM i)))
              self.numBinaryInteractions_ 0 data) (index2D iK iM))
        = data.set (index2D iK iM)
            (rd self.moleFractions_ iM * (rd data (index2D iK iM) + dlnNSum R self iK iM)) := by
    intro iK l hiK _ iM data hiM hdata
    rw [forLoop_accum, set_set_scale _ _ _ _ (by rw [hdata]; exact hin iK iM hiK hiM)]
    simp only [Nat.zero_add]
    rfl
  have hmain := forLoop_rows index2D self.m_kk self.dlnActCoeffdlnN_.length
    (fun iK iM v => rd self.moleFractions_ iM * (v + dlnNSum R self iK iM))
    (fun iK data =>
      forLoop
        (fun iM data =>
          (forLoop
              (fun i data =>
                (data.set (index2D iK iM)
                    (rd data (index2D iK iM)
                      + dlnNTerm1 self self.temperature (R * self.temperature) iK iM i)).set
                  (index2D iK iM)
                  (rd (data.set (index2D iK iM)
                      (rd data (index2D iK iM)
                        + dlnNTerm1 self self.temperature (R * self.temperature) iK iM i))
                      (index2D iK iM)
                    + dlnNTerm2 self self.temperature (R * self.temperature) iK iM i))
              self.numBinaryInteractions_ 0 data).set (index2D iK iM)
            (rd self.moleFractions_ iM *
              rd (forLoop
                (fun i data =>
                  (data.set (index2D iK iM)
                      (rd data (index2D iK iM)
                        + dlnNTerm1 self self.temperature (R * self.temperature) iK iM i)).set
                    (index2D iK iM)
                    (rd (data.set (index2D iK iM)
                        (rd data (index2D iK iM)
                          + dlnNTerm1 self self.temperature (R * self.temperature) iK iM i))
                        (index2D iK iM)
                      + dlnNTerm2 self self.temperature (R * self.temperature) iK iM i))
                self.numBinaryInteractions_ 0 data) (index2D iK iM)))
        self.m_kk 0 data)
    (by
      intro iK l hiK hl
      simp only
      rw [hrow iK l hiK hl]
      obtain ⟨c1, c2, c3⟩ := forLoop_cells (index2D iK)
        (fun iM v => rd self.moleFractions_ iM * (v + dlnNSum R self iK iM))
        _ self.dlnActCoeffdlnN_.length self.m_kk
        (fun iM data hiM hdata => hcells iK l hiK hl iM data hiM hdata)
        (fun j j' hj hj' heq => (hinj iK j iK j' hiK hj hiK hj' heq).2)
        (fun j hj => hin iK j hiK hj)
        self.m_kk 0 l (by omega) hl
      refine ⟨c1, fun m hm => c2 m (Nat.zero_le _) (by omega), fun k' m hk' hm hne => ?_⟩
      exact c3 _ (fun j _ hj heq => hne (hinj iK j k' m hiK (by omega) hk' hm heq).1.symm))
    self.m_kk 0 (List.replicate self.dlnActCoeffdlnN_.length 0) (by omega) (by simp)
  have hfin := hmain.2 k m hk hm
  rw [if_pos ⟨Nat.zero_le _, by omega⟩] at hfin
  simp only [rd_replicate_zero, zero_add] at hfin
  exact hfin

/-- Closed form of the entries left by `s_update_dlnActCoeff_dlnN_diag`. -/
theorem dlnActCoeffdlnN_diag_value (R : K) (self : MixedSolventElectrolyte K)
    (k : Nat) (hk : k < self.m_kk) :
    rd (self.s_update_dlnActCoeff_dlnN_diag R).dlnActCoeffdlnN_diag_ k
      = rd self.moleFractions_ k
        * Finset.sum (Finset.range self.numBinaryInteractions_) (fun i =>
            dlnNDiagTerm self self.temperature (R * self.temperature) k i) := by
  unfold MixedSolventElectrolyte.s_update_dlnActCoeff_dlnN_diag
  simp only
  obtain ⟨-, c2, -⟩ := forLoop_cells (fun j => j)
    (fun iK v => rd self.moleFractions_ iK
      * (v + Finset.sum (Finset.range self.numBinaryInteractions_) (fun i =>
          dlnNDiagTerm self self.temperature (R * self.temperature) iK i)))
    (fun iK diag =>
      (forLoop (fun i diag => diag.set iK
          (rd diag iK + dlnNDiagTerm self self.temperature (R * self.temperature) iK i))
        self.numBinaryInteractions_ 0 diag).set iK
        (rd self.moleFractions_ iK *
          rd (forLoop (fun i diag => diag.set iK
              (rd diag iK + dlnNDiagTerm self self.temperature (R * self.temperature) iK i))
            self.numBinaryInteractions_ 0 diag) iK))
    self.m_kk self.m_kk
    (by
      intro j l hj hl
      simp only
      rw [forLoop_accum, set_set_scale _ _ _ _ (by omega)]
      simp only [Nat.zero_add])
    (fun j j' _ _ h => h) (fun j hj => hj)
    self.m_kk 0 (List.replicate self.m_kk 0) (by omega) (by simp)
  have hfin := c2 k (Nat.zero_le _) (by omega)
  simp only [rd_replicate_zero, zero_add] at hfin
  exact hfin

theorem dlnNDiagTerm_eq (self : MixedSolventElectrolyte K) (T RT : K) (k i : Nat) :
    dlnNDiagTerm self T RT k i = dlnNTerm1 self T RT k k i + dlnNTerm2 self T RT k k i := by
  unfold dlnNDiagTerm dlnNTerm1 dlnNTerm2
  by_cases hA : rd self.m_pSpecies_A_ij i = k
  · simp only [hA, if_true, Int.cast_one, Int.cast_zero]
    norm_num
    ring
  · by_cases hB : rd self.m_pSpecies_B_ij i = k
    · simp only [hA, hB, if_true, if_false, Int.cast_one, Int.cast_zero]
      norm_num
      ring
    · simp only [hA, hB, if_false, Int.cast_zero]
      norm_num
      ring

theorem sum_indicator (X : Nat → K) (N a : Nat) (ha : a < N) :
    Finset.sum (Finset.range N) (fun m => X m * (if a = m then (1 : K) else 0)) = X a := by
  simp only [mul_ite, mul_one, mul_zero]
  rw [Finset.sum_ite_eq (Finset.range N) a X, if_pos (Finset.mem_range.mpr ha)]

/-- With mole fractions summing to 1 and `A_i ≠ B_i`, the values that record `i` adds to the
entries of a row, weighted with `X_m`, cancel. -/
theorem dlnNTerm_row_sum (R : K) (self : MixedSolventElectrolyte K) (k i : Nat)
    (hX : Finset.sum (Finset.range self.m_kk) (fun j => rd self.moleFractions_ j) = 1)
    (hAB : rd self.m_pSpecies_A_ij i ≠ rd self.m_pSpecies_B_ij i)
    (hA : rd self.m_pSpecies_A_ij i < self.m_kk)
    (hB : rd self.m_pSpecies_B_ij i < self.m_kk) :
    Finset.sum (Finset.range self.m_kk) (fun m =>
      rd self.moleFractions_ m
        * (dlnNTerm1 self self.temperature (R * self.temperature) k m i
          + dlnNTerm2 self self.temperature (R * self.temperature) k m i)) = 0 := by
  have hone : (1.0 : K) = 1 := by norm_num
  have hzero : (0.0 : K) = 0 := by norm_num
  have hBM : ∀ m, (if rd self.m_pSpecies_A_ij i = m then (0 : K)
      else if rd self.m_pSpecies_B_ij i = m then 1 else 0)
      = if rd self.m_pSpecies_B_ij i = m then 1 else 0 := by
    intro m
    by_cases h1 : rd self.m_pSpecies_A_ij i = m
    · have h2 : ¬ rd self.m_pSpecies_B_ij i = m := fun h => hAB (h1.trans h.symm)
      rw [if_pos h1, if_neg h2]
    · rw [if_neg h1]
  have hterm : ∀ m,
      rd self.moleFractions_ m
        * (dlnNTerm1 self self.temperature (R * self.temperature) k m i
          + dlnNTerm2 self self.temperature (R * self.temperature) k m i)
      = (dlnNTerm1 self self.temperature (R * self.temperature) k
            (rd self.m_pSpecies_A_ij i) i
          + dlnNTerm2 self self.temperature (R * self.temperature) k
            (rd self.m_pSpecies_A_ij i) i
          - (dlnNTerm1 self self.temperature (R * self.temperature) k self.m_kk i
            + dlnNTerm2 self self.temperature (R * self.temperature) k self.m_kk i))
          * (rd self.moleFractions_ m * (if rd self.m_pSpecies_A_ij i = m then (1 : K) else 0))
        + (dlnNTerm1 self self.temperature (R * self.temperature) k
            (rd self.m_pSpecies_B_ij i) i
          + dlnNTerm2 self self.temperature (R * self.temperature) k
            (rd self.m_pSpecies_B_ij i) i
          - (dlnNTerm1 self self.temperature (R * self.temperature) k self.m_kk i
            + dlnNTerm2 self self.temperature (R * self.temperature) k self.m_kk i))
          * (rd self.moleFractions_ m * (if rd self.m_pSpecies_B_ij i = m then (1 : K) else 0))
        + (dlnNTerm1 self self.temperature (R * self.temperature) k self.m_kk i
            + dlnNTerm2 self self.temperature (R * self.temperature) k self.m_kk i)
          * rd self.moleFractions_ m := by
    intro m
    have hA' : ¬ rd self.m_pSpecies_A_ij i = self.m_kk := by omega
    have hB' : ¬ rd self.m_pSpecies_B_ij i = self.m_kk := by omega
    have hBA : ¬ rd self.m_pSpecies_B_ij i = rd self.m_pSpecies_A_ij i := fun h => hAB h.symm
    unfold dlnNTerm1 dlnNTerm2
    simp only [hone, hzero, hBM, hA', hB', hBA, if_false, if_true, eq_self_iff_true]
    by_cases h1 : rd self.m_pSpecies_A_ij i = m
    · have h2 : ¬ rd self.m_pSpecies_B_ij i = m := fun h => hAB (h1.trans h.symm)
      simp only [h1, h2, if_true, if_false]
      ring
    · by_cases h2 : rd self.m_pSpecies_B_ij i = m
      · simp only [h1, h2, if_true, if_false]
        ring
      · simp only [h1, h2, if_false]
        ring
  rw [Finset.sum_congr rfl (fun m _ => hterm m), Finset.sum_add_distrib,
    Finset.sum_add_distrib, ← Finset.mul_sum, ← Finset.mul_sum, ← Finset.mul_sum,
    sum_indicator _ _ _ hA, sum_indicator _ _ _ hB, hX]
  have hA' : ¬ rd self.m_pSpecies_A_ij i = self.m_kk := by omega
  have hB' : ¬ rd self.m_pSpecies_B_ij i = self.m_kk := by omega
  have hBA : ¬ rd self.m_pSpecies_B_ij i = rd self.m_pSpecies_A_ij i := fun h => hAB h.symm
  unfold dlnNTerm1 dlnNTerm2
  simp only [hone, hzero, hA', hB', hBA, hAB, if_false, if_true, eq_self_iff_true]
  by_cases h1 : rd self.m_pSpecies_A_ij i = k
  · simp only [h1, if_true]
    ring
  · by_cases h2 : rd self.m_pSpecies_B_ij i = k
    · simp only [h1, h2, if_true, if_false]
      ring
    · simp only [h1, h2, if_false]
      ring

/-- C30. For every list of interaction records, composition, temperature and species
`k < m_kk`, the entry `dlnActCoeffdlnN_diag[k]` left by `s_update_dlnActCoeff_dlnN_diag`
equals the diagonal entry `dlnActCoeffdlnN(k, k)` left by `s_update_dlnActCoeff_dlnN`,
for any two-dimensional store that keeps the `m_kk` by `m_kk` entries in different places of
its data vector. -/
theorem C30_diag_is_diagonal_entry (index2D : Nat → Nat → Nat) (R : K)
    (self : MixedSolventElectrolyte K)
    (hlay : Array2DLayout index2D self.m_kk self.dlnActCoeffdlnN_.length)
    (k : Nat) (hk : k < self.m_kk) :
    rd (self.s_update_dlnActCoeff_dlnN_diag R).dlnActCoeffdlnN_diag_ k
      = rd (self.s_update_dlnActCoeff_dlnN index2D R).dlnActCoeffdlnN_ (index2D k k) := by
  rw [dlnActCoeffdlnN_diag_value R self k hk, dlnActCoeffdlnN_entry index2D R self hlay k k hk hk]
  unfold dlnNSum
  rw [Finset.sum_congr rfl (fun i _ =>
    dlnNDiagTerm_eq self self.temperature (R * self.temperature) k i)]

theorem columnMajor_layout (n : Nat) : Array2DLayout (columnMajor n) n (n * n) := by
  constructor
  · intro i j hi hj
    unfold columnMajor
    calc n * j + i < n * j + n := by omega
      _ = n * (j + 1) := by ring
      _ ≤ n * n := Nat.mul_le_mul_left n (by omega)
  · intro i j i' j' hi hj hi' hj' h
    unfold columnMajor at h
    have hj2 : j = j' := by
      rcases Nat.lt_trichotomy j j' with hlt | heq | hgt
      · exfalso
        have : n * (j + 1) ≤ n * j' := Nat.mul_le_mul_left n (by omega)
        have e : n * (j + 1) = n * j + n := by ring
        omega
      · exact heq
      · exfalso
        have : n * (j' + 1) ≤ n * j := Nat.mul_le_mul_left n (by omega)
        have e : n * (j' + 1) = n * j' + n := by ring
        omega
    subst hj2
    exact ⟨by omega, rfl⟩

/-- C30, instance: species 1 of `samplePhase2` with a column-major 3 by 3 store. -/
theorem C30_diag_is_diagonal_entry_witness :
    rd ((samplePhase2 : MixedSolventElectrolyte ℚ).s_update_dlnActCoeff_dlnN_diag
        1).dlnActCoeffdlnN_diag_ 1
      = rd ((samplePhase2 : MixedSolventElectrolyte ℚ).s_update_dlnActCoeff_dlnN
          (columnMajor 3) 1).dlnActCoeffdlnN_ (columnMajor 3 1 1) :=
  C30_diag_is_diagonal_entry (columnMajor 3) (1 : ℚ) samplePhase2 (columnMajor_layout 3) 1
    (by decide)

/-- C24. For every composition whose mole fractions sum to 1, every list of records with
`A_i ≠ B_i` (both species of the phase) and every species `k < m_kk`, row `k` of the matrix
left by `s_update_dlnActCoeff_dlnN` sums to zero over `m`, and the sum of its off-diagonal
entries is minus the entry `dlnActCoeffdlnN_diag[k]` left by
`s_update_dlnActCoeff_dlnN_diag`. -/
theorem C24_row_sum_zero (index2D : Nat → Nat → Nat) (R : K)
    (self : MixedSolventElectrolyte K)
    (hlay : Array2DLayout index2D self.m_kk self.dlnActCoeffdlnN_.length)
    (hX : Finset.sum (Finset.range self.m_kk) (fun j => rd self.moleFractions_ j) = 1)
    (hAB : ∀ i, i < self.numBinaryInteractions_ →
      rd self.m_pSpecies_A_ij i ≠ rd self.m_pSpecies_B_ij i)
    (hA : ∀ i, i < self.numBinaryInteractions_ → rd self.m_pSpecies_A_ij i < self.m_kk)
    (hB : ∀ i, i < self.numBinaryInteractions_ → rd self.m_pSpecies_B_ij i < self.m_kk)
    (k : Nat) (hk : k < self.m_kk) :
    Finset.sum (Finset.range self.m_kk) (fun m =>
      rd (self.s_update_dlnActCoeff_dlnN index2D R).dlnActCoeffdlnN_ (index2D k m)) = 0 ∧
    Finset.sum ((Finset.range self.m_kk).erase k) (fun m =>
      rd (self.s_update_dlnActCoeff_dlnN index2D R).dlnActCoeffdlnN_ (index2D k m))
      = -rd (self.s_update_dlnActCoeff_dlnN_diag R).dlnActCoeffdlnN_diag_ k := by
  have hrow : Finset.sum (Finset.range self.m_kk) (fun m =>
      rd (self.s_update_dlnActCoeff_dlnN index2D R).dlnActCoeffdlnN_ (index2D k m)) = 0 := by
    rw [Finset.sum_congr rfl (fun m hm =>
      dlnActCoeffdlnN_entry index2D R self hlay k m hk (Finset.mem_range.mp hm))]
    unfold dlnNSum
    simp only [Finset.mul_sum]
    rw [Finset.sum_comm]
    apply Finset.sum_eq_zero
    intro i hi
    have hi' := Finset.mem_range.mp hi
    exact dlnNTerm_row_sum R self k i hX (hAB i hi') (hA i hi') (hB i hi')
  refine ⟨hrow, ?_⟩
  rw [Finset.sum_erase_eq_sub (Finset.mem_range.mpr hk), hrow, zero_sub,
    dlnActCoeffdlnN_diag_value R self k hk,
    dlnActCoeffdlnN_entry index2D R self hlay k k hk hk]
  unfold dlnNSum
  rw [Finset.sum_congr rfl (fun i _ =>
    dlnNDiagTerm_eq self self.temperature (R * self.temperature) k i)]

/-- C24, instance: row 0 of `samplePhase2` (mole fractions 0.2, 0.3, 0.5) with a
column-major 3 by 3 store. -/
theorem C24_row_sum_zero_witness :
    Finset.sum (Finset.range (samplePhase2 : MixedSolventElectrolyte ℚ).m_kk) (fun m =>
      rd ((samplePhase2 : MixedSolventElectrolyte ℚ).s_update_dlnActCoeff_dlnN
        (columnMajor 3) 1).dlnActCoeffdlnN_ (columnMajor 3 0 m)) = 0 ∧
    Finset.sum ((Finset.range (samplePhase2 : MixedSolventElectrolyte ℚ).m_kk).erase 0)
      (fun m =>
        rd ((samplePhase2 : MixedSolventElectrolyte ℚ).s_update_dlnActCoeff_dlnN
          (columnMajor 3) 1).dlnActCoeffdlnN_ (columnMajor 3 0 m))
      = -rd ((samplePhase2 : MixedSolventElectrolyte ℚ).s_update_dlnActCoeff_dlnN_diag
          1).dlnActCoeffdlnN_diag_ 0 :=
  C24_row_sum_zero (columnMajor 3) (1 : ℚ) samplePhase2 (columnMajor_layout 3)
    (by norm_num [samplePhase2, MixedSolventElectrolyte.blank, rd, Finset.sum_range_succ])
    (by
      intro i hi
      have hi' : i < 2 := hi
      interval_cases i <;> simp [samplePhase2, rd])
    (by
      intro i hi
      have hi' : i < 2 := hi
      interval_cases i <;> simp [samplePhase2, MixedSolventElectrolyte.blank, rd])
    (by
      intro i hi
      have hi' : i < 2 := hi
      interval_cases i <;> simp [samplePhase2, MixedSolventElectrolyte.blank, rd])
    0 (by decide)

end Jacobian

/-! ## MixedSolventElectrolyte: the Jacobian as a derivative -/

section LogDerivative
variable [LinearOrderedField K]

theorem rd_moleFractionsOf (kk : Nat) (n : Nat → K) (j : Nat) (hj : j < kk) :
    rd (moleFractionsOf kk n) j = n j / Finset.sum (Finset.range kk) (fun i => n i) := by
  simp [rd, List.getD, moleFractionsOf, List.getElem?_map, List.getElem?_range, hj]

theorem length_moleFractionsOf (kk : Nat) (n : Nat → K) :
    (moleFractionsOf kk n).length = kk := by
  simp [moleFractionsOf]

/-- Under `A_i ≠ B_i` the two values added for record `i` to the entry `(k, m)` are the
partial derivatives of the summand of `lnActCoeff[k]` weighted with `delta - X`. -/
theorem dlnNTerm_split (R : K) (self : MixedSolventElectrolyte K) (k m i : Nat)
    (hAB : rd self.m_pSpecies_A_ij i ≠ rd self.m_pSpecies_B_ij i) :
    dlnNTerm1 self self.temperature (R * self.temperature) k m i
      + dlnNTerm2 self self.temperature (R * self.temperature) k m i
      = margulesTermDA (kron k (rd self.m_pSpecies_B_ij i)) (XBAt self i)
            (g0At R self i) (g1At R self i)
          * (kron (rd self.m_pSpecies_A_ij i) m - XAAt self i)
        + margulesTermDB (kron k (rd self.m_pSpecies_A_ij i))
            (kron k (rd self.m_pSpecies_B_ij i)) (XAAt self i) (XBAt self i)
            (g0At R self i) (g1At R self i)
          * (kron (rd self.m_pSpecies_B_ij i) m - XBAt self i) := by
  have hone : (1.0 : K) = 1 := by norm_num
  have hzero : (0.0 : K) = 0 := by norm_num
  have hd : ∀ q, (if rd self.m_pSpecies_A_ij i = q then (0 : K)
      else if rd self.m_pSpecies_B_ij i = q then 1 else 0)
      = kron (rd self.m_pSpecies_B_ij i) q := by
    intro q
    unfold kron
    by_cases h1 : rd self.m_pSpecies_A_ij i = q
    · have h2 : ¬ rd self.m_pSpecies_B_ij i = q := fun h => hAB (h1.trans h.symm)
      rw [if_pos h1, if_neg h2]
    · rw [if_neg h1]
  have hs : ∀ a q : Nat, kron q a = (kron a q : K) := by
    intro a q
    unfold kron
    by_cases h : a = q
    · rw [if_pos h, if_pos h.symm]
    · rw [if_neg h, if_neg (fun h' => h h'.symm)]
  have ha : ∀ q, (if rd self.m_pSpecies_A_ij i = q then (1 : K) else 0)
      = kron (rd self.m_pSpecies_A_ij i) q := fun q => rfl
  unfold dlnNTerm1 dlnNTerm2 margulesTermDA margulesTermDB
  simp only [hone, hzero, hd, ha, hs k, XAAt, XBAt, g0At, g1At]
  ring

end LogDerivative

section LogDerivativeReal

theorem hasDerivAt_margulesTerm (dA dB g0 g1 : ℝ) (fA fB : ℝ → ℝ) (a' b' t0 : ℝ)
    (hA : HasDerivAt fA a' t0) (hB : HasDerivAt fB b' t0) :
    HasDerivAt (fun t => margulesTerm dA dB (fA t) (fB t) g0 g1)
      (margulesTermDA dB (fB t0) g0 g1 * a'
        + margulesTermDB dA dB (fA t0) (fB t0) g0 g1 * b') t0 := by
  have h1 : HasDerivAt (fun t => dA * fB t + fA t * dB - fA t * fB t)
      (dA * b' + a' * dB - (a' * fB t0 + fA t0 * b')) t0 :=
    ((hB.const_mul dA).add (hA.mul_const dB)).sub (hA.mul hB)
  have h2 : HasDerivAt (fun t => g0 + g1 * fB t) (g1 * b') t0 :=
    (hB.const_mul g1).const_add g0
  have h3 : HasDerivAt (fun t => fA t * fB t * (dB - fB t) * g1)
      (((a' * fB t0 + fA t0 * b') * (dB - fB t0) + fA t0 * fB t0 * (-b')) * g1) t0 :=
    ((hA.mul hB).mul (hB.const_sub dB)).mul_const g1
  have h := (h1.mul h2).add h3
  unfold margulesTerm
  convert h using 1
  unfold margulesTermDA margulesTermDB
  ring

/-- The derivative of `lnActCoeff[k]`, as computed by `s_update_lnActCoeff`, along a curve of
compositions. -/
theorem hasDerivAt_lnActCoeff_along (R : ℝ) (self : MixedSolventElectrolyte ℝ)
    (Y : ℝ → List ℝ) (Y' : Nat → ℝ) (t0 : ℝ)
    (hY : ∀ j, j < self.m_kk → HasDerivAt (fun t => rd (Y t) j) (Y' j) t0)
    (hY0 : ∀ j, j < self.m_kk → rd (Y t0) j = rd self.moleFractions_ j)
    (hAB : ∀ i, i < self.numBinaryInteractions_ →
      rd self.m_pSpecies_A_ij i ≠ rd self.m_pSpecies_B_ij i)
    (hA : ∀ i, i < self.numBinaryInteractions_ → rd self.m_pSpecies_A_ij i < self.m_kk)
    (hB : ∀ i, i < self.numBinaryInteractions_ → rd self.m_pSpecies_B_ij i < self.m_kk)
    (k : Nat) (hk : k < self.m_kk) :
    HasDerivAt
      (fun t => rd (({ self with moleFractions_ := Y t } :
        MixedSolventElectrolyte ℝ).s_update_lnActCoeff R).lnActCoeff_Scaled_ k)
      (Finset.sum (Finset.range self.numBinaryInteractions_) (fun i =>
        margulesTermDA (kron k (rd self.m_pSpecies_B_ij i)) (XBAt self i)
            (g0At R self i) (g1At R self i) * Y' (rd self.m_pSpecies_A_ij i)
        + margulesTermDB (kron k (rd self.m_pSpecies_A_ij i))
            (kron k (rd self.m_pSpecies_B_ij i)) (XAAt self i) (XBAt self i)
            (g0At R self i) (g1At R self i) * Y' (rd self.m_pSpecies_B_ij i))) t0 := by
  have hF : (fun t => rd (({ self with moleFractions_ := Y t } :
        MixedSolventElectrolyte ℝ).s_update_lnActCoeff R).lnActCoeff_Scaled_ k)
      = fun t => Finset.sum (Finset.range self.numBinaryInteractions_) (fun i =>
          margulesTerm (kron k (rd self.m_pSpecies_A_ij i)) (kron k (rd self.m_pSpecies_B_ij i))
            (rd (Y t) (rd self.m_pSpecies_A_ij i)) (rd (Y t) (rd self.m_pSpecies_B_ij i))
            (g0At R self i) (g1At R self i)) := by
    funext t
    rw [lnActCoeff_sum R { self with moleFractions_ := Y t } k hk]
    apply Finset.sum_congr rfl
    intro i hi
    exact lnActCoeffTerm_distinct R { self with moleFractions_ := Y t } k i
      (hAB i (Finset.mem_range.mp hi))
  rw [hF]
  apply HasDerivAt.sum
  intro i hi
  have hi' := Finset.mem_range.mp hi
  have h := hasDerivAt_margulesTerm (kron k (rd self.m_pSpecies_A_ij i))
    (kron k (rd self.m_pSpecies_B_ij i)) (g0At R self i) (g1At R self i)
    (fun t => rd (Y t) (rd self.m_pSpecies_A_ij i))
    (fun t => rd (Y t) (rd self.m_pSpecies_B_ij i)) _ _ t0
    (hY _ (hA i hi')) (hY _ (hB i hi'))
  simp only [hY0 _ (hA i hi'), hY0 _ (hB i hi')] at h
  exact h

end LogDerivativeReal

section LogDerivativeClaim

theorem sum_kron (f : Nat → ℝ) (N a : Nat) (ha : a < N) :
    Finset.sum (Finset.range N) (fun j => kron a j * f j) = f a := by
  unfold kron
  simp only [ite_mul, one_mul, zero_mul]
  rw [Finset.sum_ite_eq (Finset.range N) a f, if_pos (Finset.mem_range.mpr ha)]

theorem hasDerivAt_rd_set (X : List ℝ) (j q : Nat) (hj : j < X.length) (x0 : ℝ) :
    HasDerivAt (fun x => rd (X.set j x) q) (kron q j) x0 := by
  unfold kron
  by_cases h : q = j
  · subst h
    rw [if_pos rfl]
    have : (fun x => rd (X.set q x) q) = fun x => x := by
      funext x
      exact rd_set_eq X q x hj
    rw [this]
    exact hasDerivAt_id x0
  · rw [if_neg h]
    have : (fun x => rd (X.set j x) q) = fun _ => rd X q := by
      funext x
      exact rd_set_ne X j q x (fun h' => h h'.symm)
    rw [this]
    exact hasDerivAt_const x0 _

theorem hasDerivAt_moleFraction (kk : Nat) (n : Nat → ℝ) (m j : Nat) (hm : m < kk)
    (hj : j < kk) (hN : Finset.sum (Finset.range kk) (fun i => n i) ≠ 0) :
    HasDerivAt (fun t => rd (moleFractionsOf kk (Function.update n m t)) j)
      ((kron j m - n j / Finset.sum (Finset.range kk) (fun i => n i))
        / Finset.sum (Finset.range kk) (fun i => n i)) (n m) := by
  have hsum : ∀ t, Finset.sum (Finset.range kk) (fun i => Function.update n m t i)
      = t + (Finset.sum (Finset.range kk) (fun i => n i) - n m) := by
    intro t
    rw [Finset.sum_update_of_mem (Finset.mem_range.mpr hm),
      Finset.sum_sdiff_eq_sub (Finset.singleton_subset_iff.mpr (Finset.mem_range.mpr hm)),
      Finset.sum_singleton]
  have hF : (fun t => rd (moleFractionsOf kk (Function.update n m t)) j)
      = fun t => (if j = m then t else n j)
          / (t + (Finset.sum (Finset.range kk) (fun i => n i) - n m)) := by
    funext t
    rw [rd_moleFractionsOf kk _ j hj, hsum t]
    by_cases h : j = m
    · rw [if_pos h, h, Function.update_same]
    · rw [if_neg h, Function.update_noteq h]
  rw [hF]
  have hden : HasDerivAt
      (fun t : ℝ => t + (Finset.sum (Finset.range kk) (fun i => n i) - n m)) 1 (n m) :=
    (hasDerivAt_id (n m)).add_const _
  have hden0 : n m + (Finset.sum (Finset.range kk) (fun i => n i) - n m) ≠ 0 := by
    have : n m + (Finset.sum (Finset.range kk) (fun i => n i) - n m)
        = Finset.sum (Finset.range kk) (fun i => n i) := by ring
    rw [this]
    exact hN
  have e : n m + (Finset.sum (Finset.range kk) (fun i => n i) - n m)
      = Finset.sum (Finset.range kk) (fun i => n i) := by ring
  unfold kron
  by_cases h : j = m
  · simp only [h, if_true]
    have h1 := (hasDerivAt_id (n m)).div hden hden0
    rw [e] at h1
    convert h1 using 1
    simp only [id]
    rw [div_eq_div_iff hN (pow_ne_zero 2 hN), sub_mul, div_mul_eq_mul_div,
      mul_div_assoc, pow_two, mul_div_assoc, div_self hN]
    ring
  · simp only [h, if_false]
    have h1 := (hasDerivAt_const (n m) (n j)).div hden hden0
    rw [e] at h1
    convert h1 using 1
    rw [div_eq_div_iff hN (pow_ne_zero 2 hN), sub_mul, div_mul_eq_mul_div,
      mul_div_assoc, pow_two, mul_div_assoc, div_self hN]
    ring

/-- C29. For every list of records with `A_i ≠ B_i` (both species of the phase), every
composition `x_j = n_j / sum n` with all `n_j > 0` and every pair `k, m < m_kk`, the entry
`dlnActCoeffdlnN(k, m)` left by `s_update_dlnActCoeff_dlnN` is the derivative of
`lnActCoeff[k]`, as computed by `s_update_lnActCoeff` from the mole fractions of the mole
numbers, with respect to `ln(n_m)`; and it equals
`X_m * sum over j of (d lnActCoeff[k] / d X_j) * (delta_jm - X_j)`, the partial derivatives
taken of `lnActCoeff[k]` as computed by `s_update_lnActCoeff` from independent mole
fractions. -/
theorem C29_entry_is_log_derivative (index2D : Nat → Nat → Nat) (R : ℝ)
    (self : MixedSolventElectrolyte ℝ) (n : Nat → ℝ)
    (hlay : Array2DLayout index2D self.m_kk self.dlnActCoeffdlnN_.length)
    (hn : ∀ j, j < self.m_kk → 0 < n j)
    (hX : self.moleFractions_ = moleFractionsOf self.m_kk n)
    (hAB : ∀ i, i < self.numBinaryInteractions_ →
      rd self.m_pSpecies_A_ij i ≠ rd self.m_pSpecies_B_ij i)
    (hA : ∀ i, i < self.numBinaryInteractions_ → rd self.m_pSpecies_A_ij i < self.m_kk)
    (hB : ∀ i, i < self.numBinaryInteractions_ → rd self.m_pSpecies_B_ij i < self.m_kk)
    (k m : Nat) (hk : k < self.m_kk) (hm : m < self.m_kk) :
    HasDerivAt
      (fun u => rd (({ self with
          moleFractions_ := moleFractionsOf self.m_kk (Function.update n m (Real.exp u)) } :
        MixedSolventElectrolyte ℝ).s_update_lnActCoeff R).lnActCoeff_Scaled_ k)
      (rd (self.s_update_dlnActCoeff_dlnN index2D R).dlnActCoeffdlnN_ (index2D k m))
      (Real.log (n m)) ∧
    ∃ D : Nat → ℝ,
      (∀ j, j < self.m_kk →
        HasDerivAt
          (fun x => rd (({ self with moleFractions_ := self.moleFractions_.set j x } :
            MixedSolventElectrolyte ℝ).s_update_lnActCoeff R).lnActCoeff_Scaled_ k)
          (D j) (rd self.moleFractions_ j)) ∧
      rd (self.s_update_dlnActCoeff_dlnN index2D R).dlnActCoeffdlnN_ (index2D k m)
        = rd self.moleFractions_ m
          * Finset.sum (Finset.range self.m_kk) (fun j =>
              D j * (kron j m - rd self.moleFractions_ j)) := by
  have hNpos : 0 < Finset.sum (Finset.range self.m_kk) (fun i => n i) :=
    Finset.sum_pos (fun i hi => hn i (Finset.mem_range.mp hi)) ⟨m, Finset.mem_range.mpr hm⟩
  have hN : Finset.sum (Finset.range self.m_kk) (fun i => n i) ≠ 0 := ne_of_gt hNpos
  have hXj : ∀ j, j < self.m_kk →
      rd self.moleFractions_ j = n j / Finset.sum (Finset.range self.m_kk) (fun i => n i) := by
    intro j hj
    rw [hX, rd_moleFractionsOf _ _ j hj]
  have hlen : self.moleFractions_.length = self.m_kk := by
    rw [hX, length_moleFractionsOf]
  have hentry := dlnActCoeffdlnN_entry index2D R self hlay k m hk hm
  have hsplit : dlnNSum R self k m
      = Finset.sum (Finset.range self.numBinaryInteractions_) (fun i =>
          margulesTermDA (kron k (rd self.m_pSpecies_B_ij i)) (XBAt self i)
              (g0At R self i) (g1At R self i)
            * (kron (rd self.m_pSpecies_A_ij i) m - XAAt self i)
          + margulesTermDB (kron k (rd self.m_pSpecies_A_ij i))
              (kron k (rd self.m_pSpecies_B_ij i)) (XAAt self i) (XBAt self i)
              (g0At R self i) (g1At R self i)
            * (kron (rd self.m_pSpecies_B_ij i) m - XBAt self i)) := by
    unfold dlnNSum
    exact Finset.sum_congr rfl (fun i hi =>
      dlnNTerm_split R self k m i (hAB i (Finset.mem_range.mp hi)))
  constructor
  · have hG := hasDerivAt_lnActCoeff_along R self
      (fun t => moleFractionsOf self.m_kk (Function.update n m t))
      (fun j => (kron j m - n j / Finset.sum (Finset.range self.m_kk) (fun i => n i))
        / Finset.sum (Finset.range self.m_kk) (fun i => n i))
      (n m)
      (fun j hj => hasDerivAt_moleFraction self.m_kk n m j hm hj hN)
      (fun j hj => by
        simp only [Function.update_eq_self]
        rw [hX])
      hAB hA hB k hk
    have hexp : HasDerivAt Real.exp (n m) (Real.log (n m)) := by
      have := Real.hasDerivAt_exp (Real.log (n m))
      rwa [Real.exp_log (hn m hm)] at this
    have hG' : HasDerivAt
        (fun t => rd (({ self with
            moleFractions_ := moleFractionsOf self.m_kk (Function.update n m t) } :
          MixedSolventElectrolyte ℝ).s_update_lnActCoeff R).lnActCoeff_Scaled_ k)
        (Finset.sum (Finset.range self.numBinaryInteractions_) (fun i =>
          margulesTermDA (kron k (rd self.m_pSpecies_B_ij i)) (XBAt self i)
              (g0At R self i) (g1At R self i)
            * ((kron (rd self.m_pSpecies_A_ij i) m
                - n (rd self.m_pSpecies_A_ij i)
                  / Finset.sum (Finset.range self.m_kk) (fun i => n i))
              / Finset.sum (Finset.range self.m_kk) (fun i => n i))
          + margulesTermDB (kron k (rd self.m_pSpecies_A_ij i))
              (kron k (rd self.m_pSpecies_B_ij i)) (XAAt self i) (XBAt self i)
              (g0At R self i) (g1At R self i)
            * ((kron (rd self.m_pSpecies_B_ij i) m
                - n (rd self.m_pSpecies_B_ij i)
                  / Finset.sum (Finset.range self.m_kk) (fun i => n i))
              / Finset.sum (Finset.range self.m_kk) (fun i => n i))))
        (Real.exp (Real.log (n m))) := by
      rw [Real.exp_log (hn m hm)]
      exact hG
    have hcomp := HasDerivAt.comp (Real.log (n m)) hG' hexp
    convert hcomp using 1
    rw [hentry, hsplit, hXj m hm, Finset.sum_mul, Finset.mul_sum]
    apply Finset.sum_congr rfl
    intro i hi
    have hi' := Finset.mem_range.mp hi
    unfold XAAt XBAt
    rw [hXj _ (hA i hi'), hXj _ (hB i hi')]
    field_simp
    ring
  · refine ⟨fun j => Finset.sum (Finset.range self.numBinaryInteractions_) (fun i =>
        margulesTermDA (kron k (rd self.m_pSpecies_B_ij i)) (XBAt self i)
            (g0At R self i) (g1At R self i) * kron (rd self.m_pSpecies_A_ij i) j
        + margulesTermDB (kron k (rd self.m_pSpecies_A_ij i))
            (kron k (rd self.m_pSpecies_B_ij i)) (XAAt self i) (XBAt self i)
            (g0At R self i) (g1At R self i) * kron (rd self.m_pSpecies_B_ij i) j), ?_, ?_⟩
    · intro j hj
      exact hasDerivAt_lnActCoeff_along R self
        (fun x => self.moleFractions_.set j x)
        (fun q => kron q j) (rd self.moleFractions_ j)
        (fun q _ => hasDerivAt_rd_set self.moleFractions_ j q (by omega) _)
        (fun q _ => by
          show rd (self.moleFractions_.set j (rd self.moleFractions_ j)) q = _
          rw [set_rd_self])
        hAB hA hB k hk
    · rw [hentry, hsplit]
      congr 1
      simp only [Finset.sum_mul]
      rw [Finset.sum_comm]
      apply Finset.sum_congr rfl
      intro i hi
      have hi' := Finset.mem_range.mp hi
      have e1 := sum_kron (fun j => kron j m - rd self.moleFractions_ j) self.m_kk
        (rd self.m_pSpecies_A_ij i) (hA i hi')
      have e2 := sum_kron (fun j => kron j m - rd self.moleFractions_ j) self.m_kk
        (rd self.m_pSpecies_B_ij i) (hB i hi')
      simp only [add_mul, mul_assoc, Finset.sum_add_distrib, ← Finset.mul_sum, e1, e2]
      rfl

/-- C29, instance: the entry `(0, 1)` of `samplePhase2`, whose mole fractions 0.2, 0.3, 0.5
are those of the mole numbers 2, 3, 5, with a column-major 3 by 3 store. -/
theorem C29_entry_is_log_derivative_witness :
    HasDerivAt
      (fun u => rd (({ (samplePhase2 : MixedSolventElectrolyte ℝ) with
          moleFractions_ := moleFractionsOf (samplePhase2 : MixedSolventElectrolyte ℝ).m_kk
            (Function.update sampleMoles 1 (Real.exp u)) } :
        MixedSolventElectrolyte ℝ).s_update_lnActCoeff 1).lnActCoeff_Scaled_ 0)
      (rd ((samplePhase2 : MixedSolventElectrolyte ℝ).s_update_dlnActCoeff_dlnN
        (columnMajor 3) 1).dlnActCoeffdlnN_ (columnMajor 3 0 1))
      (Real.log (sampleMoles 1)) :=
  (C29_entry_is_log_derivative (columnMajor 3) (1 : ℝ) samplePhase2 sampleMoles
    (columnMajor_layout 3)
    (by
      intro j hj
      have hj' : j < 3 := hj
      interval_cases j <;> norm_num [sampleMoles, rd])
    (by
      norm_num [samplePhase2, MixedSolventElectrolyte.blank, moleFractionsOf, List.range_succ,
        Finset.sum_range_succ, sampleMoles, rd])
    (by
      intro i hi
      have hi' : i < 2 := hi
      interval_cases i <;> simp [samplePhase2, rd])
    (by
      intro i hi
      have hi' : i < 2 := hi
      interval_cases i <;> simp [samplePhase2, MixedSolventElectrolyte.blank, rd])
    (by
      intro i hi
      have hi' : i < 2 := hi
      interval_cases i <;> simp [samplePhase2, MixedSolventElectrolyte.blank, rd])
    0 1 (by decide) (by decide)).1

end LogDerivativeClaim

/-! ## STITbyPDSS and ReactionData -/

section Delegated
variable [LinearOrderedField K]

/-- C26. For a delegated evaluator whose species index is not `npos`,
`updatePropertiesTemp(T)` returns normally, leaves the external state as
`setTemperature(T)` made it, and writes at slot `m_index` of `h_RT`, `cp_R` and `s_R` the
reference enthalpy, heat capacity and entropy read from the external state after that
temperature set; every other slot keeps its value, and `updateProperties(tempPoly)` is the
same call with `T = tempPoly[0]`. -/
theorem C26_delegated_update {P : Type} (ops : PDSSOps P K) (npos : Nat)
    (self : STITbyPDSS K) (pdss : P) (T : K) (out : ThermoOut K)
    (hidx : self.m_index ≠ npos) :
    ∃ out', self.updatePropertiesTemp ops npos pdss T out
        = .ok (ops.setTemperature T pdss, out') ∧
      out'.h_RT self.m_index = ops.enthalpy_RT_ref (ops.setTemperature T pdss) ∧
      out'.cp_R self.m_index = ops.cp_R_ref (ops.setTemperature T pdss) ∧
      out'.s_R self.m_index = ops.entropy_R_ref (ops.setTemperature T pdss) ∧
      (∀ j, j ≠ self.m_index →
        out'.h_RT j = out.h_RT j ∧ out'.cp_R j = out.cp_R j ∧ out'.s_R j = out.s_R j) ∧
      ∀ tempPoly : Nat → K, tempPoly 0 = T →
        self.updateProperties ops npos pdss tempPoly out
          = self.updatePropertiesTemp ops npos pdss T out := by
  refine ⟨{ cp_R := Function.update out.cp_R self.m_index
                (ops.cp_R_ref (ops.setTemperature T pdss))
            h_RT := Function.update out.h_RT self.m_index
                (ops.enthalpy_RT_ref (ops.setTemperature T pdss))
            s_R := Function.update out.s_R self.m_index
                (ops.entropy_R_ref (ops.setTemperature T pdss)) }, ?_, ?_, ?_, ?_, ?_, ?_⟩
  · unfold STITbyPDSS.updatePropertiesTemp
    simp only [ne_eq, hidx, not_false_eq_true, if_true]
  · simp only [Function.update_same]
  · simp only [Function.update_same]
  · simp only [Function.update_same]
  · intro j hj
    simp only [Function.update_noteq hj, and_self]
  · intro tempPoly h0
    unfold STITbyPDSS.updateProperties
    simp only [h0]

/-- C26, instance: an evaluator constructed for species 2 with the sample external state,
over the rationals, `npos` taken as `2^64 - 1`. -/
theorem C26_delegated_update_witness :
    ∃ out', (STITbyPDSS.construct 2 : STITbyPDSS ℚ).updatePropertiesTemp samplePDSSOps
          18446744073709551615 5 10 ⟨fun _ => 0, fun _ => 0, fun _ => 0⟩
        = .ok (samplePDSSOps.setTemperature 10 5, out') ∧
      out'.h_RT (STITbyPDSS.construct 2 : STITbyPDSS ℚ).m_index
        = samplePDSSOps.enthalpy_RT_ref (samplePDSSOps.setTemperature 10 5) ∧
      out'.cp_R (STITbyPDSS.construct 2 : STITbyPDSS ℚ).m_index
        = samplePDSSOps.cp_R_ref (samplePDSSOps.setTemperature 10 5) ∧
      out'.s_R (STITbyPDSS.construct 2 : STITbyPDSS ℚ).m_index
        = samplePDSSOps.entropy_R_ref (samplePDSSOps.setTemperature 10 5) ∧
      (∀ j, j ≠ (STITbyPDSS.construct 2 : STITbyPDSS ℚ).m_index →
        out'.h_RT j = (⟨fun _ => 0, fun _ => 0, fun _ => 0⟩ : ThermoOut ℚ).h_RT j ∧
        out'.cp_R j = (⟨fun _ => 0, fun _ => 0, fun _ => 0⟩ : ThermoOut ℚ).cp_R j ∧
        out'.s_R j = (⟨fun _ => 0, fun _ => 0, fun _ => 0⟩ : ThermoOut ℚ).s_R j) ∧
      ∀ tempPoly : Nat → ℚ, tempPoly 0 = 10 →
        (STITbyPDSS.construct 2 : STITbyPDSS ℚ).updateProperties samplePDSSOps
            18446744073709551615 5 tempPoly ⟨fun _ => 0, fun _ => 0, fun _ => 0⟩
          = (STITbyPDSS.construct 2 : STITbyPDSS ℚ).updatePropertiesTemp samplePDSSOps
            18446744073709551615 5 10 ⟨fun _ => 0, fun _ => 0, fun _ => 0⟩ :=
  C26_delegated_update samplePDSSOps 18446744073709551615 (STITbyPDSS.construct 2) 5 10
    ⟨fun _ => 0, fun _ => 0, fun _ => 0⟩ (by simp [STITbyPDSS.construct])

/-- C28. `ReactionData::efficiency(k)` returns the value stored for key `k` in
`thirdBodyEfficiencies` when the map has the key, and `default_3b_eff` otherwise; for a
default-constructed `ReactionData` it returns 1.0 for every `k`. -/
theorem C28_efficiency (self : ReactionData K) (k : Nat) :
    (∀ v, self.thirdBodyEfficiencies.lookup k = some v → self.efficiency k = v) ∧
    (self.thirdBodyEfficiencies.lookup k = none → self.efficiency k = self.default_3b_eff) ∧
    ∀ ELEMENTARY_RXN ARRHENIUS_REACTION_RATECOEFF_TYPE NONE : Int,
      (ReactionData.construct ELEMENTARY_RXN ARRHENIUS_REACTION_RATECOEFF_TYPE NONE
        : ReactionData K).efficiency k = 1.0 := by
  refine ⟨fun v h => ?_, fun h => ?_, fun _ _ _ => ?_⟩
  · simp only [ReactionData.efficiency, getValue, h]
  · simp only [ReactionData.efficiency, getValue, h]
  · simp only [ReactionData.efficiency, getValue, ReactionData.construct, List.lookup]

end Delegated

/-! ## Mu0Poly: the object after a failed update -/

section FailedModify
variable [LinearOrderedField K]

theorem distributeLoop_state (R : K) (coeffs : Nat → K) (nPoints : Nat) :
    ∀ (k i iindex a : Nat) (f : Bool) (self : Mu0Poly K),
      (∀ a' f' s', distributeLoop R coeffs nPoints k i iindex a f self = .ok (a', f', s') →
        ∃ t' mu' : List K, s' = { self with m_t0_int := t', m_mu0_R_int := mu' } ∧
          t'.length = self.m_t0_int.length ∧ mu'.length = self.m_mu0_R_int.length) ∧
      (∀ e s', distributeLoop R coeffs nPoints k i iindex a f self = .error (e, s') →
        e = CanteraError.notMonotonic ∧
        ∃ t' mu' : List K, s' = { self with m_t0_int := t', m_mu0_R_int := mu' } ∧
          t'.length = self.m_t0_int.length ∧ mu'.length = self.m_mu0_R_int.length) := by
  intro k
  induction k with
  | zero =>
    intro i iindex a f self
    constructor
    · intro a' f' s' h
      simp only [distributeLoop, Except.ok.injEq, Prod.mk.injEq] at h
      exact ⟨self.m_t0_int, self.m_mu0_R_int, by rw [← h.2.2], rfl, rfl⟩
    · intro e s' h
      simp [distributeLoop] at h
  | succ k ih =>
    intro i iindex a f self
    obtain ⟨ih1, ih2⟩ := ih (i + 1) (iindex + 2)
      (if coeffs iindex = 298.15 then i else a)
      (if coeffs iindex = 298.15 then true else f)
      { self with
        m_t0_int := self.m_t0_int.set i (coeffs iindex)
        m_mu0_R_int := self.m_mu0_R_int.set i (coeffs (iindex + 1) / R) }
    simp only [List.length_set] at ih1 ih2
    constructor
    · intro a' f' s' h
      rw [distributeLoop] at h
      by_cases hc : i < nPoints - 1 ∧ coeffs (iindex + 2) ≤ coeffs iindex
      · simp only [hc, and_self, if_true] at h
        exact absurd h (by simp)
      · simp only [hc, if_false] at h
        exact ih1 a' f' s' h
    · intro e s' h
      rw [distributeLoop] at h
      by_cases hc : i < nPoints - 1 ∧ coeffs (iindex + 2) ≤ coeffs iindex
      · simp only [hc, and_self, if_true, Except.error.injEq, Prod.mk.injEq] at h
        refine ⟨h.1.symm, _, _, h.2.symm, ?_, ?_⟩ <;> simp
      · simp only [hc, if_false] at h
        exact ih2 e s' h

theorem processCoeffs_error_state [FloorRing K] (R : K) (log : K → K) (coeffs : Nat → K)
    (self : Mu0Poly K) (e : CanteraError) (s : Mu0Poly K)
    (h : processCoeffs R log coeffs self = .error (e, s)) :
    (⌊coeffs 0⌋₊ < 2 ∧ e = CanteraError.nPointsTooSmall ∧ s = self) ∨
    (2 ≤ ⌊coeffs 0⌋₊ ∧ e ≠ CanteraError.nPointsTooSmall ∧
      ∃ t' mu' : List K,
        s = { self with
              m_numIntervals := ⌊coeffs 0⌋₊ - 1
              m_H298 := coeffs 1 / R
              m_t0_int := t'
              m_mu0_R_int := mu'
              m_h0_R_int := resize self.m_h0_R_int ⌊coeffs 0⌋₊
              m_s0_R_int := resize self.m_s0_R_int ⌊coeffs 0⌋₊
              m_cp0_R_int := resize self.m_cp0_R_int ⌊coeffs 0⌋₊ } ∧
        t'.length = ⌊coeffs 0⌋₊ ∧ mu'.length = ⌊coeffs 0⌋₊) := by
  by_cases hn : ⌊coeffs 0⌋₊ < 2
  · left
    rw [processCoeffs_tooFew R log coeffs self hn] at h
    simp only [Except.error.injEq, Prod.mk.injEq] at h
    exact ⟨hn, h.1.symm, h.2.symm⟩
  · right
    refine ⟨by omega, ?_⟩
    obtain ⟨hok, herr⟩ := distributeLoop_state R coeffs ⌊coeffs 0⌋₊ ⌊coeffs 0⌋₊ 0 2 0 false
      { self with
        m_numIntervals := ⌊coeffs 0⌋₊ - 1
        m_H298 := coeffs 1 / R
        m_t0_int := resize self.m_t0_int ⌊coeffs 0⌋₊
        m_h0_R_int := resize self.m_h0_R_int ⌊coeffs 0⌋₊
        m_s0_R_int := resize self.m_s0_R_int ⌊coeffs 0⌋₊
        m_cp0_R_int := resize self.m_cp0_R_int ⌊coeffs 0⌋₊
        m_mu0_R_int := resize self.m_mu0_R_int ⌊coeffs 0⌋₊ }
    simp only [length_resize] at hok herr
    unfold processCoeffs at h
    simp only [hn, if_false] at h
    cases hd : distributeLoop R coeffs ⌊coeffs 0⌋₊ ⌊coeffs 0⌋₊ 0 2 0 false
      { self with
        m_numIntervals := ⌊coeffs 0⌋₊ - 1
        m_H298 := coeffs 1 / R
        m_t0_int := resize self.m_t0_int ⌊coeffs 0⌋₊
        m_h0_R_int := resize self.m_h0_R_int ⌊coeffs 0⌋₊
        m_s0_R_int := resize self.m_s0_R_int ⌊coeffs 0⌋₊
        m_cp0_R_int := resize self.m_cp0_R_int ⌊coeffs 0⌋₊
        m_mu0_R_int := resize self.m_mu0_R_int ⌊coeffs 0⌋₊ } with
    | error es =>
      obtain ⟨e0, s0⟩ := es
      rw [hd] at h
      simp only [Except.error.injEq, Prod.mk.injEq] at h
      obtain ⟨e1, t', mu', hs, hl1, hl2⟩ := herr e0 s0 hd
      refine ⟨by rw [← h.1, e1]; decide, t', mu', ?_, hl1, hl2⟩
      rw [← h.2, hs]
    | ok r =>
      obtain ⟨a', f', s1⟩ := r
      rw [hd] at h
      obtain ⟨t', mu', hs, hl1, hl2⟩ := hok a' f' s1 hd
      cases f'
      · simp only [if_true, Except.error.injEq, Prod.mk.injEq] at h
        refine ⟨by rw [← h.1]; decide, t', mu', ?_, hl1, hl2⟩
        rw [← h.2, hs]
      · simp at h

/-- C27, counterexample. The four-point evaluator `sampleStale` is given the coefficient
array `sampleBadCoeffs`, whose second temperature 100 is below the first, 200.  The call fails
with "Temperatures are not monotonic increasing", and the object it leaves behind has
`m_numIntervals = 2` and `m_H298 = 10` where it had 3 and 7, its tables are cut to three
entries, and the first entries of `m_t0_int` and `m_mu0_R_int` are already overwritten. -/
theorem C27_counterexample :
    modifyParameters (1 : ℚ) (fun x => x) sampleBadCoeffs sampleStale =
      .error (CanteraError.notMonotonic,
        { m_lowT := 100, m_highT := 500, m_Pref := 101325, m_index := 1
          m_numIntervals := 2, m_H298 := 10
          m_t0_int := [200, 7, 7], m_mu0_R_int := [4, 7, 7], m_h0_R_int := [7, 7, 7]
          m_s0_R_int := [7, 7, 7], m_cp0_R_int := [7, 7, 7] }) ∧
    (sampleStale : Mu0Poly ℚ).m_numIntervals = 3 ∧ (sampleStale : Mu0Poly ℚ).m_H298 = 7 ∧
    (sampleStale : Mu0Poly ℚ).m_t0_int = [7, 7, 7, 7] := by
  have h0 : ⌊(sampleBadCoeffs : Nat → ℚ) 0⌋₊ = 3 := by
    simp [sampleBadCoeffs, rd]
  refine ⟨?_, rfl, rfl, rfl⟩
  unfold modifyParameters processCoeffs
  simp only [h0]
  norm_num [distributeLoop, sampleBadCoeffs, rd, sampleStale, resize]

/-- C27, amended. Let the point count `c[0]` be nonnegative.  A `modifyParameters(c)` that
fails for too few points (`c[0] < 2`) leaves the evaluator exactly as it was.  One that fails
for another reason (non-monotonic temperatures, or no 298.15 breakpoint) has already
overwritten it: `m_numIntervals` is `nPoints - 1`, `m_H298` is `c[1] / R`, the five tables have
been resized to `nPoints` entries (the enthalpy, entropy and heat-capacity tables otherwise
keeping their old contents, the temperature and potential tables partly rewritten); only the
limits, the reference pressure and the index are kept.  Nothing is said of a negative
`c[0]`, for which the conversion to `size_t` is not defined. -/
theorem C27_failed_modify_state [FloorRing K] (R : K) (log : K → K) (c : Nat → K)
    (self : Mu0Poly K) (e : CanteraError) (s : Mu0Poly K) (h0 : 0 ≤ c 0)
    (h : modifyParameters R log c self = .error (e, s)) :
    (e = CanteraError.nPointsTooSmall ↔ c 0 < 2) ∧
    (e = CanteraError.nPointsTooSmall → s = self) ∧
    (e ≠ CanteraError.nPointsTooSmall →
      s.m_numIntervals = ⌊c 0⌋₊ - 1 ∧ s.m_H298 = c 1 / R ∧
      s.m_t0_int.length = ⌊c 0⌋₊ ∧ s.m_mu0_R_int.length = ⌊c 0⌋₊ ∧
      s.m_h0_R_int = resize self.m_h0_R_int ⌊c 0⌋₊ ∧
      s.m_s0_R_int = resize self.m_s0_R_int ⌊c 0⌋₊ ∧
      s.m_cp0_R_int = resize self.m_cp0_R_int ⌊c 0⌋₊ ∧
      s.m_lowT = self.m_lowT ∧ s.m_highT = self.m_highT ∧ s.m_Pref = self.m_Pref ∧
      s.m_index = self.m_index) := by
  have hfl : ⌊c 0⌋₊ < 2 ↔ c 0 < 2 := by
    have := Nat.floor_lt (n := 2) h0
    simpa using this
  unfold modifyParameters at h
  rcases processCoeffs_error_state R log c self e s h with
    ⟨hn, he, hs⟩ | ⟨hn, he, t', mu', hs, hl1, hl2⟩
  · exact ⟨⟨fun _ => hfl.mp hn, fun _ => he⟩, fun _ => hs, fun hne => absurd he hne⟩
  · refine ⟨⟨fun h1 => absurd h1 he, fun h1 => ?_⟩, fun h1 => absurd h1 he, fun _ => ?_⟩
    · have := hfl.mpr h1
      omega
    · rw [hs]
      exact ⟨rfl, rfl, hl1, hl2, rfl, rfl, rfl, rfl, rfl, rfl, rfl⟩

/-- C27, instance: the failed call of the counterexample, whose point count is 3, read
through the amended statement. -/
theorem C27_failed_modify_state_witness :
    ∃ e s, modifyParameters (1 : ℚ) (fun x => x) sampleBadCoeffs sampleStale = .error (e, s) ∧
      (0 : ℚ) ≤ sampleBadCoeffs 0 ∧
      e ≠ CanteraError.nPointsTooSmall ∧
      s.m_numIntervals = ⌊(sampleBadCoeffs : Nat → ℚ) 0⌋₊ - 1 ∧
      s.m_H298 = sampleBadCoeffs 1 / 1 := by
  have h0 : ⌊(sampleBadCoeffs : Nat → ℚ) 0⌋₊ = 3 := by
    simp [sampleBadCoeffs, rd]
  have hc0 : (0 : ℚ) ≤ sampleBadCoeffs 0 := by
    norm_num [sampleBadCoeffs, rd]
  obtain ⟨s, hs⟩ := processCoeffs_notMonotonic (1 : ℚ) (fun x => x) sampleBadCoeffs sampleStale
    (by rw [h0]; omega)
    ⟨0, by rw [h0]; omega, by norm_num [tempAt, sampleBadCoeffs, rd]⟩
  have hne : CanteraError.notMonotonic ≠ CanteraError.nPointsTooSmall := by decide
  have key := C27_failed_modify_state (1 : ℚ) (fun x => x) sampleBadCoeffs sampleStale
    CanteraError.notMonotonic s hc0 hs
  exact ⟨_, s, hs, hc0, hne, (key.2.2 hne).1, (key.2.2 hne).2.1⟩

end FailedModify

/-! ## MixedSolventElectrolyte: the mole-fraction diagonal -/

section MoleFractionDiagonal
variable [LinearOrderedField K]

/-- With a single record `(A, B)`, `A ≠ B`, `getdlnActCoeffdlnX_diag` writes the value of
`dlnXDiagTerm` for both species of the record. -/
theorem getdlnActCoeffdlnX_diag_single (R : K) (self : MixedSolventElectrolyte K)
    (out : Nat → K) (h1 : self.numBinaryInteractions_ = 1)
    (hAB : rd self.m_pSpecies_A_ij 0 ≠ rd self.m_pSpecies_B_ij 0)
    (hA : rd self.m_pSpecies_A_ij 0 < self.m_kk)
    (hB : rd self.m_pSpecies_B_ij 0 < self.m_kk) :
    (self.getdlnActCoeffdlnX_diag R out).2 (rd self.m_pSpecies_A_ij 0)
      = dlnXDiagTerm self self.temperature (R * self.temperature) 0 ∧
    (self.getdlnActCoeffdlnX_diag R out).2 (rd self.m_pSpecies_B_ij 0)
      = dlnXDiagTerm self self.temperature (R * self.temperature) 0 := by
  have hkk : (self.s_update_dlnActCoeff_dlnX_diag R).m_kk = self.m_kk := rfl
  have hd : (self.s_update_dlnActCoeff_dlnX_diag R).dlnActCoeffdlnX_diag_
      = ((List.replicate self.m_kk (0 : K)).set (rd self.m_pSpecies_A_ij 0)
          (rd (List.replicate self.m_kk (0 : K)) (rd self.m_pSpecies_A_ij 0)
            + dlnXDiagTerm self self.temperature (R * self.temperature) 0)).set
          (rd self.m_pSpecies_B_ij 0)
          (rd ((List.replicate self.m_kk (0 : K)).set (rd self.m_pSpecies_A_ij 0)
              (rd (List.replicate self.m_kk (0 : K)) (rd self.m_pSpecies_A_ij 0)
                + dlnXDiagTerm self self.temperature (R * self.temperature) 0))
            (rd self.m_pSpecies_B_ij 0)
            + dlnXDiagTerm self self.temperature (R * self.temperature) 0) := by
    unfold MixedSolventElectrolyte.s_update_dlnActCoeff_dlnX_diag
    simp only [h1, forLoop]
  unfold MixedSolventElectrolyte.getdlnActCoeffdlnX_diag
  simp only
  rw [forLoop_update, forLoop_update, if_pos ⟨Nat.zero_le _, by rw [hkk]; omega⟩,
    if_pos ⟨Nat.zero_le _, by rw [hkk]; omega⟩, hd]
  constructor
  · rw [rd_set_ne _ _ _ _ (fun h => hAB h.symm), rd_set_eq _ _ _ (by simpa using hA),
      rd_replicate_zero, zero_add]
  · rw [rd_set_eq _ _ _ (by simpa using hB), rd_set_ne _ _ _ _ hAB, rd_replicate_zero,
      zero_add]

end MoleFractionDiagonal

section MoleFractionDiagonalReal

theorem hasDerivAt_rd_exchange (X : List ℝ) (a b q : Nat) (hab : a ≠ b)
    (ha : a < X.length) (hb : b < X.length) (x0 : ℝ) :
    HasDerivAt (fun x => rd ((X.set a x).set b (1 - x)) q) (kron q a - kron q b) x0 := by
  unfold kron
  by_cases hqb : q = b
  · subst hqb
    have hqa : ¬ q = a := fun h => hab h.symm
    rw [if_neg hqa, if_pos rfl]
    have : (fun x => rd ((X.set a x).set q (1 - x)) q) = fun x => 1 - x := by
      funext x
      exact rd_set_eq _ q _ (by simpa using hb)
    rw [this]
    simpa using (hasDerivAt_id x0).const_sub 1
  · rw [if_neg hqb]
    by_cases hqa : q = a
    · subst hqa
      rw [if_pos rfl]
      have : (fun x => rd ((X.set q x).set b (1 - x)) q) = fun x => x := by
        funext x
        rw [rd_set_ne _ _ _ _ (fun h => hqb h.symm)]
        exact rd_set_eq X q x ha
      rw [this]
      simpa using hasDerivAt_id x0
    · rw [if_neg hqa]
      have : (fun x => rd ((X.set a x).set b (1 - x)) q) = fun _ => rd X q := by
        funext x
        rw [rd_set_ne _ _ _ _ (fun h => hqb h.symm), rd_set_ne _ _ _ _ (fun h => hqa h.symm)]
      rw [this]
      simpa using hasDerivAt_const x0 (rd X q)

theorem rd_exchange_self (X : List ℝ) (a b q : Nat)
    (hsum : rd X a + rd X b = 1) :
    rd ((X.set a (rd X a)).set b (1 - rd X a)) q = rd X q := by
  rw [set_rd_self]
  exact rd_set_same X b q _ (by linarith)

/-- C31. For a phase with a single record `(A, B)`, `A ≠ B`, and `X_A + X_B = 1`: the
derivative `dA` of `lnActCoeff[A]` (as computed by `s_update_lnActCoeff`) with respect to
`X_A` along `X_B = 1 - X_A`, and the derivative `dB` of `lnActCoeff[B]` with respect to `X_B`
along `X_A = 1 - X_B`, satisfy `X_A * dA = X_B * dB = X_A*X_B*(2*g1 - 2*g0 - 6*g1*X_B)`, the
claimed value.  `getdlnActCoeffdlnX_diag` writes for both species
`X_A*X_B*(2*g1*(-2)*g0 - 6*g1*X_B)`, which is the claimed value plus
`X_A*X_B*(2*g0 - 2*g1 - 4*g0*g1)`: the source has `2*g1*-2*g0`, a product, where the
derivative has the difference `2*g1 - 2*g0`. -/
theorem C31_dlnX_diag_product_for_difference (R : ℝ) (self : MixedSolventElectrolyte ℝ)
    (out : Nat → ℝ) (h1 : self.numBinaryInteractions_ = 1)
    (hAB : rd self.m_pSpecies_A_ij 0 ≠ rd self.m_pSpecies_B_ij 0)
    (hA : rd self.m_pSpecies_A_ij 0 < self.m_kk)
    (hB : rd self.m_pSpecies_B_ij 0 < self.m_kk)
    (hlen : self.m_kk ≤ self.moleFractions_.length)
    (hsum : XAAt self 0 + XBAt self 0 = 1) :
    (∃ dA dB : ℝ,
      HasDerivAt
        (fun x => rd (({ self with
            moleFractions_ := (self.moleFractions_.set (rd self.m_pSpecies_A_ij 0) x).set
              (rd self.m_pSpecies_B_ij 0) (1 - x) } :
          MixedSolventElectrolyte ℝ).s_update_lnActCoeff R).lnActCoeff_Scaled_
            (rd self.m_pSpecies_A_ij 0))
        dA (XAAt self 0) ∧
      HasDerivAt
        (fun x => rd (({ self with
            moleFractions_ := (self.moleFractions_.set (rd self.m_pSpecies_B_ij 0) x).set
              (rd self.m_pSpecies_A_ij 0) (1 - x) } :
          MixedSolventElectrolyte ℝ).s_update_lnActCoeff R).lnActCoeff_Scaled_
            (rd self.m_pSpecies_B_ij 0))
        dB (XBAt self 0) ∧
      XAAt self 0 * dA
        = dlnXDiagClaimed (XAAt self 0) (XBAt self 0) (g0At R self 0) (g1At R self 0) ∧
      XBAt self 0 * dB
        = dlnXDiagClaimed (XAAt self 0) (XBAt self 0) (g0At R self 0) (g1At R self 0)) ∧
    (self.getdlnActCoeffdlnX_diag R out).2 (rd self.m_pSpecies_A_ij 0)
      = XAAt self 0 * XBAt self 0
        * (2 * g1At R self 0 * (-2) * g0At R self 0 - 6 * g1At R self 0 * XBAt self 0) ∧
    (self.getdlnActCoeffdlnX_diag R out).2 (rd self.m_pSpecies_B_ij 0)
      = XAAt self 0 * XBAt self 0
        * (2 * g1At R self 0 * (-2) * g0At R self 0 - 6 * g1At R self 0 * XBAt self 0) ∧
    (self.getdlnActCoeffdlnX_diag R out).2 (rd self.m_pSpecies_A_ij 0)
      = dlnXDiagClaimed (XAAt self 0) (XBAt self 0) (g0At R self 0) (g1At R self 0)
        + XAAt self 0 * XBAt self 0
          * (2 * g0At R self 0 - 2 * g1At R self 0 - 4 * g0At R self 0 * g1At R self 0) := by
  obtain ⟨cA, cB⟩ := getdlnActCoeffdlnX_diag_single R self out h1 hAB hA hB
  have hterm : dlnXDiagTerm self self.temperature (R * self.temperature) 0
      = XAAt self 0 * XBAt self 0
        * (2 * g1At R self 0 * (-2) * g0At R self 0 - 6 * g1At R self 0 * XBAt self 0) := rfl
  have hBA : rd self.m_pSpecies_B_ij 0 ≠ rd self.m_pSpecies_A_ij 0 := fun h => hAB h.symm
  have hAB1 : ∀ i, i < self.numBinaryInteractions_ →
      rd self.m_pSpecies_A_ij i ≠ rd self.m_pSpecies_B_ij i := by
    intro i hi
    have : i = 0 := by omega
    rw [this]
    exact hAB
  have hA1 : ∀ i, i < self.numBinaryInteractions_ → rd self.m_pSpecies_A_ij i < self.m_kk := by
    intro i hi
    have : i = 0 := by omega
    rw [this]
    exact hA
  have hB1 : ∀ i, i < self.numBinaryInteractions_ → rd self.m_pSpecies_B_ij i < self.m_kk := by
    intro i hi
    have : i = 0 := by omega
    rw [this]
    exact hB
  have hsum' : rd self.moleFractions_ (rd self.m_pSpecies_A_ij 0)
      + rd self.moleFractions_ (rd self.m_pSpecies_B_ij 0) = 1 := hsum
  have hXB : XBAt self 0 = 1 - XAAt self 0 := by linarith
  have dA := hasDerivAt_lnActCoeff_along R self
    (fun x => (self.moleFractions_.set (rd self.m_pSpecies_A_ij 0) x).set
      (rd self.m_pSpecies_B_ij 0) (1 - x))
    (fun q => kron q (rd self.m_pSpecies_A_ij 0) - kron q (rd self.m_pSpecies_B_ij 0))
    (XAAt self 0)
    (fun q _ => hasDerivAt_rd_exchange self.moleFractions_ _ _ q hAB (by omega) (by omega) _)
    (fun q _ => rd_exchange_self self.moleFractions_ _ _ q hsum')
    hAB1 hA1 hB1 (rd self.m_pSpecies_A_ij 0) hA
  have dB := hasDerivAt_lnActCoeff_along R self
    (fun x => (self.moleFractions_.set (rd self.m_pSpecies_B_ij 0) x).set
      (rd self.m_pSpecies_A_ij 0) (1 - x))
    (fun q => kron q (rd self.m_pSpecies_B_ij 0) - kron q (rd self.m_pSpecies_A_ij 0))
    (XBAt self 0)
    (fun q _ => hasDerivAt_rd_exchange self.moleFractions_ _ _ q hBA (by omega) (by omega) _)
    (fun q _ => rd_exchange_self self.moleFractions_ _ _ q (by linarith))
    hAB1 hA1 hB1 (rd self.m_pSpecies_B_ij 0) hB
  have kAA : kron (rd self.m_pSpecies_A_ij 0) (rd self.m_pSpecies_A_ij 0) = (1 : ℝ) := by
    simp [kron]
  have kBB : kron (rd self.m_pSpecies_B_ij 0) (rd self.m_pSpecies_B_ij 0) = (1 : ℝ) := by
    simp [kron]
  have kAB : kron (rd self.m_pSpecies_A_ij 0) (rd self.m_pSpecies_B_ij 0) = (0 : ℝ) := by
    simp [kron, hAB]
  have kBA : kron (rd self.m_pSpecies_B_ij 0) (rd self.m_pSpecies_A_ij 0) = (0 : ℝ) := by
    simp [kron, hBA]
  refine ⟨⟨_, _, dA, dB, ?_, ?_⟩, ?_, ?_, ?_⟩
  · rw [h1, Finset.sum_range_one]
    simp only [kAA, kBB, kAB, kBA]
    unfold margulesTermDA margulesTermDB dlnXDiagClaimed
    rw [hXB]
    ring
  · rw [h1, Finset.sum_range_one]
    simp only [kAA, kBB, kAB, kBA]
    unfold margulesTermDA margulesTermDB dlnXDiagClaimed
    rw [hXB]
    ring
  · rw [cA, hterm]
  · rw [cB, hterm]
  · rw [cA, hterm]
    unfold dlnXDiagClaimed
    ring

/-- C31, failing input: `sampleBinary` (two species, `X = [0.25, 0.75]`, one record
`(0, 1)`, and with `R = 1`, `g0 = 2`, `g1 = 1`).  The claimed value for both species is
`0.25*0.75*(2 - 4 - 4.5) = -39/32`; the code writes `0.25*0.75*(-8 - 4.5) = -75/32`. -/
theorem C31_dlnX_diag_product_for_difference_witness :
    ((sampleBinary : MixedSolventElectrolyte ℝ).getdlnActCoeffdlnX_diag 1 (fun _ => 0)).2 0
      = -75 / 32 ∧
    ((sampleBinary : MixedSolventElectrolyte ℝ).getdlnActCoeffdlnX_diag 1 (fun _ => 0)).2 1
      = -75 / 32 ∧
    dlnXDiagClaimed (XAAt (sampleBinary : MixedSolventElectrolyte ℝ) 0) (XBAt sampleBinary 0)
      (g0At 1 sampleBinary 0) (g1At 1 sampleBinary 0) = -39 / 32 := by
  have key := C31_dlnX_diag_product_for_difference (1 : ℝ) sampleBinary (fun _ => 0) rfl
    (by simp [sampleBinary, rd])
    (by simp [sampleBinary, MixedSolventElectrolyte.blank, rd])
    (by simp [sampleBinary, MixedSolventElectrolyte.blank, rd])
    (by simp [sampleBinary, MixedSolventElectrolyte.blank])
    (by norm_num [XAAt, XBAt, sampleBinary, MixedSolventElectrolyte.blank, rd])
  have hA0 : rd (sampleBinary : MixedSolventElectrolyte ℝ).m_pSpecies_A_ij 0 = 0 := rfl
  have hB0 : rd (sampleBinary : MixedSolventElectrolyte ℝ).m_pSpecies_B_ij 0 = 1 := rfl
  obtain ⟨-, vA, vB, -⟩ := key
  rw [hA0] at vA
  rw [hB0] at vB
  refine ⟨?_, ?_, ?_⟩
  · rw [vA]
    norm_num [XAAt, XBAt, g0At, g1At, sampleBinary, MixedSolventElectrolyte.blank, rd]
  · rw [vB]
    norm_num [XAAt, XBAt, g0At, g1At, sampleBinary, MixedSolventElectrolyte.blank, rd]
  · norm_num [dlnXDiagClaimed, XAAt, XBAt, g0At, g1At, sampleBinary,
      MixedSolventElectrolyte.blank, rd]

end MoleFractionDiagonalReal

/-! ## MixedSolventElectrolyte: derivatives along a direction of composition -/

section Directions

theorem rd_displaced (kk : Nat) (X : List ℝ) (dXds : Nat → ℝ) (s : ℝ) (j : Nat)
    (hj : j < kk) : rd (displaced kk X dXds s) j = rd X j + s * dXds j := by
  simp [rd, List.getD, displaced, List.getElem?_map, List.getElem?_range, hj]

/-- Partial derivative of `lnActCoeff[k]`, as computed by `s_update_lnActCoeff`, with
respect to the mole fraction of species `j`, the other mole fractions held fixed. -/
theorem hasDerivAt_lnActCoeff_coord (R : ℝ) (self : MixedSolventElectrolyte ℝ)
    (hlen : self.m_kk ≤ self.moleFractions_.length)
    (hAB : ∀ i, i < self.numBinaryInteractions_ →
      rd self.m_pSpecies_A_ij i ≠ rd self.m_pSpecies_B_ij i)
    (hA : ∀ i, i < self.numBinaryInteractions_ → rd self.m_pSpecies_A_ij i < self.m_kk)
    (hB : ∀ i, i < self.numBinaryInteractions_ → rd self.m_pSpecies_B_ij i < self.m_kk)
    (k : Nat) (hk : k < self.m_kk) (j : Nat) (hj : j < self.m_kk) :
    HasDerivAt
      (fun x => rd (({ self with moleFractions_ := self.moleFractions_.set j x } :
        MixedSolventElectrolyte ℝ).s_update_lnActCoeff R).lnActCoeff_Scaled_ k)
      (Finset.sum (Finset.range self.numBinaryInteractions_) (fun i =>
        margulesTermDA (kron k (rd self.m_pSpecies_B_ij i)) (XBAt self i)
            (g0At R self i) (g1At R self i) * kron (rd self.m_pSpecies_A_ij i) j
        + margulesTermDB (kron k (rd self.m_pSpecies_A_ij i))
            (kron k (rd self.m_pSpecies_B_ij i)) (XAAt self i) (XBAt self i)
            (g0At R self i) (g1At R self i) * kron (rd self.m_pSpecies_B_ij i) j))
      (rd self.moleFractions_ j) :=
  hasDerivAt_lnActCoeff_along R self
    (fun x => self.moleFractions_.set j x)
    (fun q => kron q j) (rd self.moleFractions_ j)
    (fun q _ => hasDerivAt_rd_set self.moleFractions_ j q (by omega) _)
    (fun q _ => by
      show rd (self.moleFractions_.set j (rd self.moleFractions_ j)) q = _
      rw [set_rd_self])
    hAB hA hB k hk

/-- C32. With `dTds = 0`, for every list of records with `A_i ≠ B_i` (both species of the
phase), every composition, direction `dXds` and species `k < m_kk`, the value that
`getdlnActCoeffds` writes into `dlnActCoeffds[k]` is the derivative at `s = 0` of
`lnActCoeff[k]`, as computed by `s_update_lnActCoeff`, along the compositions
`X + s * dXds`; and it equals the sum over the species `j` of
`(d lnActCoeff[k] / d X_j) * dXds[j]`, the partial derivatives taken with the other mole
fractions held fixed. -/
theorem C32_directional_derivative (R : ℝ) (self : MixedSolventElectrolyte ℝ)
    (dXds : Nat → ℝ) (out : Nat → ℝ)
    (hlen : self.m_kk ≤ self.moleFractions_.length)
    (hAB : ∀ i, i < self.numBinaryInteractions_ →
      rd self.m_pSpecies_A_ij i ≠ rd self.m_pSpecies_B_ij i)
    (hA : ∀ i, i < self.numBinaryInteractions_ → rd self.m_pSpecies_A_ij i < self.m_kk)
    (hB : ∀ i, i < self.numBinaryInteractions_ → rd self.m_pSpecies_B_ij i < self.m_kk)
    (k : Nat) (hk : k < self.m_kk) :
    HasDerivAt
      (fun s => rd (({ self with
          moleFractions_ := displaced self.m_kk self.moleFractions_ dXds s } :
        MixedSolventElectrolyte ℝ).s_update_lnActCoeff R).lnActCoeff_Scaled_ k)
      ((self.getdlnActCoeffds R 0 dXds out).2 k) 0 ∧
    ∃ D : Nat → ℝ,
      (∀ j, j < self.m_kk →
        HasDerivAt
          (fun x => rd (({ self with moleFractions_ := self.moleFractions_.set j x } :
            MixedSolventElectrolyte ℝ).s_update_lnActCoeff R).lnActCoeff_Scaled_ k)
          (D j) (rd self.moleFractions_ j)) ∧
      (self.getdlnActCoeffds R 0 dXds out).2 k
        = Finset.sum (Finset.range self.m_kk) (fun j => D j * dXds j) := by
  have hval : (self.getdlnActCoeffds R 0 dXds out).2 k
      = Finset.sum (Finset.range self.numBinaryInteractions_) (fun i =>
          margulesTermDA (kron k (rd self.m_pSpecies_B_ij i)) (XBAt self i)
              (g0At R self i) (g1At R self i) * dXds (rd self.m_pSpecies_A_ij i)
          + margulesTermDB (kron k (rd self.m_pSpecies_A_ij i))
              (kron k (rd self.m_pSpecies_B_ij i)) (XAAt self i) (XBAt self i)
              (g0At R self i) (g1At R self i) * dXds (rd self.m_pSpecies_B_ij i)) := by
    rw [getdlnActCoeffds_value R self 0 dXds out k hk]
    apply Finset.sum_congr rfl
    intro i hi
    rw [dlnActCoeffdsTerm_distinct R self dXds k i (hAB i (Finset.mem_range.mp hi))]
    unfold margulesTermDA margulesTermDB
    ring
  constructor
  · rw [hval]
    exact hasDerivAt_lnActCoeff_along R self
      (fun s => displaced self.m_kk self.moleFractions_ dXds s)
      (fun j => dXds j) 0
      (fun j hj => by
        have hF : (fun s => rd (displaced self.m_kk self.moleFractions_ dXds s) j)
            = fun s => rd self.moleFractions_ j + s * dXds j := by
          funext s
          exact rd_displaced _ _ _ _ j hj
        rw [hF]
        have h := ((hasDerivAt_id (0 : ℝ)).mul_const (dXds j)).const_add
          (rd self.moleFractions_ j)
        simpa using h)
      (fun j hj => by
        show rd (displaced self.m_kk self.moleFractions_ dXds 0) j = _
        rw [rd_displaced _ _ _ _ j hj, zero_mul, add_zero])
      hAB hA hB k hk
  · refine ⟨_, fun j hj => hasDerivAt_lnActCoeff_coord R self hlen hAB hA hB k hk j hj, ?_⟩
    rw [hval]
    simp only [Finset.sum_mul]
    rw [Finset.sum_comm]
    apply Finset.sum_congr rfl
    intro i hi
    have hi' := Finset.mem_range.mp hi
    have e1 := sum_kron dXds self.m_kk (rd self.m_pSpecies_A_ij i) (hA i hi')
    have e2 := sum_kron dXds self.m_kk (rd self.m_pSpecies_B_ij i) (hB i hi')
    simp only [add_mul, mul_assoc, Finset.sum_add_distrib, ← Finset.mul_sum, e1, e2]

/-- C32, instance: species 0 of `samplePhase2` over the reals, in the direction
`dXds = (1, -1, 0)`. -/
theorem C32_directional_derivative_witness :
    HasDerivAt
      (fun s => rd (({ (samplePhase2 : MixedSolventElectrolyte ℝ) with
          moleFractions_ := displaced (samplePhase2 : MixedSolventElectrolyte ℝ).m_kk
            (samplePhase2 : MixedSolventElectrolyte ℝ).moleFractions_
            (fun j => rd [1, -1, 0] j) s } :
        MixedSolventElectrolyte ℝ).s_update_lnActCoeff 1).lnActCoeff_Scaled_ 0)
      (((samplePhase2 : MixedSolventElectrolyte ℝ).getdlnActCoeffds 1 0
        (fun j => rd [1, -1, 0] j) (fun _ => 0)).2 0) 0 :=
  (C32_directional_derivative (1 : ℝ) samplePhase2 (fun j => rd [1, -1, 0] j) (fun _ => 0)
    (by simp [samplePhase2, MixedSolventElectrolyte.blank])
    (by
      intro i hi
      have hi' : i < 2 := hi
      interval_cases i <;> simp [samplePhase2, rd])
    (by
      intro i hi
      have hi' : i < 2 := hi
      interval_cases i <;> simp [samplePhase2, MixedSolventElectrolyte.blank, rd])
    (by
      intro i hi
      have hi' : i < 2 := hi
      interval_cases i <;> simp [samplePhase2, MixedSolventElectrolyte.blank, rd])
    0 (by decide)).1

end Directions

/-! ## Mu0Poly: the divisors of the heat-capacity formulas -/

section Divisors
variable [LinearOrderedField K] [FloorRing K]

/-- C34. For every valid coefficient vector with positive temperatures (`log` being the
natural logarithm), `processCoeffs` returns tables in which, on every interval `i`, the
divisor `(T2 - T1) - T2*log(T2/T1)` of the upward formula is negative and the divisor
`(T2 - T1) - T1*log(T2/T1)` of the downward formula is positive; so the stored heat
capacity of an interval from the anchor upward, multiplied by the upward divisor, gives the
upward numerator, and that of an interval below the anchor, multiplied by the downward
divisor, gives the downward numerator. -/
theorem C34_divisors_nonzero (R : K) (log : K → K) (hlog : LogLike log) (c : Nat → K)
    (self : Mu0Poly K) (hv : ValidCoeffs c)
    (hpos : ∀ i, i < ⌊c 0⌋₊ → 0 < tempAt c i) :
    ∃ st a, processCoeffs R log c self = .ok st ∧ a ≤ st.m_numIntervals ∧
      tempAt c a = 298.15 ∧
      ∀ i, i < st.m_numIntervals →
        rd st.m_t0_int (i + 1) - rd st.m_t0_int i
          - rd st.m_t0_int (i + 1) * log (rd st.m_t0_int (i + 1) / rd st.m_t0_int i) < 0 ∧
        0 < rd st.m_t0_int (i + 1) - rd st.m_t0_int i
          - rd st.m_t0_int i * log (rd st.m_t0_int (i + 1) / rd st.m_t0_int i) ∧
        (a ≤ i →
          rd st.m_cp0_R_int i
            * (rd st.m_t0_int (i + 1) - rd st.m_t0_int i
              - rd st.m_t0_int (i + 1) * log (rd st.m_t0_int (i + 1) / rd st.m_t0_int i))
          = rd st.m_mu0_R_int (i + 1) - rd st.m_mu0_R_int i
            - rd st.m_t0_int i * rd st.m_s0_R_int i
            + rd st.m_t0_int (i + 1) * rd st.m_s0_R_int i) ∧
        (i < a →
          rd st.m_cp0_R_int i
            * (rd st.m_t0_int (i + 1) - rd st.m_t0_int i
              - rd st.m_t0_int i * log (rd st.m_t0_int (i + 1) / rd st.m_t0_int i))
          = rd st.m_mu0_R_int (i + 1) - rd st.m_mu0_R_int i
            - rd st.m_t0_int i * rd st.m_s0_R_int (i + 1)
            + rd st.m_t0_int (i + 1) * rd st.m_s0_R_int (i + 1)) := by
  obtain ⟨st, a, hst, hc, -⟩ := processCoeffs_valid R log c self hv
  refine ⟨st, a, hst, hc.anchor_le, hc.anchor, fun i hi => ?_⟩
  have hn := hc.numIntervals
  have h1 : 0 < rd st.m_t0_int i := by
    rw [hc.t0 i (by omega)]
    exact hpos i (by omega)
  have h12 : rd st.m_t0_int i < rd st.m_t0_int (i + 1) :=
    hc.temps_lt hv i (i + 1) (by omega) (by omega)
  have hup := up_divisor_neg log hlog _ _ h1 h12
  have hdown := down_divisor_pos log hlog _ _ h1 h12
  refine ⟨hup, hdown, fun hai => ?_, fun hia => ?_⟩
  · rw [(hc.up i hai hi).1, div_mul_cancel₀ _ (ne_of_lt hup)]
  · rw [(hc.down i hia).1, div_mul_cancel₀ _ (ne_of_gt hdown)]

/-- C34, instance: the sample table over the reals with the real logarithm. -/
theorem C34_divisors_nonzero_witness :
    ∃ st a, processCoeffs (8314 : ℝ) Real.log sampleCoeffs (Mu0Poly.init 0 100 500 101325)
        = .ok st ∧ a ≤ st.m_numIntervals ∧
      tempAt (sampleCoeffs : Nat → ℝ) a = 298.15 ∧
      ∀ i, i < st.m_numIntervals →
        rd st.m_t0_int (i + 1) - rd st.m_t0_int i
          - rd st.m_t0_int (i + 1) * Real.log (rd st.m_t0_int (i + 1) / rd st.m_t0_int i) < 0 ∧
        0 < rd st.m_t0_int (i + 1) - rd st.m_t0_int i
          - rd st.m_t0_int i * Real.log (rd st.m_t0_int (i + 1) / rd st.m_t0_int i) ∧
        (a ≤ i →
          rd st.m_cp0_R_int i
            * (rd st.m_t0_int (i + 1) - rd st.m_t0_int i
              - rd st.m_t0_int (i + 1)
                * Real.log (rd st.m_t0_int (i + 1) / rd st.m_t0_int i))
          = rd st.m_mu0_R_int (i + 1) - rd st.m_mu0_R_int i
            - rd st.m_t0_int i * rd st.m_s0_R_int i
            + rd st.m_t0_int (i + 1) * rd st.m_s0_R_int i) ∧
        (i < a →
          rd st.m_cp0_R_int i
            * (rd st.m_t0_int (i + 1) - rd st.m_t0_int i
              - rd st.m_t0_int i * Real.log (rd st.m_t0_int (i + 1) / rd st.m_t0_int i))
          = rd st.m_mu0_R_int (i + 1) - rd st.m_mu0_R_int i
            - rd st.m_t0_int i * rd st.m_s0_R_int (i + 1)
            + rd st.m_t0_int (i + 1) * rd st.m_s0_R_int (i + 1)) :=
  C34_divisors_nonzero 8314 Real.log realLog_logLike sampleCoeffs _ sampleCoeffs_valid
    (by
      intro i hi
      have h0 : ⌊(sampleCoeffs : Nat → ℝ) 0⌋₊ = 3 := by simp [sampleCoeffs, rd]
      rw [h0] at hi
      interval_cases i <;> norm_num [tempAt, sampleCoeffs, rd])

end Divisors

/-! ## MixedSolventElectrolyte: the indicators of a record -/

section Indicators
variable [LinearOrderedField K]

/-- C33, counterexample. In `sampleSelfPhase` the single record names species 0 as `A` and as
`B` (`X_A = X_B = 0.25`, and with `R = 1`, `g0 = 2`, `g1 = 1`).  The term accumulated for
species 0 is the summand with `dA = 1` and `dB = 0`, 13/32; with both indicators 1 the
summand would be 33/32. -/
theorem C33_counterexample :
    rd ((sampleSelfPhase : MixedSolventElectrolyte ℚ).s_update_lnActCoeff 1).lnActCoeff_Scaled_ 0
      = 13 / 32 ∧
    rd ((sampleSelfPhase : MixedSolventElectrolyte ℚ).s_update_lnActCoeff 1).lnActCoeff_Scaled_ 0
      ≠ margulesTerm 1 1 (XAAt (sampleSelfPhase : MixedSolventElectrolyte ℚ) 0)
        (XBAt sampleSelfPhase 0) (g0At 1 sampleSelfPhase 0) (g1At 1 sampleSelfPhase 0) ∧
    rd (sampleSelfPhase : MixedSolventElectrolyte ℚ).m_pSpecies_A_ij 0 = 0 ∧
    rd (sampleSelfPhase : MixedSolventElectrolyte ℚ).m_pSpecies_B_ij 0 = 0 ∧
    margulesTerm 1 1 (XAAt (sampleSelfPhase : MixedSolventElectrolyte ℚ) 0)
      (XBAt sampleSelfPhase 0) (g0At 1 sampleSelfPhase 0) (g1At 1 sampleSelfPhase 0)
      = 33 / 32 ∧
    margulesTerm 1 0 (XAAt (sampleSelfPhase : MixedSolventElectrolyte ℚ) 0)
      (XBAt sampleSelfPhase 0) (g0At 1 sampleSelfPhase 0) (g1At 1 sampleSelfPhase 0)
      = 13 / 32 := by
  have hcode : rd ((sampleSelfPhase : MixedSolventElectrolyte ℚ).s_update_lnActCoeff
      1).lnActCoeff_Scaled_ 0 = 13 / 32 := by
    rw [lnActCoeff_sum (1 : ℚ) sampleSelfPhase 0 (by decide)]
    norm_num [sampleSelfPhase, sampleBinary, MixedSolventElectrolyte.blank,
      Finset.sum_range_succ, lnActCoeffTerm, rd]
  have hboth : margulesTerm 1 1 (XAAt (sampleSelfPhase : MixedSolventElectrolyte ℚ) 0)
      (XBAt sampleSelfPhase 0) (g0At 1 sampleSelfPhase 0) (g1At 1 sampleSelfPhase 0)
      = 33 / 32 := by
    norm_num [margulesTerm, XAAt, XBAt, g0At, g1At, sampleSelfPhase, sampleBinary,
      MixedSolventElectrolyte.blank, rd]
  refine ⟨hcode, ?_, rfl, rfl, hboth, ?_⟩
  · rw [hcode, hboth]
    norm_num
  · norm_num [margulesTerm, XAAt, XBAt, g0At, g1At, sampleSelfPhase, sampleBinary,
      MixedSolventElectrolyte.blank, rd]

/-- C33, amended. In the activity-coefficient sum of species `k < m_kk` the indicators of
record `i` are `dA = 1` if `k = A_i` else 0 and `dB = 1` if `k = B_i` and `k ≠ A_i`, else 0:
the code tests `B_i` only when `A_i` is not `k`.  For a record with `A_i ≠ B_i` these are the
two independent indicators; for a record whose `A_i` and `B_i` are the same species `k`,
`dA = 1` and `dB = 0` in the term accumulated for `k`. -/
theorem C33_indicators_else_if (R : K) (self : MixedSolventElectrolyte K) (k : Nat)
    (hk : k < self.m_kk) :
    rd (self.s_update_lnActCoeff R).lnActCoeff_Scaled_ k
      = Finset.sum (Finset.range self.numBinaryInteractions_) (fun i =>
          margulesTerm (kron k (rd self.m_pSpecies_A_ij i))
            (if rd self.m_pSpecies_A_ij i = k then 0 else kron k (rd self.m_pSpecies_B_ij i))
            (XAAt self i) (XBAt self i) (g0At R self i) (g1At R self i)) ∧
    (∀ i, rd self.m_pSpecies_A_ij i ≠ rd self.m_pSpecies_B_ij i →
      (if rd self.m_pSpecies_A_ij i = k then (0 : K) else kron k (rd self.m_pSpecies_B_ij i))
        = kron k (rd self.m_pSpecies_B_ij i)) ∧
    (∀ i, rd self.m_pSpecies_A_ij i = k → rd self.m_pSpecies_B_ij i = k →
      kron k (rd self.m_pSpecies_A_ij i) = (1 : K) ∧
      (if rd self.m_pSpecies_A_ij i = k then (0 : K) else kron k (rd self.m_pSpecies_B_ij i))
        = 0) := by
  refine ⟨?_, fun i hAB => ?_, fun i hA _ => ?_⟩
  · rw [lnActCoeff_sum R self k hk]
    exact Finset.sum_congr rfl (fun i _ => lnActCoeffTerm_eq R self k i)
  · by_cases hA : rd self.m_pSpecies_A_ij i = k
    · have hB : ¬ k = rd self.m_pSpecies_B_ij i := fun h => hAB (hA.trans h)
      rw [if_pos hA]
      unfold kron
      rw [if_neg hB]
    · rw [if_neg hA]
  · constructor
    · unfold kron
      rw [if_pos hA.symm]
    · rw [if_pos hA]

/-- C33, instance: species 0 of `sampleSelfPhase`, whose record has `A = B = 0`. -/
theorem C33_indicators_else_if_witness :
    rd ((sampleSelfPhase : MixedSolventElectrolyte ℚ).s_update_lnActCoeff 1).lnActCoeff_Scaled_ 0
      = Finset.sum
          (Finset.range (sampleSelfPhase : MixedSolventElectrolyte ℚ).numBinaryInteractions_)
          (fun i =>
            margulesTerm (kron 0 (rd (sampleSelfPhase : MixedSolventElectrolyte ℚ).m_pSpecies_A_ij i))
              (if rd (sampleSelfPhase : MixedSolventElectrolyte ℚ).m_pSpecies_A_ij i = 0 then 0
                else kron 0 (rd (sampleSelfPhase : MixedSolventElectrolyte ℚ).m_pSpecies_B_ij i))
              (XAAt sampleSelfPhase i) (XBAt sampleSelfPhase i) (g0At 1 sampleSelfPhase i)
              (g1At 1 sampleSelfPhase i)) :=
  (C33_indicators_else_if (1 : ℚ) sampleSelfPhase 0 (by decide)).1

end Indicators

/-! ## MixedSolventElectrolyte: consistency relations -/

section Relations
variable [LinearOrderedField K]

theorem second_derivative_scaled (R : K) (self : MixedSolventElectrolyte K)
    (k : Nat) (hk : k < self.m_kk) :
    rd (self.s_update_dlnActCoeff_dT R).d2lnActCoeffdT2_Scaled_ k
      = -(2 / self.temperature) * rd (self.s_update_dlnActCoeff_dT R).dlnActCoeffdT_Scaled_ k := by
  obtain ⟨h1, h2⟩ := dlnActCoeffdT_sum R self k hk
  rw [h1, h2, Finset.mul_sum]
  apply Finset.sum_congr rfl
  intro i _
  norm_num
  ring

/-- C35. For every temperature `T ≠ 0`, composition, list of records and species `k < m_kk`,
`getPartialMolarCp` leaves `cpbar[k] = R * cp_ss/R[k]`, where `cp_ss/R[k]` is what `getCp_R`
left in the buffer: the excess contribution `2*T*dlnActCoeffdT[k] + T^2*d2lnActCoeffdT2[k]`
is zero, so the result does not depend on the interaction parameters. -/
theorem C35_partialMolarCp_no_excess (getCp_R : (Nat → K) → Nat → K) (R : K)
    (self : MixedSolventElectrolyte K) (cpbar : Nat → K)
    (hT : self.temperature ≠ 0) (k : Nat) (hk : k < self.m_kk) :
    (self.getPartialMolarCp getCp_R R cpbar).2 k = R * getCp_R cpbar k ∧
    2 * self.temperature
        * rd (self.getPartialMolarCp getCp_R R cpbar).1.dlnActCoeffdT_Scaled_ k
      + self.temperature * self.temperature
        * rd (self.getPartialMolarCp getCp_R R cpbar).1.d2lnActCoeffdT2_Scaled_ k = 0 := by
  have hs : (self.getPartialMolarCp getCp_R R cpbar).1
      = (self.s_update_lnActCoeff R).s_update_dlnActCoeff_dT R := rfl
  have hkk : ((self.s_update_lnActCoeff R).s_update_dlnActCoeff_dT R).m_kk = self.m_kk := rfl
  have hTT : (self.s_update_lnActCoeff R).temperature = self.temperature := rfl
  have hd2 := second_derivative_scaled R (self.s_update_lnActCoeff R) k hk
  rw [hTT] at hd2
  have hzero : 2 * self.temperature
        * rd ((self.s_update_lnActCoeff R).s_update_dlnActCoeff_dT R).dlnActCoeffdT_Scaled_ k
      + self.temperature * self.temperature
        * rd ((self.s_update_lnActCoeff R).s_update_dlnActCoeff_dT R).d2lnActCoeffdT2_Scaled_ k
      = 0 := by
    rw [hd2]
    field_simp
    ring
  refine ⟨?_, by rw [hs]; exact hzero⟩
  unfold MixedSolventElectrolyte.getPartialMolarCp
  simp only
  rw [forLoop_update_at (fun _ v => v * R) _ (fun _ _ => rfl),
    if_pos ⟨Nat.zero_le _, by rw [hkk]; omega⟩,
    forLoop_update_at
      (fun k v => v - (2 * self.temperature
          * rd ((self.s_update_lnActCoeff R).s_update_dlnActCoeff_dT R).dlnActCoeffdT_Scaled_ k
        + self.temperature * self.temperature
          * rd ((self.s_update_lnActCoeff R).s_update_dlnActCoeff_dT R).d2lnActCoeffdT2_Scaled_
            k))
      _ (fun _ _ => rfl),
    if_pos ⟨Nat.zero_le _, by rw [hkk]; omega⟩]
  simp only [hzero, sub_zero]
  ring

/-- C35, instance: species 1 of `samplePhase2` with `cp_ss/R = 4` for every species. -/
theorem C35_partialMolarCp_no_excess_witness :
    ((samplePhase2 : MixedSolventElectrolyte ℚ).getPartialMolarCp (fun _ _ => 4) 8314
        (fun _ => 0)).2 1
      = 8314 * (fun (_ : Nat → ℚ) (_ : Nat) => (4 : ℚ)) (fun _ => 0) 1 ∧
    2 * (samplePhase2 : MixedSolventElectrolyte ℚ).temperature
        * rd ((samplePhase2 : MixedSolventElectrolyte ℚ).getPartialMolarCp (fun _ _ => 4) 8314
          (fun _ => 0)).1.dlnActCoeffdT_Scaled_ 1
      + (samplePhase2 : MixedSolventElectrolyte ℚ).temperature
        * (samplePhase2 : MixedSolventElectrolyte ℚ).temperature
        * rd ((samplePhase2 : MixedSolventElectrolyte ℚ).getPartialMolarCp (fun _ _ => 4) 8314
          (fun _ => 0)).1.d2lnActCoeffdT2_Scaled_ 1 = 0 :=
  C35_partialMolarCp_no_excess (fun _ _ => 4) 8314 samplePhase2 (fun _ => 0)
    (by norm_num [samplePhase2, MixedSolventElectrolyte.blank]) 1 (by decide)

theorem dlnNSum_symm (R : K) (self : MixedSolventElectrolyte K) (k m : Nat) :
    dlnNSum R self k m = dlnNSum R self m k := by
  unfold dlnNSum
  apply Finset.sum_congr rfl
  intro i _
  unfold dlnNTerm1 dlnNTerm2
  ring

/-- C37. For every list of records, every composition and every pair of species
`k, m < m_kk`, the matrix left by `s_update_dlnActCoeff_dlnN` satisfies
`X_k * dlnActCoeffdlnN(k, m) = X_m * dlnActCoeffdlnN(m, k)`. -/
theorem C37_jacobian_symmetry (index2D : Nat → Nat → Nat) (R : K)
    (self : MixedSolventElectrolyte K)
    (hlay : Array2DLayout index2D self.m_kk self.dlnActCoeffdlnN_.length)
    (k m : Nat) (hk : k < self.m_kk) (hm : m < self.m_kk) :
    rd self.moleFractions_ k
        * rd (self.s_update_dlnActCoeff_dlnN index2D R).dlnActCoeffdlnN_ (index2D k m)
      = rd self.moleFractions_ m
        * rd (self.s_update_dlnActCoeff_dlnN index2D R).dlnActCoeffdlnN_ (index2D m k) := by
  rw [dlnActCoeffdlnN_entry index2D R self hlay k m hk hm,
    dlnActCoeffdlnN_entry index2D R self hlay m k hm hk, dlnNSum_symm R self k m]
  ring

/-- C37, instance: the entries `(0, 2)` and `(2, 0)` of `samplePhase2` with a column-major
3 by 3 store. -/
theorem C37_jacobian_symmetry_witness :
    rd (samplePhase2 : MixedSolventElectrolyte ℚ).moleFractions_ 0
        * rd ((samplePhase2 : MixedSolventElectrolyte ℚ).s_update_dlnActCoeff_dlnN
          (columnMajor 3) 1).dlnActCoeffdlnN_ (columnMajor 3 0 2)
      = rd (samplePhase2 : MixedSolventElectrolyte ℚ).moleFractions_ 2
        * rd ((samplePhase2 : MixedSolventElectrolyte ℚ).s_update_dlnActCoeff_dlnN
          (columnMajor 3) 1).dlnActCoeffdlnN_ (columnMajor 3 2 0) :=
  C37_jacobian_symmetry (columnMajor 3) (1 : ℚ) samplePhase2 (columnMajor_layout 3) 0 2
    (by decide) (by decide)

/-- C36. For every composition whose mole fractions sum to 1 and every list of records with
`A_i ≠ B_i` (both species of the phase), the sum over the species of
`X_k * lnActCoeff[k]`, with `lnActCoeff` as left by `s_update_lnActCoeff`, equals the sum
over the records of `X_A*X_B*(g0 + g1*X_B)`. -/
theorem C36_excess_gibbs_expansion (R : K) (self : MixedSolventElectrolyte K)
    (hX : Finset.sum (Finset.range self.m_kk) (fun j => rd self.moleFractions_ j) = 1)
    (hAB : ∀ i, i < self.numBinaryInteractions_ →
      rd self.m_pSpecies_A_ij i ≠ rd self.m_pSpecies_B_ij i)
    (hA : ∀ i, i < self.numBinaryInteractions_ → rd self.m_pSpecies_A_ij i < self.m_kk)
    (hB : ∀ i, i < self.numBinaryInteractions_ → rd self.m_pSpecies_B_ij i < self.m_kk) :
    Finset.sum (Finset.range self.m_kk) (fun k =>
      rd self.moleFractions_ k * rd (self.s_update_lnActCoeff R).lnActCoeff_Scaled_ k)
    = Finset.sum (Finset.range self.numBinaryInteractions_) (fun i =>
        XAAt self i * XBAt self i * (g0At R self i + g1At R self i * XBAt self i)) := by
  have h1 : ∀ k, k ∈ Finset.range self.m_kk →
      rd self.moleFractions_ k * rd (self.s_update_lnActCoeff R).lnActCoeff_Scaled_ k
      = Finset.sum (Finset.range self.numBinaryInteractions_) (fun i =>
          rd self.moleFractions_ k
            * margulesTerm (kron k (rd self.m_pSpecies_A_ij i))
                (kron k (rd self.m_pSpecies_B_ij i))
                (XAAt self i) (XBAt self i) (g0At R self i) (g1At R self i)) := by
    intro k hk
    rw [lnActCoeff_sum R self k (Finset.mem_range.mp hk), Finset.mul_sum]
    apply Finset.sum_congr rfl
    intro i hi
    rw [lnActCoeffTerm_distinct R self k i (hAB i (Finset.mem_range.mp hi))]
  rw [Finset.sum_congr rfl h1, Finset.sum_comm]
  apply Finset.sum_congr rfl
  intro i hi
  have hi' := Finset.mem_range.mp hi
  have hterm : ∀ k,
      rd self.moleFractions_ k
        * margulesTerm (kron k (rd self.m_pSpecies_A_ij i))
            (kron k (rd self.m_pSpecies_B_ij i))
            (XAAt self i) (XBAt self i) (g0At R self i) (g1At R self i)
      = (XBAt self i * (g0At R self i + g1At R self i * XBAt self i))
          * (rd self.moleFractions_ k * (if rd self.m_pSpecies_A_ij i = k then (1 : K) else 0))
        + (XAAt self i * (g0At R self i + g1At R self i * XBAt self i)
            + XAAt self i * XBAt self i * g1At R self i)
          * (rd self.moleFractions_ k * (if rd self.m_pSpecies_B_ij i = k then (1 : K) else 0))
        + (-(XAAt self i * XBAt self i * (g0At R self i + g1At R self i * XBAt self i))
            - XAAt self i * XBAt self i * XBAt self i * g1At R self i)
          * rd self.moleFractions_ k := by
    intro k
    unfold margulesTerm kron
    by_cases h1 : rd self.m_pSpecies_A_ij i = k
    · have h1' : k = rd self.m_pSpecies_A_ij i := h1.symm
      by_cases h2 : rd self.m_pSpecies_B_ij i = k
      · exact absurd (h1.trans h2.symm) (hAB i hi')
      · have h2' : ¬ k = rd self.m_pSpecies_B_ij i := fun h => h2 h.symm
        rw [if_pos h1, if_pos h1', if_neg h2, if_neg h2']
        ring
    · have h1' : ¬ k = rd self.m_pSpecies_A_ij i := fun h => h1 h.symm
      by_cases h2 : rd self.m_pSpecies_B_ij i = k
      · have h2' : k = rd self.m_pSpecies_B_ij i := h2.symm
        rw [if_neg h1, if_neg h1', if_pos h2, if_pos h2']
        ring
      · have h2' : ¬ k = rd self.m_pSpecies_B_ij i := fun h => h2 h.symm
        rw [if_neg h1, if_neg h1', if_neg h2, if_neg h2']
        ring
  rw [Finset.sum_congr rfl (fun k _ => hterm k), Finset.sum_add_distrib,
    Finset.sum_add_distrib, ← Finset.mul_sum, ← Finset.mul_sum, ← Finset.mul_sum,
    sum_indicator _ _ _ (hA i hi'), sum_indicator _ _ _ (hB i hi'), hX]
  unfold XAAt XBAt
  ring

/-- C36, instance: `samplePhase2`, whose mole fractions 0.2, 0.3, 0.5 sum to 1. -/
theorem C36_excess_gibbs_expansion_witness :
    Finset.sum (Finset.range (samplePhase2 : MixedSolventElectrolyte ℚ).m_kk) (fun k =>
      rd (samplePhase2 : MixedSolventElectrolyte ℚ).moleFractions_ k
        * rd ((samplePhase2 : MixedSolventElectrolyte ℚ).s_update_lnActCoeff
          1).lnActCoeff_Scaled_ k)
    = Finset.sum (Finset.range (samplePhase2 : MixedSolventElectrolyte ℚ).numBinaryInteractions_)
        (fun i => XAAt (samplePhase2 : MixedSolventElectrolyte ℚ) i * XBAt samplePhase2 i
          * (g0At 1 samplePhase2 i + g1At 1 samplePhase2 i * XBAt samplePhase2 i)) :=
  C36_excess_gibbs_expansion (1 : ℚ) samplePhase2
    (by norm_num [samplePhase2, MixedSolventElectrolyte.blank, rd, Finset.sum_range_succ])
    (by
      intro i hi
      have hi' : i < 2 := hi
      interval_cases i <;> simp [samplePhase2, rd])
    (by
      intro i hi
      have hi' : i < 2 := hi
      interval_cases i <;> simp [samplePhase2, MixedSolventElectrolyte.blank, rd])
    (by
      intro i hi
      have hi' : i < 2 := hi
      interval_cases i <;> simp [samplePhase2, MixedSolventElectrolyte.blank, rd])

end Relations

/-! ## MixedSolventElectrolyte: consistency of the partial molar properties -/

section PartialMolar
variable [LinearOrderedField K]

theorem getPartialMolarEnthalpies_value (getEnthalpy_RT : (Nat → K) → Nat → K) (R : K)
    (self : MixedSolventElectrolyte K) (hbar : Nat → K) (k : Nat) (hk : k < self.m_kk) :
    (self.getPartialMolarEnthalpies getEnthalpy_RT R hbar).2 k
      = getEnthalpy_RT hbar k * (R * self.temperature)
        - R * self.temperature * self.temperature
          * rd ((self.s_update_lnActCoeff R).s_update_dlnActCoeff_dT R).dlnActCoeffdT_Scaled_
            k := by
  have hkk : ((self.s_update_lnActCoeff R).s_update_dlnActCoeff_dT R).m_kk = self.m_kk := rfl
  unfold MixedSolventElectrolyte.getPartialMolarEnthalpies
  simp only
  rw [forLoop_update_at
      (fun k v => v - R * self.temperature * self.temperature
        * rd ((self.s_update_lnActCoeff R).s_update_dlnActCoeff_dT R).dlnActCoeffdT_Scaled_ k)
      _ (fun _ _ => rfl),
    if_pos ⟨Nat.zero_le _, by rw [hkk]; omega⟩,
    forLoop_update_at (fun _ v => v * (R * self.temperature)) _ (fun _ _ => rfl),
    if_pos ⟨Nat.zero_le _, by omega⟩]

theorem getPartialMolarEntropies_value (getEntropy_R : (Nat → K) → Nat → K) (log : K → K)
    (SmallNumber R : K) (self : MixedSolventElectrolyte K) (sbar : Nat → K)
    (k : Nat) (hk : k < self.m_kk) :
    (self.getPartialMolarEntropies getEntropy_R log SmallNumber R sbar).2 k
      = (getEntropy_R sbar k
          + (-rd (self.s_update_lnActCoeff R).lnActCoeff_Scaled_ k
            - log (max (rd self.moleFractions_ k) SmallNumber)
            - self.temperature
              * rd ((self.s_update_lnActCoeff R).s_update_dlnActCoeff_dT
                R).dlnActCoeffdT_Scaled_ k)) * R := by
  have hkk : ((self.s_update_lnActCoeff R).s_update_dlnActCoeff_dT R).m_kk = self.m_kk := rfl
  unfold MixedSolventElectrolyte.getPartialMolarEntropies
  simp only
  rw [forLoop_update_at (fun _ v => v * R) _ (fun _ _ => rfl),
    if_pos ⟨Nat.zero_le _, by rw [hkk]; omega⟩,
    forLoop_update_at
      (fun k v => v
        + (-rd ((self.s_update_lnActCoeff R).s_update_dlnActCoeff_dT R).lnActCoeff_Scaled_ k
          - log (max (rd ((self.s_update_lnActCoeff R).s_update_dlnActCoeff_dT
              R).moleFractions_ k) SmallNumber)
          - self.temperature
            * rd ((self.s_update_lnActCoeff R).s_update_dlnActCoeff_dT
              R).dlnActCoeffdT_Scaled_ k))
      _ (fun _ _ => rfl),
    if_pos ⟨Nat.zero_le _, by rw [hkk]; omega⟩]
  rfl

theorem getChemPotentials_value (getStandardChemPotentials : (Nat → K) → Nat → K)
    (log : K → K) (SmallNumber R : K) (self : MixedSolventElectrolyte K) (mu : Nat → K)
    (k : Nat) (hk : k < self.m_kk) :
    (self.getChemPotentials getStandardChemPotentials log SmallNumber R mu).2 k
      = getStandardChemPotentials mu k
        + R * self.temperature * (log (max (rd self.moleFractions_ k) SmallNumber)
          + rd (self.s_update_lnActCoeff R).lnActCoeff_Scaled_ k) := by
  unfold MixedSolventElectrolyte.getChemPotentials
  simp only
  rw [forLoop_update_at
    (fun k x => x + R * (self.s_update_lnActCoeff R).temperature
      * (log (max (rd (self.s_update_lnActCoeff R).moleFractions_ k) SmallNumber)
        + rd (self.s_update_lnActCoeff R).lnActCoeff_Scaled_ k)) _ (fun _ _ => rfl)]
  rw [if_pos ⟨Nat.zero_le _, by simpa using hk⟩]
  rfl

theorem SameInputs.trans {s s' s'' : MixedSolventElectrolyte K} (h : SameInputs s s')
    (h' : SameInputs s' s'') : SameInputs s s'' :=
  ⟨h'.m_kk.trans h.m_kk, h'.temperature.trans h.temperature,
    h'.moleFractions_.trans h.moleFractions_,
    h'.numBinaryInteractions_.trans h.numBinaryInteractions_,
    h'.m_HE_b_ij.trans h.m_HE_b_ij, h'.m_HE_c_ij.trans h.m_HE_c_ij,
    h'.m_SE_b_ij.trans h.m_SE_b_ij, h'.m_SE_c_ij.trans h.m_SE_c_ij,
    h'.m_pSpecies_A_ij.trans h.m_pSpecies_A_ij, h'.m_pSpecies_B_ij.trans h.m_pSpecies_B_ij⟩

theorem sameInputs_lnActCoeff (R : K) (s : MixedSolventElectrolyte K) :
    SameInputs s (s.s_update_lnActCoeff R) :=
  ⟨rfl, rfl, rfl, rfl, rfl, rfl, rfl, rfl, rfl, rfl⟩

theorem sameInputs_dlnActCoeff_dT (R : K) (s : MixedSolventElectrolyte K) :
    SameInputs s (s.s_update_dlnActCoeff_dT R) :=
  ⟨rfl, rfl, rfl, rfl, rfl, rfl, rfl, rfl, rfl, rfl⟩

/-- The vector left by `s_update_lnActCoeff` depends only on the composition, the
temperature and the records, not on the work vectors of the object. -/
theorem lnActCoeff_Scaled_congr (R : K) (s s' : MixedSolventElectrolyte K)
    (h : SameInputs s s') :
    (s'.s_update_lnActCoeff R).lnActCoeff_Scaled_
      = (s.s_update_lnActCoeff R).lnActCoeff_Scaled_ := by
  unfold MixedSolventElectrolyte.s_update_lnActCoeff lnActCoeffTerm
  simp only [h.m_kk, h.temperature, h.moleFractions_, h.numBinaryInteractions_, h.m_HE_b_ij,
    h.m_HE_c_ij, h.m_SE_b_ij, h.m_SE_c_ij, h.m_pSpecies_A_ij, h.m_pSpecies_B_ij]

/-- The vector `dlnActCoeffdT_Scaled_` left by `s_update_dlnActCoeff_dT` depends only on the
composition, the temperature and the records. -/
theorem dlnActCoeffdT_Scaled_congr (R : K) (s s' : MixedSolventElectrolyte K)
    (h : SameInputs s s') :
    (s'.s_update_dlnActCoeff_dT R).dlnActCoeffdT_Scaled_
      = (s.s_update_dlnActCoeff_dT R).dlnActCoeffdT_Scaled_ := by
  unfold MixedSolventElectrolyte.s_update_dlnActCoeff_dT dlnActCoeffdTTerm
  simp only [h.m_kk, h.temperature, h.moleFractions_, h.numBinaryInteractions_, h.m_HE_b_ij,
    h.m_HE_c_ij, h.m_pSpecies_A_ij, h.m_pSpecies_B_ij]

/-- C38. The standard state is the constant-volume one: `getEnthalpy_RT`, `getEntropy_R` and
`getStandardChemPotentials` deliver, for the species of the phase, `h_ss/RT`, `s_ss/R` and
`R*T*g_ss/RT` of a manager after `_updateStandardStateThermo`.  Then for every temperature,
composition, list of records and species `k < m_kk`, the results of
`getPartialMolarEnthalpies`, `getPartialMolarEntropies` and `getChemPotentials`, called one
after the other on the same phase, satisfy `hbar[k] - T * sbar[k] = mu[k]`. -/
theorem C38_partial_molar_consistency
    (getEnthalpy_RT getEntropy_R getStandardChemPotentials : (Nat → K) → Nat → K)
    (log : K → K) (SmallNumber R : K) (mgr : VPSSMgr_ConstVol K)
    (self : MixedSolventElectrolyte K) (hbar0 sbar0 mu0 : Nat → K)
    (hsz : mgr.Sized) (hkk : self.m_kk ≤ mgr.m_kk.toNat)
    (hH : ∀ buf k, k < self.m_kk →
      getEnthalpy_RT buf k = rd (mgr._updateStandardStateThermo R).m_hss_RT k)
    (hS : ∀ buf k, k < self.m_kk →
      getEntropy_R buf k = rd (mgr._updateStandardStateThermo R).m_sss_R k)
    (hMu : ∀ buf k, k < self.m_kk →
      getStandardChemPotentials buf k
        = R * self.temperature * rd (mgr._updateStandardStateThermo R).m_gss_RT k)
    (k : Nat) (hk : k < self.m_kk) :
    (self.getPartialMolarEnthalpies getEnthalpy_RT R hbar0).2 k
      - self.temperature
        * ((self.getPartialMolarEnthalpies getEnthalpy_RT R hbar0).1.getPartialMolarEntropies
            getEntropy_R log SmallNumber R sbar0).2 k
      = (((self.getPartialMolarEnthalpies getEnthalpy_RT R hbar0).1.getPartialMolarEntropies
            getEntropy_R log SmallNumber R sbar0).1.getChemPotentials
          getStandardChemPotentials log SmallNumber R mu0).2 k := by
  have v1 := getPartialMolarEnthalpies_value getEnthalpy_RT R self hbar0 k hk
  have v2 := getPartialMolarEntropies_value getEntropy_R log SmallNumber R
    (self.getPartialMolarEnthalpies getEnthalpy_RT R hbar0).1 sbar0 k hk
  have v3 := getChemPotentials_value getStandardChemPotentials log SmallNumber R
    ((self.getPartialMolarEnthalpies getEnthalpy_RT R hbar0).1.getPartialMolarEntropies
      getEntropy_R log SmallNumber R sbar0).1 mu0 k hk
  have c1 : (self.getPartialMolarEnthalpies getEnthalpy_RT R hbar0).1 =
      (self.s_update_lnActCoeff R).s_update_dlnActCoeff_dT R := rfl
  have c2 : ((self.getPartialMolarEnthalpies getEnthalpy_RT R hbar0).1.getPartialMolarEntropies
      getEntropy_R log SmallNumber R sbar0).1 =
      (((self.s_update_lnActCoeff R).s_update_dlnActCoeff_dT R).s_update_lnActCoeff
        R).s_update_dlnActCoeff_dT R := rfl
  rw [c2] at v3
  rw [c1] at v2
  have i1 : SameInputs self ((self.s_update_lnActCoeff R).s_update_dlnActCoeff_dT R) :=
    (sameInputs_lnActCoeff R self).trans (sameInputs_dlnActCoeff_dT R _)
  have i2 : SameInputs self
      ((((self.s_update_lnActCoeff R).s_update_dlnActCoeff_dT R).s_update_lnActCoeff
        R).s_update_dlnActCoeff_dT R) :=
    (i1.trans (sameInputs_lnActCoeff R _)).trans (sameInputs_dlnActCoeff_dT R _)
  have l21 : (((self.s_update_lnActCoeff R).s_update_dlnActCoeff_dT R).s_update_lnActCoeff
      R).lnActCoeff_Scaled_ = (self.s_update_lnActCoeff R).lnActCoeff_Scaled_ :=
    lnActCoeff_Scaled_congr R self _ i1
  have l31 : (((((self.s_update_lnActCoeff R).s_update_dlnActCoeff_dT R).s_update_lnActCoeff
      R).s_update_dlnActCoeff_dT R).s_update_lnActCoeff R).lnActCoeff_Scaled_
      = (self.s_update_lnActCoeff R).lnActCoeff_Scaled_ :=
    lnActCoeff_Scaled_congr R self _ i2
  have d21 : ((((self.s_update_lnActCoeff R).s_update_dlnActCoeff_dT R).s_update_lnActCoeff
      R).s_update_dlnActCoeff_dT R).dlnActCoeffdT_Scaled_
      = ((self.s_update_lnActCoeff R).s_update_dlnActCoeff_dT R).dlnActCoeffdT_Scaled_ :=
    dlnActCoeffdT_Scaled_congr R (self.s_update_lnActCoeff R) _
      ((sameInputs_dlnActCoeff_dT R _).trans (sameInputs_lnActCoeff R _))
  rw [l21, d21, i1.temperature, i1.moleFractions_] at v2
  rw [l31, i2.temperature, i2.moleFractions_] at v3
  obtain ⟨-, -, -, hg, -⟩ := updateStandardStateThermo_spec R mgr hsz k (by omega)
  rw [c2, c1, v1, v2, v3, hH hbar0 k hk, hS sbar0 k hk, hMu mu0 k hk, hg]
  ring

/-- C38, instance: species 1 of `sampleBinary` over the reals with the real logarithm, the
standard state taken from `sampleMgr` after its update. -/
theorem C38_partial_molar_consistency_witness :
    ((sampleBinary : MixedSolventElectrolyte ℝ).getPartialMolarEnthalpies
        (fun _ k => rd ((sampleMgr : VPSSMgr_ConstVol ℝ)._updateStandardStateThermo 8314).m_hss_RT
          k) 8314 (fun _ => 0)).2 1
      - (sampleBinary : MixedSolventElectrolyte ℝ).temperature
        * (((sampleBinary : MixedSolventElectrolyte ℝ).getPartialMolarEnthalpies
            (fun _ k =>
              rd ((sampleMgr : VPSSMgr_ConstVol ℝ)._updateStandardStateThermo 8314).m_hss_RT k)
            8314 (fun _ => 0)).1.getPartialMolarEntropies
            (fun _ k =>
              rd ((sampleMgr : VPSSMgr_ConstVol ℝ)._updateStandardStateThermo 8314).m_sss_R k)
            Real.log (1 / 1000000) 8314 (fun _ => 0)).2 1
      = ((((sampleBinary : MixedSolventElectrolyte ℝ).getPartialMolarEnthalpies
            (fun _ k =>
              rd ((sampleMgr : VPSSMgr_ConstVol ℝ)._updateStandardStateThermo 8314).m_hss_RT k)
            8314 (fun _ => 0)).1.getPartialMolarEntropies
            (fun _ k =>
              rd ((sampleMgr : VPSSMgr_ConstVol ℝ)._updateStandardStateThermo 8314).m_sss_R k)
            Real.log (1 / 1000000) 8314 (fun _ => 0)).1.getChemPotentials
          (fun _ k => 8314 * (sampleBinary : MixedSolventElectrolyte ℝ).temperature
            * rd ((sampleMgr : VPSSMgr_ConstVol ℝ)._updateStandardStateThermo 8314).m_gss_RT k)
          Real.log (1 / 1000000) 8314 (fun _ => 0)).2 1 :=
  C38_partial_molar_consistency
    (fun _ k => rd ((sampleMgr : VPSSMgr_ConstVol ℝ)._updateStandardStateThermo 8314).m_hss_RT k)
    (fun _ k => rd ((sampleMgr : VPSSMgr_ConstVol ℝ)._updateStandardStateThermo 8314).m_sss_R k)
    (fun _ k => 8314 * (sampleBinary : MixedSolventElectrolyte ℝ).temperature
      * rd ((sampleMgr : VPSSMgr_ConstVol ℝ)._updateStandardStateThermo 8314).m_gss_RT k)
    Real.log (1 / 1000000) 8314 sampleMgr sampleBinary (fun _ => 0) (fun _ => 0) (fun _ => 0)
    (by simp [VPSSMgr_ConstVol.Sized, sampleMgr])
    (by simp [sampleMgr, sampleBinary, MixedSolventElectrolyte.blank])
    (fun _ _ _ => rfl) (fun _ _ _ => rfl) (fun _ _ _ => rfl) 1
    (by simp [sampleBinary, MixedSolventElectrolyte.blank])

end PartialMolar

end Cantera
